import Mathlib

/-!
# TimeValueUpdater

A shallow embedding of `trunk/TimeValueUpdater.h` and `trunk/TimeValueUpdater.cpp`
and theorems about it.

Conventions of the embedding.

* Values of type `int` and `long long` are carried by `Int`.
* Arithmetic on `int` is 32-bit two's complement arithmetic: the result of every
  `+`, `-` and `*` on `int` operands is reduced by `toInt32`, the value a
  two's complement target leaves when the exact result does not fit.  Two `int`
  operations are written without the reduction because their operands exclude
  an overflow: the division by `curUpdateDuration` (TimeValueUpdater.cpp:102),
  whose dividend is already reduced and whose divisor is at least 1, and
  `curUpdateDuration - 1` (TimeValueUpdater.cpp:128), whose operand is at least
  1.
* Arithmetic on `long long` (the timestamps in milliseconds) is exact.
* Conversions between integer types are modelled with their modulus, as two's
  complement targets perform them (and as C++20 defines them): `toUInt64` (to
  `unsigned long long`), `toInt64` (back to `long long`) and `toInt32` (the
  explicit `(int)` casts of `Update`).  Arithmetic on `unsigned long long` is
  arithmetic modulo `2^64`; in `Update` every such result is converted at once
  (`toUInt64` of the difference, `toUInt64` of the product).
* `/` on signed operands truncates toward zero (`Int.tdiv`); on
  `unsigned long long` operands it is the division of non-negative numbers.
* `std::map` is an association list kept strictly ascending by key
  (`mapInsert`, `mapUpsert`, `mapFind`); iteration order is list order.
* `time( nullptr )` is the parameter `clock` of `_GetCurTimeInMillis` and `Update`.
* The class declares `_GetCurTimeInMillis` with return type `long long`
  (TimeValueUpdater.h:76) while the definition spells `int`
  (TimeValueUpdater.cpp:146); the embedding follows the declaration, which is
  the type `Update` stores the result in.
-/

namespace TimeValueUpdater

/-! ## Machine conversions -/

/-- Conversion to `unsigned long long`: reduction modulo `2^64`. -/
def toUInt64 (x : Int) : Int := x % 18446744073709551616

/-- Conversion to `long long`: the representative of `x` modulo `2^64` in `[-2^63, 2^63)`. -/
def toInt64 (x : Int) : Int :=
  (x + 9223372036854775808) % 18446744073709551616 - 9223372036854775808

/-- Conversion to `int`: the representative of `x` modulo `2^32` in `[-2^31, 2^31)`. -/
def toInt32 (x : Int) : Int := (x + 2147483648) % 4294967296 - 2147483648

/-! ## `std::map` as an ascending association list -/

/-- Lookup of `std::map::find`: the value stored under `k`, if any. -/
def mapFind {β : Type} (k : Int) : List (Int × β) → Option β
  | [] => none
  | (k', v) :: rest => if k' = k then some v else mapFind k rest

/-- Insertion of `std::map::insert`: adds `(k, v)` in key order unless `k` is already present. -/
def mapInsert {β : Type} (k : Int) (v : β) : List (Int × β) → List (Int × β)
  | [] => [(k, v)]
  | (k', v') :: rest =>
    if k < k' then (k, v) :: (k', v') :: rest
    else if k = k' then (k', v') :: rest
    else (k', v') :: mapInsert k v rest

/-- Access of `std::map::operator[]` followed by an update through the returned reference:
the value under `k` (value-initialised to `dflt` when absent) is replaced by `f` of it. -/
def mapUpsert {β : Type} (dflt : β) (f : β → β) (k : Int) : List (Int × β) → List (Int × β)
  | [] => [(k, f dflt)]
  | (k', v') :: rest =>
    if k < k' then (k, f dflt) :: (k', v') :: rest
    else if k = k' then (k', f v') :: rest
    else (k', v') :: mapUpsert dflt f k rest

/-! ## Data model (TimeValueUpdater.h) -/

/-- The type `std::map< int, int >` (TimeValueUpdater.h:25). -/
abbrev EffectValueList := List (Int × Int)

/-- The type `std::map< long long, EffectValueList >` (TimeValueUpdater.h:26). -/
abbrev TimeEffectValueList := List (Int × EffectValueList)

/-- Class `BuffInfo` (TimeValueUpdater.h:32-38). -/
structure BuffInfo where
  effectId : Int
  effectValue : Int
  endTimeInMillis : Int
deriving DecidableEq

/-- Class `Parameter` (TimeValueUpdater.h:43-69). -/
structure Parameter where
  buffInfos : List BuffInfo
  curValue : Int
  minValue : Int
  maxValue : Int
  lastUpdateTimeInMillis : Int
  curTimeInMillis : Int
  updateDuration : Int
  updateValue : Int
  effectIdForCurValue : Int
  effectIdForMaxValue : Int
  effectIdForDuration : Int
  effectIdForUpdateValue : Int
  remainingSeconds : Int
  downwardCorrection : Bool
deriving DecidableEq

/-! ## Operations (TimeValueUpdater.cpp) -/

/-- Method `Parameter::Reset` (TimeValueUpdater.cpp:26-37): assigns the nine fields the body names
and leaves the others as they are. -/
def Parameter.Reset (p : Parameter) : Parameter :=
  { p with
    minValue := 0
    curTimeInMillis := 0
    updateDuration := 0
    effectIdForCurValue := -1
    effectIdForMaxValue := -1
    effectIdForDuration := -1
    effectIdForUpdateValue := -1
    remainingSeconds := -1
    downwardCorrection := false }

/-- Function `_GetCurTimeInMillis` (TimeValueUpdater.cpp:146-152); `clock` is `time( nullptr )`. -/
def _GetCurTimeInMillis (clock : Int) (parameter : Parameter) : Int :=
  if parameter.curTimeInMillis > 0 then
    (Int.tdiv parameter.curTimeInMillis 1000) * 1000
  else
    clock * 1000

/-- Function `_GetEffectAddedValue` (TimeValueUpdater.cpp:187-197); the sum of line 196 is an
`int` sum. -/
def _GetEffectAddedValue (originalValue : Int) (effectValues : EffectValueList)
    (effectId : Int) : Int :=
  match mapFind effectId effectValues with
  | none => originalValue
  | some v => max 1 (toInt32 (originalValue + v))

/-- Function `_CorrectParameter` (TimeValueUpdater.cpp:206-216). -/
def _CorrectParameter (parameter : Parameter) : Parameter :=
  let p1 := if parameter.updateDuration ≤ 0 then { parameter with updateDuration := 1 }
            else parameter
  let p2 := if p1.updateValue ≤ 0 then { p1 with updateValue := 1 } else p1
  if p2.remainingSeconds = -1 then { p2 with remainingSeconds := p2.updateDuration } else p2

/-- Function `_IncreaseCurValue` (TimeValueUpdater.cpp:227-235); `curValue += value` of
line 232 is an `int` sum. -/
def _IncreaseCurValue (parameter : Parameter) (value curMaxValue : Int) : Parameter :=
  if !parameter.downwardCorrection && decide (parameter.curValue ≥ curMaxValue) then
    parameter
  else
    let c1 := toInt32 (parameter.curValue + value)
    let c2 := min c1 curMaxValue
    { parameter with curValue := max c2 parameter.minValue }

/-- Function `_GatherEffectValue` (TimeValueUpdater.cpp:287-298); `dstEffectValue +=` of
line 297 is an `int` sum. -/
def _GatherEffectValue (dstTimeEffectValues : TimeEffectValueList) (buffInfo : BuffInfo)
    (effectId : Int) : TimeEffectValueList :=
  if buffInfo.effectId ≠ effectId then
    dstTimeEffectValues
  else
    mapUpsert []
      (fun dstEffectValues =>
        mapUpsert 0 (fun dstEffectValue => toInt32 (dstEffectValue + buffInfo.effectValue))
          effectId dstEffectValues)
      buffInfo.endTimeInMillis dstTimeEffectValues

/-- Body of the loop of `_GatherEffectValues` for one buff (TimeValueUpdater.cpp:252-274). -/
def gatherBuff (parameter : Parameter) (dst : TimeEffectValueList) (eachBuffInfo : BuffInfo) :
    TimeEffectValueList :=
  let d1 := _GatherEffectValue dst eachBuffInfo parameter.effectIdForCurValue
  let d2 := _GatherEffectValue d1 eachBuffInfo parameter.effectIdForMaxValue
  let d3 := _GatherEffectValue d2 eachBuffInfo parameter.effectIdForDuration
  _GatherEffectValue d3 eachBuffInfo parameter.effectIdForUpdateValue

/-- Function `_GatherEffectValues` (TimeValueUpdater.cpp:245-276). -/
def _GatherEffectValues (dstTimeEffectValues : TimeEffectValueList) (parameter : Parameter) :
    TimeEffectValueList :=
  if parameter.buffInfos.isEmpty then dstTimeEffectValues
  else parameter.buffInfos.foldl (gatherBuff parameter) dstTimeEffectValues

/-- Inner loop of `_AccumulateEffectValues` (TimeValueUpdater.cpp:320-331) over the entries of
one breakpoint, as its effect on the running map `effectValues`.  The store
`entry.second += effectValue` is kept in `e`; the entry itself is overwritten by the
assignment of line 333.  Both sums (lines 329 and 330) are `int` sums. -/
def accumulateEntries (effectIdForCurValue : Int) (effectValues : EffectValueList) :
    EffectValueList → EffectValueList
  | [] => effectValues
  | (id, v) :: rest =>
    if id = effectIdForCurValue then
      accumulateEntries effectIdForCurValue effectValues rest
    else
      accumulateEntries effectIdForCurValue
        (mapUpsert 0
          (fun effectValue => let e := toInt32 (v + effectValue); toInt32 (effectValue + e)) id
          effectValues)
        rest

/-- Outer loop of `_AccumulateEffectValues` (TimeValueUpdater.cpp:316-334): the breakpoints are
visited from the last to the first; the result is the running map after the visit of the head
and the rewritten breakpoints. -/
def accumulateFrom (effectIdForCurValue : Int) :
    TimeEffectValueList → EffectValueList × TimeEffectValueList
  | [] => ([], [])
  | (eachTimeInMillis, eachEffectValues) :: rest =>
    let later := accumulateFrom effectIdForCurValue rest
    let effectValues := accumulateEntries effectIdForCurValue later.1 eachEffectValues
    (effectValues, (eachTimeInMillis, effectValues) :: later.2)

/-- Function `_AccumulateEffectValues` (TimeValueUpdater.cpp:308-335). -/
def _AccumulateEffectValues (timeEffectValues : TimeEffectValueList)
    (effectIdForCurValue : Int) : TimeEffectValueList :=
  if timeEffectValues.isEmpty then timeEffectValues
  else (accumulateFrom effectIdForCurValue timeEffectValues).2

/-- Function `_GetRecalculatedEffectValues` (TimeValueUpdater.cpp:163-176), started on the empty map
`buffEffects` of `Update`. -/
def _GetRecalculatedEffectValues (parameter : Parameter) (curTimeInMillis : Int) :
    TimeEffectValueList :=
  let gathered := _GatherEffectValues [] parameter
  let withNow := mapInsert curTimeInMillis [] gathered
  let accumulated := _AccumulateEffectValues withNow parameter.effectIdForCurValue
  accumulated.dropWhile (fun entry => decide (entry.1 < parameter.lastUpdateTimeInMillis))

/-- Local variables of `Update` that live across the iterations of its loop, with the
parameter object. -/
structure LoopState where
  parameter : Parameter
  updated : Bool
  lastUpdateTime : Int
  curUpdateDuration : Int
  curUpdateValue : Int
  curMaxValue : Int
deriving DecidableEq

/-- Body of the loop of `Update` for one breakpoint (TimeValueUpdater.cpp:74-118).  The `int`
operations of lines 95, 99, 103, 107 and 116 are reduced by `toInt32`; the division of line 102
has a reduced dividend and a divisor that is at least 1, so it cannot overflow. -/
def updateStep (curTimeInMillis : Int) (s : LoopState) (entry : Int × EffectValueList) :
    LoopState :=
  let parameter := s.parameter
  let eachCurTimeInMillis := toUInt64 (min curTimeInMillis entry.1)
  let curUpdateDuration :=
    _GetEffectAddedValue parameter.updateDuration entry.2 parameter.effectIdForDuration
  let curUpdateValue :=
    _GetEffectAddedValue parameter.updateValue entry.2 parameter.effectIdForUpdateValue
  let curMaxValue :=
    _GetEffectAddedValue parameter.maxValue entry.2 parameter.effectIdForMaxValue
  let duration0 :=
    if parameter.lastUpdateTimeInMillis < 0 then
      toInt32 (eachCurTimeInMillis / 1000)
    else
      toInt32 (toUInt64 (eachCurTimeInMillis / 1000 - s.lastUpdateTime))
  let elapsedSeconds0 := toInt32 (curUpdateDuration - parameter.remainingSeconds)
  let elapsedSeconds := if elapsedSeconds0 < 0 then 0 else elapsedSeconds0
  let duration := toInt32 (duration0 + elapsedSeconds)
  let updateCount := Int.tdiv duration curUpdateDuration
  let p1 := _IncreaseCurValue parameter (toInt32 (curUpdateValue * updateCount)) curMaxValue
  let lastUpdateTime := eachCurTimeInMillis / 1000
  let r := toInt32 (curUpdateDuration
    - toInt32 (duration - toInt32 (curUpdateDuration * updateCount)))
  let p2 := { p1 with remainingSeconds := if r = 0 then curUpdateDuration else r }
  let p3 :=
    match mapFind p2.effectIdForCurValue entry.2 with
    | none => p2
    | some effectValue =>
      { p2 with curValue := max p2.minValue (toInt32 (p2.curValue - effectValue)) }
  { parameter := p3
    updated := true
    lastUpdateTime := lastUpdateTime
    curUpdateDuration := curUpdateDuration
    curUpdateValue := curUpdateValue
    curMaxValue := curMaxValue }

/-- State of `Update` when it enters its loop (TimeValueUpdater.cpp:65-70). -/
def updateInit (parameter : Parameter) : LoopState :=
  { parameter := parameter
    updated := false
    lastUpdateTime := toUInt64 (Int.tdiv parameter.lastUpdateTimeInMillis 1000)
    curUpdateDuration := parameter.updateDuration
    curUpdateValue := parameter.updateValue
    curMaxValue := parameter.maxValue }

/-- End of `Update` after its loop (TimeValueUpdater.cpp:121-136).  The subtraction
`curUpdateDuration - 1` of line 128 is written without `toInt32`: `curUpdateDuration` is at
least 1 there, so the `int` subtraction cannot overflow. -/
def updateFinish (curTimeInMillis : Int) (s : LoopState) : Bool × Parameter :=
  let p1 := { s.parameter with
    maxValue := s.curMaxValue
    updateDuration := s.curUpdateDuration
    curValue := max s.parameter.curValue s.parameter.minValue }
  if p1.curValue ≥ p1.maxValue then
    (true, { p1 with
      lastUpdateTimeInMillis := curTimeInMillis
      remainingSeconds := s.curUpdateDuration - 1 })
  else
    (s.updated, { p1 with
      lastUpdateTimeInMillis := toInt64 (toUInt64 (s.lastUpdateTime * 1000)) })

/-- Function `Update` (TimeValueUpdater.cpp:56-137): the returned flag and the parameter as the call
leaves it. -/
def Update (clock : Int) (parameter0 : Parameter) : Bool × Parameter :=
  let parameter := _CorrectParameter parameter0
  let curTimeInMillis := _GetCurTimeInMillis clock parameter
  let buffEffects := _GetRecalculatedEffectValues parameter curTimeInMillis
  updateFinish curTimeInMillis (buffEffects.foldl (updateStep curTimeInMillis) (updateInit parameter))

/-- Method `Parameter::Update` (TimeValueUpdater.cpp:44-47). -/
def Parameter.Update (clock : Int) (p : Parameter) : Bool × Parameter :=
  TimeValueUpdater.Update clock p

/-- The caller's assignment `parameter.curTimeInMillis = t` that freezes the clock of the next
call (the field is public, TimeValueUpdater.h:51). -/
def freezeNow (p : Parameter) (t : Int) : Parameter := { p with curTimeInMillis := t }

/-! ## Concrete states -/

/-- The regeneration example of the specification: interval 10 s, 5 per tick, bounds 0 and 100,
never updated, frozen now 35000 ms, no buff; the channels are 1 (current), 2 (max),
3 (duration) and 4 (tick value). -/
def regenState : Parameter :=
  { buffInfos := []
    curValue := 0
    minValue := 0
    maxValue := 100
    lastUpdateTimeInMillis := -1
    curTimeInMillis := 35000
    updateDuration := 10
    updateValue := 5
    effectIdForCurValue := 1
    effectIdForMaxValue := 2
    effectIdForDuration := 3
    effectIdForUpdateValue := 4
    remainingSeconds := -1
    downwardCorrection := false }

/-- A state whose last update lies inside the current second: last update 1500 ms,
countdown 0, no buff. -/
def subSecondState : Parameter :=
  { regenState with lastUpdateTimeInMillis := 1500, remainingSeconds := 0 }

/-- The regeneration example with the clock frozen at `2^31` seconds. -/
def lateState : Parameter :=
  { regenState with curTimeInMillis := 2147483648000 }

/-- The regeneration example with a buff of +10 on the max-value channel that is
still active at the frozen now. -/
def maxBuffState : Parameter :=
  { regenState with buffInfos := [⟨2, 10, 100000⟩] }

/-- A state at 80 of 100, updated at time 0, with an active buff of -50 on the max-value
channel and no downward correction. -/
def loweredMaxState : Parameter :=
  { regenState with
    curValue := 80
    lastUpdateTimeInMillis := 0
    buffInfos := [⟨2, -50, 100000⟩] }

/-- The suppression example of the specification: current 50, countdown 10, updated at time 0,
frozen now 35000 ms, one buff of 20 on the current-value channel that expires at 20000 ms. -/
def suppressionState : Parameter :=
  { regenState with
    curValue := 50
    remainingSeconds := 10
    lastUpdateTimeInMillis := 0
    buffInfos := [⟨1, 20, 20000⟩] }

/-- The interval example of the specification: the regeneration example with one buff of -5 on
the duration channel that expires after the frozen now. -/
def intervalBuffState : Parameter :=
  { regenState with buffInfos := [⟨3, -5, 100000⟩] }

/-- A state as a cap snap at 35000 ms leaves it (current = max = 100, countdown 9), called one
second later with a buff of +10 on the max-value channel. -/
def reopenedState : Parameter :=
  { regenState with
    curValue := 100
    remainingSeconds := 9
    lastUpdateTimeInMillis := 35000
    curTimeInMillis := 36000
    buffInfos := [⟨2, 10, 100000⟩] }

/-- The regeneration example with a buff of +5 on the tick-value channel that expires at
20000 ms, before the frozen now. -/
def tickValueBuffState : Parameter :=
  { regenState with buffInfos := [⟨4, 5, 20000⟩] }

/-- The regeneration example with a buff on channel 9, which is none of the four channels of
the state. -/
def inertBuffState : Parameter :=
  { regenState with buffInfos := [⟨9, 7, 50000⟩] }

/-- The state `reopenedState` with an interval of 2 seconds (countdown 1). -/
def reopenedFastState : Parameter :=
  { reopenedState with updateDuration := 2, remainingSeconds := 1 }

/-- The regeneration example five points below the max. -/
def nearCapState : Parameter :=
  { regenState with curValue := 95 }

/-- The caller's assignment of the buff list `parameter.buffInfos` before a call (the field is
public, TimeValueUpdater.h:46). -/
def setBuffs (p : Parameter) (buffInfos : List BuffInfo) : Parameter :=
  { p with buffInfos := buffInfos }

/-- The regeneration example with the current-value channel 1 and the other three channel ids
left at -1, and one buff with effect id -1 and value +5 that expires after the frozen now. -/
def unassignedChannelsState : Parameter :=
  { regenState with
    effectIdForMaxValue := -1
    effectIdForDuration := -1
    effectIdForUpdateValue := -1
    buffInfos := [⟨-1, 5, 100000⟩] }

/-- The regeneration example with the duration channel id left at -1 and a buff of +10 on the
max-value channel. -/
def unassignedDurationState : Parameter :=
  { regenState with effectIdForDuration := -1, buffInfos := [⟨2, 10, 100000⟩] }

/-- The regeneration example with two buffs on the max-value channel: +10 that expires at
40000 ms and +20 that expires at 50000 ms. -/
def twoBuffState : Parameter :=
  { regenState with buffInfos := [⟨2, 10, 40000⟩, ⟨2, 20, 50000⟩] }

/-- The state `loweredMaxState` with downward correction. -/
def loweredMaxDownwardState : Parameter :=
  { loweredMaxState with downwardCorrection := true }

/-- The regeneration example last updated at 30000 ms, with a countdown of 10. -/
def recentState : Parameter :=
  { regenState with lastUpdateTimeInMillis := 30000, remainingSeconds := 10 }

/-- The regeneration example with an interval of 1 second and a tick value of 2, with the clock
frozen at 1793400000000 ms (1793400000 whole seconds, which fit an `int`). -/
def fastRegenState : Parameter :=
  { regenState with updateDuration := 1, updateValue := 2, curTimeInMillis := 1793400000000 }

/-- The state `reopenedState` with an interval of 1 second (countdown 0) and a tick value of
`2^30`. -/
def reopenedHugeTickState : Parameter :=
  { reopenedState with updateDuration := 1, remainingSeconds := 0, updateValue := 1073741824 }

/-- The regeneration example with a countdown of -400000000 and the clock frozen at
1793400000000 ms. -/
def debtState : Parameter :=
  { regenState with remainingSeconds := -400000000, curTimeInMillis := 1793400000000 }

/-- A state at the cap `2^31 - 1` with downward correction, an interval of 1 second and a tick
value of 1, last updated at the frozen now 35000 ms with the countdown 1. -/
def intMaxState : Parameter :=
  { regenState with
    curValue := 2147483647
    maxValue := 2147483647
    updateDuration := 1
    updateValue := 1
    remainingSeconds := 1
    lastUpdateTimeInMillis := 35000
    downwardCorrection := true }

/-- The regeneration example with a negative last update time and countdown 10, and one buff
of 2147483602 on the duration channel whose expiry time -3418793981616 is negative; line 74
converts that time to `unsigned long long` and line 91 converts its whole seconds to the `int`
2147483634. -/
def negativeExpiryState : Parameter :=
  { regenState with
    lastUpdateTimeInMillis := -4000000000000
    remainingSeconds := 10
    buffInfos := [⟨3, 2147483602, -3418793981616⟩] }

/-- A state with downward correction, last updated at time 0 with countdown 10, and four
buffs: +5 on the tick-value channel that expires after the frozen now 35000 ms, +10 on the
max-value channel and -5 on the duration channel that expire before it, and 20 on the
current-value channel. -/
def mixedBuffState : Parameter :=
  { regenState with
    lastUpdateTimeInMillis := 0
    remainingSeconds := 10
    downwardCorrection := true
    buffInfos := [⟨4, 5, 100000⟩, ⟨2, 10, 20000⟩, ⟨3, -5, 30000⟩, ⟨1, 20, 50000⟩] }

/-! ## Conversions of values in range -/

theorem toUInt64_eq_self {x : Int} (h0 : 0 ≤ x) (h1 : x < 18446744073709551616) :
    toUInt64 x = x := by
  unfold toUInt64; omega

theorem toInt64_eq_self {x : Int} (h0 : -9223372036854775808 ≤ x)
    (h1 : x < 9223372036854775808) : toInt64 x = x := by
  unfold toInt64; omega

theorem toInt32_eq_self {x : Int} (h0 : -2147483648 ≤ x) (h1 : x < 2147483648) :
    toInt32 x = x := by
  unfold toInt32; omega

/-! ## Parameter correction -/

theorem correct_curTimeInMillis (p : Parameter) :
    (_CorrectParameter p).curTimeInMillis = p.curTimeInMillis := by
  unfold _CorrectParameter; dsimp only; split_ifs <;> rfl

theorem correct_frame (p : Parameter) :
    (_CorrectParameter p).buffInfos = p.buffInfos ∧
    (_CorrectParameter p).curValue = p.curValue ∧
    (_CorrectParameter p).minValue = p.minValue ∧
    (_CorrectParameter p).maxValue = p.maxValue ∧
    (_CorrectParameter p).lastUpdateTimeInMillis = p.lastUpdateTimeInMillis ∧
    (_CorrectParameter p).effectIdForCurValue = p.effectIdForCurValue ∧
    (_CorrectParameter p).effectIdForMaxValue = p.effectIdForMaxValue ∧
    (_CorrectParameter p).effectIdForDuration = p.effectIdForDuration ∧
    (_CorrectParameter p).effectIdForUpdateValue = p.effectIdForUpdateValue ∧
    (_CorrectParameter p).downwardCorrection = p.downwardCorrection := by
  unfold _CorrectParameter; dsimp only; split_ifs <;> simp only [and_self]

theorem correct_of_corrected (p : Parameter) (hD : 1 ≤ p.updateDuration)
    (hV : 1 ≤ p.updateValue) (hr : p.remainingSeconds ≠ -1) : _CorrectParameter p = p := by
  unfold _CorrectParameter
  have h1 : ¬ p.updateDuration ≤ 0 := by omega
  have h2 : ¬ p.updateValue ≤ 0 := by omega
  simp only [h1, h2, hr, if_false]

theorem correct_corrected (p : Parameter) :
    1 ≤ (_CorrectParameter p).updateDuration ∧ 1 ≤ (_CorrectParameter p).updateValue ∧
    (_CorrectParameter p).remainingSeconds ≠ -1 := by
  rcases p with ⟨b, c, mn, mx, l, t, D, V, i1, i2, i3, i4, r, dc⟩
  by_cases h1 : D ≤ 0 <;> by_cases h2 : V ≤ 0 <;> by_cases h3 : r = -1 <;>
    simp [_CorrectParameter, h1, h2, h3] <;> omega

theorem getCurTime_frozen (clock : Int) (p : Parameter) (hnow : 0 < p.curTimeInMillis) :
    _GetCurTimeInMillis clock (_CorrectParameter p) = p.curTimeInMillis / 1000 * 1000 := by
  unfold _GetCurTimeInMillis
  rw [correct_curTimeInMillis, if_pos hnow, Int.tdiv_eq_ediv (by omega) (by omega)]

theorem Update_eq (clock : Int) (p : Parameter) :
    Update clock p =
      updateFinish (_GetCurTimeInMillis clock (_CorrectParameter p))
        ((_GetRecalculatedEffectValues (_CorrectParameter p)
            (_GetCurTimeInMillis clock (_CorrectParameter p))).foldl
          (updateStep (_GetCurTimeInMillis clock (_CorrectParameter p)))
          (updateInit (_CorrectParameter p))) := rfl

theorem Update_congr_correct (clock : Int) (p q : Parameter)
    (h : _CorrectParameter p = _CorrectParameter q) : Update clock p = Update clock q := by
  rw [Update_eq, Update_eq, h]

theorem increaseCurValue_eq (p : Parameter) (v M : Int) :
    _IncreaseCurValue p v M = { p with
      curValue := if p.downwardCorrection = false ∧ M ≤ p.curValue then p.curValue
                  else max (min (toInt32 (p.curValue + v)) M) p.minValue } := by
  rcases p with ⟨b, c, mn, mx, l, t, D, V, i1, i2, i3, i4, r, dc⟩
  unfold _IncreaseCurValue
  cases dc <;> by_cases hM : M ≤ c <;> simp [hM]

theorem updateFinish_cap (T : Int) (s : LoopState)
    (hcap : (updateFinish T s).2.maxValue ≤ (updateFinish T s).2.curValue) :
    (updateFinish T s).2.lastUpdateTimeInMillis = T ∧
    (updateFinish T s).2.remainingSeconds = (updateFinish T s).2.updateDuration - 1 ∧
    (updateFinish T s).1 = true := by
  unfold updateFinish at hcap ⊢
  dsimp only at hcap ⊢
  split_ifs at hcap ⊢ with h
  · exact ⟨rfl, rfl, rfl⟩
  · exact absurd hcap h

/-! ## Keys of the breakpoint maps -/

theorem mapFind_none_of_keys {β : Type} (k : Int) (m : List (Int × β))
    (h : ∀ kv ∈ m, kv.1 ≠ k) : mapFind k m = none := by
  induction m with
  | nil => rfl
  | cons kv rest ih =>
    rcases kv with ⟨k', v⟩
    have hk : k' ≠ k := h (k', v) (List.mem_cons_self _ _)
    simp only [mapFind, hk, if_false]
    exact ih (fun kv hkv => h kv (List.mem_cons_of_mem _ hkv))

theorem mapUpsert_keys {β : Type} (R : Int → Prop) (dflt : β) (f : β → β) (k : Int)
    (m : List (Int × β)) (hk : R k) (hm : ∀ kv ∈ m, R kv.1) :
    ∀ kv ∈ mapUpsert dflt f k m, R kv.1 := by
  induction m with
  | nil =>
    intro kv hkv
    simp only [mapUpsert, List.mem_singleton] at hkv
    rw [hkv]; exact hk
  | cons kv' rest ih =>
    rcases kv' with ⟨k', v'⟩
    have hk' : R k' := hm (k', v') (List.mem_cons_self _ _)
    have hrest : ∀ kv ∈ rest, R kv.1 := fun kv hkv => hm kv (List.mem_cons_of_mem _ hkv)
    intro kv hkv
    simp only [mapUpsert] at hkv
    split_ifs at hkv with h1 h2
    · rcases List.mem_cons.mp hkv with h | h
      · rw [h]; exact hk
      · exact hm kv h
    · rcases List.mem_cons.mp hkv with h | h
      · rw [h]; exact hk'
      · exact hrest kv h
    · rcases List.mem_cons.mp hkv with h | h
      · rw [h]; exact hk'
      · exact ih hrest kv h

theorem mapUpsert_values {β : Type} (Q : β → Prop) (dflt : β) (f : β → β) (k : Int)
    (m : List (Int × β)) (hd : Q (f dflt)) (hf : ∀ v, Q v → Q (f v))
    (hm : ∀ e ∈ m, Q e.2) : ∀ e ∈ mapUpsert dflt f k m, Q e.2 := by
  induction m with
  | nil =>
    intro e he
    simp only [mapUpsert, List.mem_singleton] at he
    rw [he]; exact hd
  | cons kv' rest ih =>
    rcases kv' with ⟨k', v'⟩
    have hv' : Q v' := hm (k', v') (List.mem_cons_self _ _)
    have hrest : ∀ e ∈ rest, Q e.2 := fun e he => hm e (List.mem_cons_of_mem _ he)
    intro e he
    simp only [mapUpsert] at he
    split_ifs at he with h1 h2
    · rcases List.mem_cons.mp he with h | h
      · rw [h]; exact hd
      · exact hm e h
    · rcases List.mem_cons.mp he with h | h
      · rw [h]; exact hf v' hv'
      · exact hrest e h
    · rcases List.mem_cons.mp he with h | h
      · rw [h]; exact hv'
      · exact ih hrest e h

theorem mapInsert_values {β : Type} (Q : β → Prop) (k : Int) (v : β)
    (m : List (Int × β)) (hv : Q v) (hm : ∀ e ∈ m, Q e.2) :
    ∀ e ∈ mapInsert k v m, Q e.2 := by
  induction m with
  | nil =>
    intro e he
    simp only [mapInsert, List.mem_singleton] at he
    rw [he]; exact hv
  | cons kv' rest ih =>
    rcases kv' with ⟨k', v'⟩
    have hv' : Q v' := hm (k', v') (List.mem_cons_self _ _)
    have hrest : ∀ e ∈ rest, Q e.2 := fun e he => hm e (List.mem_cons_of_mem _ he)
    intro e he
    simp only [mapInsert] at he
    split_ifs at he with h1 h2
    · rcases List.mem_cons.mp he with h | h
      · rw [h]; exact hv
      · exact hm e h
    · exact hm e he
    · rcases List.mem_cons.mp he with h | h
      · rw [h]; exact hv'
      · exact ih hrest e h

theorem gatherEffectValue_keys (R : Int → Prop) (dst : TimeEffectValueList) (b : BuffInfo)
    (effectId : Int) (hb : R b.effectId) (hdst : ∀ e ∈ dst, ∀ kv ∈ e.2, R kv.1) :
    ∀ e ∈ _GatherEffectValue dst b effectId, ∀ kv ∈ e.2, R kv.1 := by
  unfold _GatherEffectValue
  split_ifs with h
  · exact hdst
  · have hid : R effectId := by
      have : b.effectId = effectId := not_not.mp h
      rw [← this]; exact hb
    apply mapUpsert_values (fun ev : EffectValueList => ∀ kv ∈ ev, R kv.1)
    · exact mapUpsert_keys R _ _ _ _ hid (fun kv hkv => by cases hkv)
    · intro v hv
      exact mapUpsert_keys R _ _ _ _ hid hv
    · exact hdst

theorem gatherBuff_keys (R : Int → Prop) (p : Parameter) (dst : TimeEffectValueList)
    (b : BuffInfo) (hb : R b.effectId) (hdst : ∀ e ∈ dst, ∀ kv ∈ e.2, R kv.1) :
    ∀ e ∈ gatherBuff p dst b, ∀ kv ∈ e.2, R kv.1 := by
  unfold gatherBuff
  exact gatherEffectValue_keys R _ b _ hb (gatherEffectValue_keys R _ b _ hb
    (gatherEffectValue_keys R _ b _ hb (gatherEffectValue_keys R _ b _ hb hdst)))

theorem foldl_gatherBuff_keys (R : Int → Prop) (p : Parameter) (bs : List BuffInfo)
    (hbs : ∀ b ∈ bs, R b.effectId) (dst : TimeEffectValueList)
    (hdst : ∀ e ∈ dst, ∀ kv ∈ e.2, R kv.1) :
    ∀ e ∈ bs.foldl (gatherBuff p) dst, ∀ kv ∈ e.2, R kv.1 := by
  induction bs generalizing dst with
  | nil => exact hdst
  | cons b bs ih =>
    rw [List.foldl_cons]
    exact ih (fun b' hb' => hbs b' (List.mem_cons_of_mem _ hb')) _
      (gatherBuff_keys R p dst b (hbs b (List.mem_cons_self _ _)) hdst)

theorem gatherEffectValues_keys (R : Int → Prop) (p : Parameter)
    (hbs : ∀ b ∈ p.buffInfos, R b.effectId) :
    ∀ e ∈ _GatherEffectValues [] p, ∀ kv ∈ e.2, R kv.1 := by
  unfold _GatherEffectValues
  split_ifs
  · intro e he; cases he
  · exact foldl_gatherBuff_keys R p _ hbs [] (fun e he => by cases he)

theorem accumulateEntries_keys (R : Int → Prop) (curId : Int) (each run : EffectValueList)
    (hrun : ∀ kv ∈ run, R kv.1 ∧ kv.1 ≠ curId) (heach : ∀ kv ∈ each, R kv.1) :
    ∀ kv ∈ accumulateEntries curId run each, R kv.1 ∧ kv.1 ≠ curId := by
  induction each generalizing run with
  | nil => exact hrun
  | cons kv' rest ih =>
    rcases kv' with ⟨id, v⟩
    have hrest : ∀ kv ∈ rest, R kv.1 := fun kv hkv => heach kv (List.mem_cons_of_mem _ hkv)
    simp only [accumulateEntries]
    split_ifs with h
    · exact ih run hrun hrest
    · apply ih _ _ hrest
      exact mapUpsert_keys (fun k => R k ∧ k ≠ curId) _ _ _ _
        (And.intro (heach (id, v) (List.mem_cons_self _ _)) h) hrun

theorem accumulateFrom_keys (R : Int → Prop) (curId : Int) (tm : TimeEffectValueList)
    (htm : ∀ e ∈ tm, ∀ kv ∈ e.2, R kv.1) :
    (∀ kv ∈ (accumulateFrom curId tm).1, R kv.1 ∧ kv.1 ≠ curId) ∧
    (∀ e ∈ (accumulateFrom curId tm).2, ∀ kv ∈ e.2, R kv.1 ∧ kv.1 ≠ curId) := by
  induction tm with
  | nil =>
    exact ⟨fun kv hkv => (by cases hkv), fun e he => (by cases he)⟩
  | cons e' rest ih =>
    rcases e' with ⟨t, each⟩
    obtain ⟨ih1, ih2⟩ := ih (fun e he => htm e (List.mem_cons_of_mem _ he))
    have hnew := accumulateEntries_keys R curId each _ ih1
      (htm (t, each) (List.mem_cons_self _ _))
    simp only [accumulateFrom]
    refine ⟨hnew, ?_⟩
    intro e he
    rcases List.mem_cons.mp he with h | h
    · rw [h]; exact hnew
    · exact ih2 e h

/-- No breakpoint of `_GetRecalculatedEffectValues` keeps an entry of the current-value
channel, and every entry it keeps carries the effect id of some buff. -/
theorem recalculated_keys (R : Int → Prop) (p : Parameter) (T : Int)
    (hbs : ∀ b ∈ p.buffInfos, R b.effectId) :
    ∀ e ∈ _GetRecalculatedEffectValues p T,
      ∀ kv ∈ e.2, R kv.1 ∧ kv.1 ≠ p.effectIdForCurValue := by
  intro e he
  unfold _GetRecalculatedEffectValues at he
  have he' := List.dropWhile_subset _ he
  have hins : ∀ e ∈ mapInsert T [] (_GatherEffectValues [] p), ∀ kv ∈ e.2, R kv.1 :=
    mapInsert_values (fun ev : EffectValueList => ∀ kv ∈ ev, R kv.1) T [] _
      (fun kv hkv => by cases hkv) (gatherEffectValues_keys R p hbs)
  unfold _AccumulateEffectValues at he'
  split_ifs at he' with hempty
  · have : mapInsert T [] (_GatherEffectValues [] p) = [] := List.isEmpty_iff.mp hempty
    rw [this] at he'; cases he'
  · exact (accumulateFrom_keys R p.effectIdForCurValue _ hins).2 e he'

/-! ## Fields the loop of `Update` leaves alone -/

theorem updateStep_frame (T : Int) (s : LoopState) (e : Int × EffectValueList) :
    (updateStep T s e).parameter.buffInfos = s.parameter.buffInfos ∧
    (updateStep T s e).parameter.minValue = s.parameter.minValue ∧
    (updateStep T s e).parameter.maxValue = s.parameter.maxValue ∧
    (updateStep T s e).parameter.lastUpdateTimeInMillis = s.parameter.lastUpdateTimeInMillis ∧
    (updateStep T s e).parameter.curTimeInMillis = s.parameter.curTimeInMillis ∧
    (updateStep T s e).parameter.updateDuration = s.parameter.updateDuration ∧
    (updateStep T s e).parameter.updateValue = s.parameter.updateValue ∧
    (updateStep T s e).parameter.effectIdForCurValue = s.parameter.effectIdForCurValue ∧
    (updateStep T s e).parameter.effectIdForMaxValue = s.parameter.effectIdForMaxValue ∧
    (updateStep T s e).parameter.effectIdForDuration = s.parameter.effectIdForDuration ∧
    (updateStep T s e).parameter.effectIdForUpdateValue = s.parameter.effectIdForUpdateValue ∧
    (updateStep T s e).parameter.downwardCorrection = s.parameter.downwardCorrection := by
  simp only [updateStep, increaseCurValue_eq]
  split <;> simp only [and_self]

theorem foldl_updateStep_frame (T : Int) (bps : TimeEffectValueList) (s : LoopState) :
    (bps.foldl (updateStep T) s).parameter.buffInfos = s.parameter.buffInfos ∧
    (bps.foldl (updateStep T) s).parameter.minValue = s.parameter.minValue ∧
    (bps.foldl (updateStep T) s).parameter.maxValue = s.parameter.maxValue ∧
    (bps.foldl (updateStep T) s).parameter.lastUpdateTimeInMillis
      = s.parameter.lastUpdateTimeInMillis ∧
    (bps.foldl (updateStep T) s).parameter.curTimeInMillis = s.parameter.curTimeInMillis ∧
    (bps.foldl (updateStep T) s).parameter.updateDuration = s.parameter.updateDuration ∧
    (bps.foldl (updateStep T) s).parameter.updateValue = s.parameter.updateValue ∧
    (bps.foldl (updateStep T) s).parameter.effectIdForCurValue
      = s.parameter.effectIdForCurValue ∧
    (bps.foldl (updateStep T) s).parameter.effectIdForMaxValue
      = s.parameter.effectIdForMaxValue ∧
    (bps.foldl (updateStep T) s).parameter.effectIdForDuration
      = s.parameter.effectIdForDuration ∧
    (bps.foldl (updateStep T) s).parameter.effectIdForUpdateValue
      = s.parameter.effectIdForUpdateValue ∧
    (bps.foldl (updateStep T) s).parameter.downwardCorrection
      = s.parameter.downwardCorrection := by
  induction bps generalizing s with
  | nil => simp only [List.foldl_nil, and_self]
  | cons e rest ih =>
    rw [List.foldl_cons]
    obtain ⟨h1, h2, h3, h4, h5, h6, h7, h8, h9, h10, h11, h12⟩ := ih (updateStep T s e)
    obtain ⟨g1, g2, g3, g4, g5, g6, g7, g8, g9, g10, g11, g12⟩ := updateStep_frame T s e
    exact ⟨h1.trans g1, h2.trans g2, h3.trans g3, h4.trans g4, h5.trans g5, h6.trans g6,
      h7.trans g7, h8.trans g8, h9.trans g9, h10.trans g10, h11.trans g11, h12.trans g12⟩

theorem updateStep_curUpdateDuration (T : Int) (s : LoopState) (e : Int × EffectValueList) :
    (updateStep T s e).curUpdateDuration
      = _GetEffectAddedValue s.parameter.updateDuration e.2 s.parameter.effectIdForDuration :=
  rfl

theorem updateStep_curMaxValue (T : Int) (s : LoopState) (e : Int × EffectValueList) :
    (updateStep T s e).curMaxValue
      = _GetEffectAddedValue s.parameter.maxValue e.2 s.parameter.effectIdForMaxValue :=
  rfl

theorem updateFinish_fields (T : Int) (s : LoopState) :
    (updateFinish T s).2.updateDuration = s.curUpdateDuration ∧
    (updateFinish T s).2.maxValue = s.curMaxValue ∧
    (updateFinish T s).2.updateValue = s.parameter.updateValue := by
  unfold updateFinish
  dsimp only
  split_ifs <;> exact ⟨rfl, rfl, rfl⟩

theorem getEffectAddedValue_pos (base : Int) (m : EffectValueList) (id : Int)
    (h : 1 ≤ base) : 1 ≤ _GetEffectAddedValue base m id := by
  unfold _GetEffectAddedValue
  split
  · exact h
  · exact le_max_left _ _

theorem getEffectAddedValue_none (base : Int) (m : EffectValueList) (id : Int)
    (h : mapFind id m = none) : _GetEffectAddedValue base m id = base := by
  unfold _GetEffectAddedValue
  rw [h]

/-! ## Order and timestamps of the breakpoints -/

theorem mapInsert_keys {β : Type} (R : Int → Prop) (k : Int) (v : β)
    (m : List (Int × β)) (hk : R k) (hm : ∀ kv ∈ m, R kv.1) :
    ∀ kv ∈ mapInsert k v m, R kv.1 := by
  induction m with
  | nil =>
    intro kv hkv
    simp only [mapInsert, List.mem_singleton] at hkv
    rw [hkv]; exact hk
  | cons kv' rest ih =>
    rcases kv' with ⟨k', v'⟩
    have hk' : R k' := hm (k', v') (List.mem_cons_self _ _)
    have hrest : ∀ kv ∈ rest, R kv.1 := fun kv hkv => hm kv (List.mem_cons_of_mem _ hkv)
    intro kv hkv
    simp only [mapInsert] at hkv
    split_ifs at hkv with h1 h2
    · rcases List.mem_cons.mp hkv with h | h
      · rw [h]; exact hk
      · exact hm kv h
    · exact hm kv hkv
    · rcases List.mem_cons.mp hkv with h | h
      · rw [h]; exact hk'
      · exact ih hrest kv h

theorem mapInsert_mem {β : Type} (k : Int) (v : β) (m : List (Int × β)) :
    ∃ e ∈ mapInsert k v m, e.1 = k := by
  induction m with
  | nil => exact ⟨(k, v), by simp only [mapInsert, List.mem_singleton], rfl⟩
  | cons kv' rest ih =>
    rcases kv' with ⟨k', v'⟩
    simp only [mapInsert]
    split_ifs with h1 h2
    · exact ⟨(k, v), List.mem_cons_self _ _, rfl⟩
    · exact ⟨(k', v'), List.mem_cons_self _ _, h2.symm⟩
    · obtain ⟨e, he, hek⟩ := ih
      exact ⟨e, List.mem_cons_of_mem _ he, hek⟩

theorem mapUpsert_sorted {β : Type} (dflt : β) (f : β → β) (k : Int) (m : List (Int × β))
    (hm : m.Pairwise (fun a b => a.1 < b.1)) :
    (mapUpsert dflt f k m).Pairwise (fun a b => a.1 < b.1) := by
  induction m with
  | nil => simp only [mapUpsert, List.pairwise_cons, List.not_mem_nil, false_implies,
      implies_true, List.Pairwise.nil, and_self]
  | cons kv' rest ih =>
    rcases kv' with ⟨k', v'⟩
    rw [List.pairwise_cons] at hm
    obtain ⟨hhead, hrest⟩ := hm
    simp only [mapUpsert]
    split_ifs with h1 h2
    · rw [List.pairwise_cons]
      refine ⟨?_, List.pairwise_cons.mpr ⟨hhead, hrest⟩⟩
      intro a ha
      rcases List.mem_cons.mp ha with h | h
      · rw [h]; exact h1
      · have := hhead a h
        show k < a.1
        omega
    · rw [List.pairwise_cons]
      exact ⟨hhead, hrest⟩
    · rw [List.pairwise_cons]
      refine ⟨?_, ih hrest⟩
      exact mapUpsert_keys (fun x => k' < x) dflt f k rest (by omega) hhead

theorem mapInsert_sorted {β : Type} (k : Int) (v : β) (m : List (Int × β))
    (hm : m.Pairwise (fun a b => a.1 < b.1)) :
    (mapInsert k v m).Pairwise (fun a b => a.1 < b.1) := by
  induction m with
  | nil => simp only [mapInsert, List.pairwise_cons, List.not_mem_nil, false_implies,
      implies_true, List.Pairwise.nil, and_self]
  | cons kv' rest ih =>
    rcases kv' with ⟨k', v'⟩
    rw [List.pairwise_cons] at hm
    obtain ⟨hhead, hrest⟩ := hm
    simp only [mapInsert]
    split_ifs with h1 h2
    · rw [List.pairwise_cons]
      refine ⟨?_, List.pairwise_cons.mpr ⟨hhead, hrest⟩⟩
      intro a ha
      rcases List.mem_cons.mp ha with h | h
      · rw [h]; exact h1
      · have := hhead a h
        show k < a.1
        omega
    · rw [List.pairwise_cons]
      exact ⟨hhead, hrest⟩
    · rw [List.pairwise_cons]
      refine ⟨?_, ih hrest⟩
      exact mapInsert_keys (fun x => k' < x) k v rest (by omega) hhead

theorem gatherEffectValue_sorted (dst : TimeEffectValueList) (b : BuffInfo) (effectId : Int)
    (hdst : dst.Pairwise (fun a b => a.1 < b.1)) :
    (_GatherEffectValue dst b effectId).Pairwise (fun a b => a.1 < b.1) := by
  unfold _GatherEffectValue
  split_ifs
  · exact hdst
  · exact mapUpsert_sorted _ _ _ _ hdst

theorem gatherEffectValue_times (R : Int → Prop) (dst : TimeEffectValueList) (b : BuffInfo)
    (effectId : Int) (hb : R b.endTimeInMillis) (hdst : ∀ e ∈ dst, R e.1) :
    ∀ e ∈ _GatherEffectValue dst b effectId, R e.1 := by
  unfold _GatherEffectValue
  split_ifs
  · exact hdst
  · exact mapUpsert_keys R _ _ _ _ hb hdst

theorem foldl_gatherBuff_sorted (p : Parameter) (bs : List BuffInfo)
    (dst : TimeEffectValueList) (hdst : dst.Pairwise (fun a b => a.1 < b.1)) :
    (bs.foldl (gatherBuff p) dst).Pairwise (fun a b => a.1 < b.1) := by
  induction bs generalizing dst with
  | nil => exact hdst
  | cons b bs ih =>
    rw [List.foldl_cons]
    apply ih
    unfold gatherBuff
    exact gatherEffectValue_sorted _ b _ (gatherEffectValue_sorted _ b _
      (gatherEffectValue_sorted _ b _ (gatherEffectValue_sorted _ b _ hdst)))

theorem foldl_gatherBuff_times (R : Int → Prop) (p : Parameter) (bs : List BuffInfo)
    (hbs : ∀ b ∈ bs, R b.endTimeInMillis) (dst : TimeEffectValueList)
    (hdst : ∀ e ∈ dst, R e.1) :
    ∀ e ∈ bs.foldl (gatherBuff p) dst, R e.1 := by
  induction bs generalizing dst with
  | nil => exact hdst
  | cons b bs ih =>
    rw [List.foldl_cons]
    apply ih (fun b' hb' => hbs b' (List.mem_cons_of_mem _ hb'))
    have hb := hbs b (List.mem_cons_self _ _)
    unfold gatherBuff
    exact gatherEffectValue_times R _ b _ hb (gatherEffectValue_times R _ b _ hb
      (gatherEffectValue_times R _ b _ hb (gatherEffectValue_times R _ b _ hb hdst)))

theorem gatherEffectValues_sorted (p : Parameter) :
    (_GatherEffectValues [] p).Pairwise (fun a b => a.1 < b.1) := by
  unfold _GatherEffectValues
  split_ifs
  · exact List.Pairwise.nil
  · exact foldl_gatherBuff_sorted p _ [] List.Pairwise.nil

theorem gatherEffectValues_times (R : Int → Prop) (p : Parameter)
    (hbs : ∀ b ∈ p.buffInfos, R b.endTimeInMillis) :
    ∀ e ∈ _GatherEffectValues [] p, R e.1 := by
  unfold _GatherEffectValues
  split_ifs
  · intro e he; cases he
  · exact foldl_gatherBuff_times R p _ hbs [] (fun e he => by cases he)

theorem accumulateFrom_times (curId : Int) (tm : TimeEffectValueList) :
    (accumulateFrom curId tm).2.map Prod.fst = tm.map Prod.fst := by
  induction tm with
  | nil => rfl
  | cons e rest ih =>
    rcases e with ⟨t, each⟩
    simp only [accumulateFrom, List.map_cons, ih]

theorem accumulate_eq (tm : TimeEffectValueList) (curId : Int) :
    _AccumulateEffectValues tm curId = (accumulateFrom curId tm).2 := by
  unfold _AccumulateEffectValues
  split_ifs with h
  · rw [List.isEmpty_iff.mp h]; rfl
  · rfl

theorem sorted_of_times {tm tm' : TimeEffectValueList}
    (h : tm'.map Prod.fst = tm.map Prod.fst)
    (hs : tm.Pairwise (fun a b => a.1 < b.1)) : tm'.Pairwise (fun a b => a.1 < b.1) := by
  have h1 : (tm.map Prod.fst).Pairwise (· < ·) := List.pairwise_map.mpr hs
  rw [← h] at h1
  exact List.pairwise_map.mp h1

theorem mem_times_of_times {tm tm' : TimeEffectValueList}
    (h : tm'.map Prod.fst = tm.map Prod.fst) (t : Int) (ht : ∃ e ∈ tm, e.1 = t) :
    ∃ e ∈ tm', e.1 = t := by
  obtain ⟨e, he, het⟩ := ht
  have : t ∈ tm.map Prod.fst := List.mem_map.mpr ⟨e, he, het⟩
  rw [← h] at this
  obtain ⟨e', he', het'⟩ := List.mem_map.mp this
  exact ⟨e', he', het'⟩

theorem times_of_times {tm tm' : TimeEffectValueList}
    (h : tm'.map Prod.fst = tm.map Prod.fst) (R : Int → Prop) (hR : ∀ e ∈ tm, R e.1) :
    ∀ e ∈ tm', R e.1 := by
  intro e he
  have : e.1 ∈ tm'.map Prod.fst := List.mem_map.mpr ⟨e, he, rfl⟩
  rw [h] at this
  obtain ⟨e', he', het'⟩ := List.mem_map.mp this
  rw [← het']; exact hR e' he'

theorem mem_dropWhile_of_not {α : Type} (q : α → Bool) (l : List α) (a : α)
    (ha : a ∈ l) (hq : q a = false) : a ∈ l.dropWhile q := by
  induction l with
  | nil => cases ha
  | cons x rest ih =>
    rw [List.dropWhile_cons]
    split_ifs with hx
    · rcases List.mem_cons.mp ha with h | h
      · rw [h, hx] at hq; cases hq
      · exact ih h
    · exact ha

theorem dropWhile_lower_bound (L : Int) (tm : TimeEffectValueList)
    (hs : tm.Pairwise (fun a b => a.1 < b.1)) :
    ∀ e ∈ tm.dropWhile (fun entry => decide (entry.1 < L)), L ≤ e.1 := by
  induction tm with
  | nil => intro e he; cases he
  | cons x rest ih =>
    rw [List.pairwise_cons] at hs
    obtain ⟨hhead, hrest⟩ := hs
    rw [List.dropWhile_cons]
    split_ifs with hx
    · exact ih hrest
    · have hxL : L ≤ x.1 := by
        have : ¬ (x.1 < L) := by simpa using hx
        omega
      intro e he
      rcases List.mem_cons.mp he with h | h
      · rw [h]; exact hxL
      · have := hhead e h
        omega

theorem withNow_sorted (p : Parameter) (T : Int) :
    (mapInsert T [] (_GatherEffectValues [] p)).Pairwise (fun a b => a.1 < b.1) :=
  mapInsert_sorted T [] _ (gatherEffectValues_sorted p)

theorem recalculated_times (R : Int → Prop) (p : Parameter) (T : Int) (hT : R T)
    (hbs : ∀ b ∈ p.buffInfos, R b.endTimeInMillis) :
    ∀ e ∈ _GetRecalculatedEffectValues p T, R e.1 := by
  intro e he
  unfold _GetRecalculatedEffectValues at he
  have he' := List.dropWhile_subset _ he
  rw [accumulate_eq] at he'
  exact times_of_times (accumulateFrom_times _ _) R
    (mapInsert_keys R T [] _ hT (gatherEffectValues_times R p hbs)) e he'

theorem recalculated_sorted (p : Parameter) (T : Int) :
    (_GetRecalculatedEffectValues p T).Pairwise (fun a b => a.1 < b.1) := by
  unfold _GetRecalculatedEffectValues
  dsimp only
  rw [accumulate_eq]
  exact List.Pairwise.sublist (List.dropWhile_sublist _)
    (sorted_of_times (accumulateFrom_times _ _) (withNow_sorted p T))

theorem recalculated_lower_bound (p : Parameter) (T : Int) :
    ∀ e ∈ _GetRecalculatedEffectValues p T, p.lastUpdateTimeInMillis ≤ e.1 := by
  unfold _GetRecalculatedEffectValues
  dsimp only
  rw [accumulate_eq]
  exact dropWhile_lower_bound _ _
    (sorted_of_times (accumulateFrom_times _ _) (withNow_sorted p T))

theorem recalculated_mem_now (p : Parameter) (T : Int) (hT : p.lastUpdateTimeInMillis ≤ T) :
    ∃ e ∈ _GetRecalculatedEffectValues p T, e.1 = T := by
  obtain ⟨e, he, het⟩ := mem_times_of_times
    (accumulateFrom_times p.effectIdForCurValue (mapInsert T [] (_GatherEffectValues [] p)))
    T (mapInsert_mem T [] _)
  refine ⟨e, ?_, het⟩
  unfold _GetRecalculatedEffectValues
  dsimp only
  rw [accumulate_eq]
  apply mem_dropWhile_of_not _ _ _ he
  rw [het]
  exact decide_eq_false (by omega)

theorem last_of_sorted_bounded (tm : TimeEffectValueList) (T : Int)
    (hs : tm.Pairwise (fun a b => a.1 < b.1)) (hmem : ∃ e ∈ tm, e.1 = T)
    (hle : ∀ e ∈ tm, e.1 ≤ T) : ∃ pre m, tm = pre ++ [(T, m)] := by
  rcases List.eq_nil_or_concat tm with h | ⟨pre, x, h⟩
  · obtain ⟨e, he, -⟩ := hmem
    rw [h] at he; cases he
  · rw [List.concat_eq_append] at h
    subst h
    obtain ⟨e, he, het⟩ := hmem
    have hx : x.1 = T := by
      rcases List.mem_append.mp he with h1 | h1
      · have hlt : e.1 < x.1 :=
          (List.pairwise_append.mp hs).2.2 e h1 x (List.mem_singleton.mpr rfl)
        have := hle x (List.mem_append_right _ (List.mem_singleton.mpr rfl))
        omega
      · rw [List.mem_singleton.mp h1] at het; exact het
    refine ⟨pre, x.2, ?_⟩
    rw [← hx]

/-! ## Breakpoints and buffs that expired before the last update -/

theorem filter_mapUpsert_le {β : Type} (t : Int) (dflt : β) (f : β → β) (k : Int)
    (m : List (Int × β)) (hk : k ≤ t) :
    (mapUpsert dflt f k m).filter (fun e => decide (t < e.1))
      = m.filter (fun e => decide (t < e.1)) := by
  have hkf : decide (t < k) = false := decide_eq_false (by omega)
  induction m with
  | nil => simp only [mapUpsert, List.filter_cons, hkf, List.filter_nil, Bool.false_eq_true,
      if_false]
  | cons kv rest ih =>
    rcases kv with ⟨k', v'⟩
    simp only [mapUpsert]
    split_ifs with h1 h2
    · rw [List.filter_cons]
      simp only [hkf, Bool.false_eq_true, if_false]
    · subst h2
      simp only [List.filter_cons, hkf, Bool.false_eq_true, if_false]
    · rw [List.filter_cons, List.filter_cons, ih]

theorem filter_mapUpsert_gt {β : Type} (t : Int) (dflt : β) (f : β → β) (k : Int)
    (m : List (Int × β)) (hk : t < k) :
    (mapUpsert dflt f k m).filter (fun e => decide (t < e.1))
      = mapUpsert dflt f k (m.filter (fun e => decide (t < e.1))) := by
  have hkf : decide (t < k) = true := decide_eq_true hk
  induction m with
  | nil => simp only [mapUpsert, List.filter_cons, hkf, List.filter_nil, if_true]
  | cons kv rest ih =>
    rcases kv with ⟨k', v'⟩
    by_cases hk' : t < k'
    · have hk'f : decide (t < k') = true := decide_eq_true hk'
      simp only [mapUpsert, List.filter_cons, hk'f, if_true]
      split_ifs with h1 h2
      · simp only [List.filter_cons, hkf, hk'f, if_true]
      · simp only [List.filter_cons, hk'f, if_true]
      · simp only [List.filter_cons, hk'f, if_true, ih]
    · have hk'f : decide (t < k') = false := decide_eq_false hk'
      have h1 : ¬ (k < k') := by omega
      have h2 : ¬ (k = k') := by omega
      simp only [mapUpsert, h1, h2, if_false, List.filter_cons, hk'f, Bool.false_eq_true, ih]

theorem filter_mapInsert_le {β : Type} (t : Int) (k : Int) (v : β)
    (m : List (Int × β)) (hk : k ≤ t) :
    (mapInsert k v m).filter (fun e => decide (t < e.1))
      = m.filter (fun e => decide (t < e.1)) := by
  have hkf : decide (t < k) = false := decide_eq_false (by omega)
  induction m with
  | nil => simp only [mapInsert, List.filter_cons, hkf, List.filter_nil, Bool.false_eq_true,
      if_false]
  | cons kv rest ih =>
    rcases kv with ⟨k', v'⟩
    simp only [mapInsert]
    split_ifs with h1 h2
    · rw [List.filter_cons]
      simp only [hkf, Bool.false_eq_true, if_false]
    · rfl
    · rw [List.filter_cons, List.filter_cons, ih]

theorem filter_mapInsert_gt {β : Type} (t : Int) (k : Int) (v : β)
    (m : List (Int × β)) (hk : t < k) :
    (mapInsert k v m).filter (fun e => decide (t < e.1))
      = mapInsert k v (m.filter (fun e => decide (t < e.1))) := by
  have hkf : decide (t < k) = true := decide_eq_true hk
  induction m with
  | nil => simp only [mapInsert, List.filter_cons, hkf, List.filter_nil, if_true]
  | cons kv rest ih =>
    rcases kv with ⟨k', v'⟩
    by_cases hk' : t < k'
    · have hk'f : decide (t < k') = true := decide_eq_true hk'
      simp only [mapInsert, List.filter_cons, hk'f, if_true]
      split_ifs with h1 h2
      · simp only [List.filter_cons, hkf, hk'f, if_true]
      · simp only [List.filter_cons, hk'f, if_true]
      · simp only [List.filter_cons, hk'f, if_true, ih]
    · have hk'f : decide (t < k') = false := decide_eq_false hk'
      have h1 : ¬ (k < k') := by omega
      have h2 : ¬ (k = k') := by omega
      simp only [mapInsert, h1, h2, if_false, List.filter_cons, hk'f, Bool.false_eq_true, ih]

theorem filter_mapInsert_congr {β : Type} (t : Int) (k : Int) (v : β)
    (m m' : List (Int × β))
    (h : m.filter (fun e => decide (t < e.1)) = m'.filter (fun e => decide (t < e.1))) :
    (mapInsert k v m).filter (fun e => decide (t < e.1))
      = (mapInsert k v m').filter (fun e => decide (t < e.1)) := by
  by_cases hk : t < k
  · rw [filter_mapInsert_gt t k v m hk, filter_mapInsert_gt t k v m' hk, h]
  · rw [filter_mapInsert_le t k v m (by omega), filter_mapInsert_le t k v m' (by omega), h]

theorem filter_gatherEffectValue_expired (t : Int) (dst : TimeEffectValueList) (x : BuffInfo)
    (effectId : Int) (hx : x.endTimeInMillis ≤ t) :
    (_GatherEffectValue dst x effectId).filter (fun e => decide (t < e.1))
      = dst.filter (fun e => decide (t < e.1)) := by
  unfold _GatherEffectValue
  split_ifs
  · rfl
  · exact filter_mapUpsert_le t _ _ _ dst hx

theorem filter_gatherEffectValue_congr (t : Int) (dst dst' : TimeEffectValueList)
    (x : BuffInfo) (effectId : Int)
    (h : dst.filter (fun e => decide (t < e.1)) = dst'.filter (fun e => decide (t < e.1))) :
    (_GatherEffectValue dst x effectId).filter (fun e => decide (t < e.1))
      = (_GatherEffectValue dst' x effectId).filter (fun e => decide (t < e.1)) := by
  unfold _GatherEffectValue
  split_ifs
  · exact h
  · by_cases hk : t < x.endTimeInMillis
    · rw [filter_mapUpsert_gt t _ _ _ dst hk, filter_mapUpsert_gt t _ _ _ dst' hk, h]
    · rw [filter_mapUpsert_le t _ _ _ dst (by omega),
        filter_mapUpsert_le t _ _ _ dst' (by omega), h]

theorem filter_gatherBuff_expired (t : Int) (p : Parameter) (dst : TimeEffectValueList)
    (x : BuffInfo) (hx : x.endTimeInMillis ≤ t) :
    (gatherBuff p dst x).filter (fun e => decide (t < e.1))
      = dst.filter (fun e => decide (t < e.1)) := by
  unfold gatherBuff
  dsimp only
  rw [filter_gatherEffectValue_expired t _ x _ hx, filter_gatherEffectValue_expired t _ x _ hx,
    filter_gatherEffectValue_expired t _ x _ hx, filter_gatherEffectValue_expired t _ x _ hx]

theorem filter_gatherBuff_congr (t : Int) (p : Parameter) (dst dst' : TimeEffectValueList)
    (x : BuffInfo)
    (h : dst.filter (fun e => decide (t < e.1)) = dst'.filter (fun e => decide (t < e.1))) :
    (gatherBuff p dst x).filter (fun e => decide (t < e.1))
      = (gatherBuff p dst' x).filter (fun e => decide (t < e.1)) := by
  unfold gatherBuff
  dsimp only
  exact filter_gatherEffectValue_congr t _ _ x _ (filter_gatherEffectValue_congr t _ _ x _
    (filter_gatherEffectValue_congr t _ _ x _ (filter_gatherEffectValue_congr t _ _ x _ h)))

theorem filter_foldl_gatherBuff_congr (t : Int) (p : Parameter) (bs : List BuffInfo)
    (dst dst' : TimeEffectValueList)
    (h : dst.filter (fun e => decide (t < e.1)) = dst'.filter (fun e => decide (t < e.1))) :
    (bs.foldl (gatherBuff p) dst).filter (fun e => decide (t < e.1))
      = (bs.foldl (gatherBuff p) dst').filter (fun e => decide (t < e.1)) := by
  induction bs generalizing dst dst' with
  | nil => exact h
  | cons x rest ih =>
    rw [List.foldl_cons, List.foldl_cons]
    exact ih _ _ (filter_gatherBuff_congr t p dst dst' x h)

theorem gatherEffectValues_eq (p : Parameter) :
    _GatherEffectValues [] p = p.buffInfos.foldl (gatherBuff p) [] := by
  unfold _GatherEffectValues
  split_ifs with h
  · rw [List.isEmpty_iff.mp h]; rfl
  · rfl

theorem filter_gather_expired (p : Parameter) (l1 l2 : List BuffInfo) (b : BuffInfo) :
    (_GatherEffectValues [] (setBuffs p (l1 ++ b :: l2))).filter
        (fun e => decide (b.endTimeInMillis < e.1))
      = (_GatherEffectValues [] (setBuffs p (l1 ++ l2))).filter
        (fun e => decide (b.endTimeInMillis < e.1)) := by
  rw [gatherEffectValues_eq, gatherEffectValues_eq]
  show ((l1 ++ b :: l2).foldl (gatherBuff (setBuffs p (l1 ++ b :: l2))) []).filter _
    = ((l1 ++ l2).foldl (gatherBuff (setBuffs p (l1 ++ l2))) []).filter _
  have hg : gatherBuff (setBuffs p (l1 ++ b :: l2)) = gatherBuff (setBuffs p (l1 ++ l2)) := rfl
  rw [hg, List.foldl_append, List.foldl_append, List.foldl_cons]
  apply filter_foldl_gatherBuff_congr
  exact filter_gatherBuff_expired _ _ _ b (le_refl _)

theorem dropWhile_le_eq_filter (t : Int) (tm : TimeEffectValueList)
    (hs : tm.Pairwise (fun a b => a.1 < b.1)) :
    tm.dropWhile (fun e => decide (e.1 ≤ t)) = tm.filter (fun e => decide (t < e.1)) := by
  induction tm with
  | nil => rfl
  | cons x rest ih =>
    rw [List.pairwise_cons] at hs
    obtain ⟨hhead, hrest⟩ := hs
    by_cases hx : x.1 ≤ t
    · have h1 : decide (x.1 ≤ t) = true := decide_eq_true hx
      have h2 : decide (t < x.1) = false := decide_eq_false (by omega)
      rw [List.dropWhile_cons, List.filter_cons]
      simp only [h1, h2, if_true, Bool.false_eq_true, if_false]
      exact ih hrest
    · have h1 : decide (x.1 ≤ t) = false := decide_eq_false hx
      have h2 : decide (t < x.1) = true := decide_eq_true (by omega)
      rw [List.dropWhile_cons, List.filter_cons]
      simp only [h1, h2, if_true, Bool.false_eq_true, if_false]
      congr 1
      symm
      apply List.filter_eq_self.mpr
      intro e he
      have := hhead e he
      exact decide_eq_true (by omega)

theorem dropWhile_accumulateFrom (t curId : Int) (tm : TimeEffectValueList) :
    (accumulateFrom curId tm).2.dropWhile (fun e => decide (e.1 ≤ t))
      = (accumulateFrom curId (tm.dropWhile (fun e => decide (e.1 ≤ t)))).2 := by
  induction tm with
  | nil => rfl
  | cons x rest ih =>
    rcases x with ⟨k, each⟩
    by_cases hx : k ≤ t
    · have h1 : decide (k ≤ t) = true := decide_eq_true hx
      simp only [accumulateFrom, List.dropWhile_cons, h1, if_true]
      exact ih
    · have h1 : decide (k ≤ t) = false := decide_eq_false hx
      simp only [accumulateFrom, List.dropWhile_cons, h1, Bool.false_eq_true, if_false]

theorem dropWhile_dropWhile_of_imp {α : Type} (q r : α → Bool)
    (h : ∀ a, r a = true → q a = true) (l : List α) :
    (l.dropWhile r).dropWhile q = l.dropWhile q := by
  induction l with
  | nil => rfl
  | cons x rest ih =>
    by_cases hx : r x = true
    · rw [List.dropWhile_cons, List.dropWhile_cons]
      simp only [hx, h x hx, if_true]
      exact ih
    · rw [List.dropWhile_cons]
      simp only [hx, Bool.false_eq_true, if_false]

/-- The breakpoints do not depend on a buff that expired before the last update. -/
theorem recalculated_expired (p : Parameter) (l1 l2 : List BuffInfo) (b : BuffInfo) (T : Int)
    (hexp : b.endTimeInMillis < p.lastUpdateTimeInMillis) :
    _GetRecalculatedEffectValues (setBuffs p (l1 ++ b :: l2)) T
      = _GetRecalculatedEffectValues (setBuffs p (l1 ++ l2)) T := by
  have himp : ∀ a : Int × EffectValueList,
      decide (a.1 ≤ b.endTimeInMillis) = true →
      decide (a.1 < p.lastUpdateTimeInMillis) = true := by
    intro a ha
    have : a.1 ≤ b.endTimeInMillis := of_decide_eq_true ha
    exact decide_eq_true (by omega)
  have key : ∀ q : Parameter, q.lastUpdateTimeInMillis = p.lastUpdateTimeInMillis →
      q.effectIdForCurValue = p.effectIdForCurValue →
      _GetRecalculatedEffectValues q T
        = ((accumulateFrom p.effectIdForCurValue
            ((mapInsert T [] (_GatherEffectValues [] q)).filter
              (fun e => decide (b.endTimeInMillis < e.1)))).2).dropWhile
            (fun e => decide (e.1 < p.lastUpdateTimeInMillis)) := by
    intro q hL hc
    unfold _GetRecalculatedEffectValues
    dsimp only
    rw [accumulate_eq, hL, hc, ← dropWhile_le_eq_filter _ _ (withNow_sorted q T),
      ← dropWhile_accumulateFrom, dropWhile_dropWhile_of_imp _ _ himp]
  rw [key (setBuffs p (l1 ++ b :: l2)) rfl rfl, key (setBuffs p (l1 ++ l2)) rfl rfl,
    filter_mapInsert_congr _ T [] _ _ (filter_gather_expired p l1 l2 b)]

theorem correct_setBuffs (p : Parameter) (bs : List BuffInfo) :
    _CorrectParameter (setBuffs p bs) = setBuffs (_CorrectParameter p) bs := by
  rcases p with ⟨b, c, mn, mx, l, t0, D, V, i1, i2, i3, i4, r, dc⟩
  by_cases h1 : D ≤ 0 <;> by_cases h2 : V ≤ 0 <;> by_cases h3 : r = -1 <;>
    simp [_CorrectParameter, setBuffs, h1, h2, h3]

theorem updateStep_setBuffs (T : Int) (bs : List BuffInfo) (p : Parameter) (u : Bool)
    (l cd cv cm : Int) (e : Int × EffectValueList) :
    updateStep T ⟨setBuffs p bs, u, l, cd, cv, cm⟩ e
      = ⟨setBuffs (updateStep T ⟨p, u, l, cd, cv, cm⟩ e).parameter bs,
          (updateStep T ⟨p, u, l, cd, cv, cm⟩ e).updated,
          (updateStep T ⟨p, u, l, cd, cv, cm⟩ e).lastUpdateTime,
          (updateStep T ⟨p, u, l, cd, cv, cm⟩ e).curUpdateDuration,
          (updateStep T ⟨p, u, l, cd, cv, cm⟩ e).curUpdateValue,
          (updateStep T ⟨p, u, l, cd, cv, cm⟩ e).curMaxValue⟩ := by
  rcases p with ⟨b, c, mn, mx, l', t, D, V, j1, j2, j3, j4, r, dc⟩
  simp only [updateStep, setBuffs, increaseCurValue_eq]
  split <;> rfl

theorem foldl_updateStep_setBuffs (T : Int) (bs : List BuffInfo) (bps : TimeEffectValueList)
    (s : LoopState) :
    bps.foldl (updateStep T)
        ⟨setBuffs s.parameter bs, s.updated, s.lastUpdateTime, s.curUpdateDuration,
          s.curUpdateValue, s.curMaxValue⟩
      = ⟨setBuffs (bps.foldl (updateStep T) s).parameter bs,
          (bps.foldl (updateStep T) s).updated,
          (bps.foldl (updateStep T) s).lastUpdateTime,
          (bps.foldl (updateStep T) s).curUpdateDuration,
          (bps.foldl (updateStep T) s).curUpdateValue,
          (bps.foldl (updateStep T) s).curMaxValue⟩ := by
  induction bps generalizing s with
  | nil => rfl
  | cons e rest ih =>
    rw [List.foldl_cons, List.foldl_cons]
    rcases s with ⟨p, u, l, cd, cv, cm⟩
    rw [updateStep_setBuffs]
    exact ih _

theorem updateFinish_setBuffs (T : Int) (bs : List BuffInfo) (s : LoopState) :
    updateFinish T ⟨setBuffs s.parameter bs, s.updated, s.lastUpdateTime, s.curUpdateDuration,
        s.curUpdateValue, s.curMaxValue⟩
      = ((updateFinish T s).1, setBuffs (updateFinish T s).2 bs) := by
  rcases s with ⟨p, u, l, cd, cv, cm⟩
  rcases p with ⟨b, c, mn, mx, l', t, D, V, j1, j2, j3, j4, r, dc⟩
  simp only [updateFinish, setBuffs]
  split_ifs <;> rfl

/-- The result of `Update` on a state whose buff list is replaced by one that gives the same
breakpoints differs from the result on the state in the buff list only. -/
theorem Update_setBuffs (clock : Int) (p : Parameter) (bs : List BuffInfo)
    (h : ∀ T, _GetRecalculatedEffectValues (setBuffs (_CorrectParameter p) bs) T
      = _GetRecalculatedEffectValues (_CorrectParameter p) T) :
    Update clock (setBuffs p bs) = ((Update clock p).1, setBuffs (Update clock p).2 bs) := by
  rw [Update_eq, Update_eq, correct_setBuffs]
  have hT : _GetCurTimeInMillis clock (setBuffs (_CorrectParameter p) bs)
      = _GetCurTimeInMillis clock (_CorrectParameter p) := rfl
  rw [hT, h]
  have hinit : updateInit (setBuffs (_CorrectParameter p) bs)
      = ⟨setBuffs (updateInit (_CorrectParameter p)).parameter bs,
          (updateInit (_CorrectParameter p)).updated,
          (updateInit (_CorrectParameter p)).lastUpdateTime,
          (updateInit (_CorrectParameter p)).curUpdateDuration,
          (updateInit (_CorrectParameter p)).curUpdateValue,
          (updateInit (_CorrectParameter p)).curMaxValue⟩ := rfl
  rw [hinit, foldl_updateStep_setBuffs, updateFinish_setBuffs]

/-! ## The corrected interval and countdown -/

theorem correct_updateDuration (p : Parameter) :
    (_CorrectParameter p).updateDuration = max 1 p.updateDuration := by
  rcases p with ⟨b, c, mn, mx, l, t, D, V, i1, i2, i3, i4, r, dc⟩
  by_cases h1 : D ≤ 0 <;> by_cases h2 : V ≤ 0 <;> by_cases h3 : r = -1 <;>
    simp [_CorrectParameter, h1, h2, h3] <;> omega

theorem correct_remaining (p : Parameter) :
    (p.remainingSeconds = -1 ∧
      (_CorrectParameter p).remainingSeconds = (_CorrectParameter p).updateDuration) ∨
    (_CorrectParameter p).remainingSeconds = p.remainingSeconds := by
  rcases p with ⟨b, c, mn, mx, l, t, D, V, i1, i2, i3, i4, r, dc⟩
  by_cases h1 : D ≤ 0 <;> by_cases h2 : V ≤ 0 <;> by_cases h3 : r = -1 <;>
    simp [_CorrectParameter, h1, h2, h3]

theorem gatherBuff_inert (p : Parameter) (dst : TimeEffectValueList) (b : BuffInfo)
    (h : b.effectId ≠ p.effectIdForCurValue ∧ b.effectId ≠ p.effectIdForMaxValue ∧
      b.effectId ≠ p.effectIdForDuration ∧ b.effectId ≠ p.effectIdForUpdateValue) :
    gatherBuff p dst b = dst := by
  obtain ⟨h1, h2, h3, h4⟩ := h
  simp only [gatherBuff, _GatherEffectValue, ne_eq, h1, h2, h3, h4, not_false_eq_true, if_true]

theorem foldl_gatherBuff_inert (p : Parameter) (bs : List BuffInfo)
    (h : ∀ b ∈ bs, b.effectId ≠ p.effectIdForCurValue ∧ b.effectId ≠ p.effectIdForMaxValue ∧
      b.effectId ≠ p.effectIdForDuration ∧ b.effectId ≠ p.effectIdForUpdateValue)
    (dst : TimeEffectValueList) : bs.foldl (gatherBuff p) dst = dst := by
  induction bs generalizing dst with
  | nil => rfl
  | cons b bs ih =>
    rw [List.foldl_cons, gatherBuff_inert p dst b (h b (List.mem_cons_self _ _))]
    exact ih (fun b' hb' => h b' (List.mem_cons_of_mem _ hb')) dst

theorem recalculated_inert (p : Parameter) (T : Int)
    (h : ∀ b ∈ p.buffInfos, b.effectId ≠ p.effectIdForCurValue ∧
      b.effectId ≠ p.effectIdForMaxValue ∧ b.effectId ≠ p.effectIdForDuration ∧
      b.effectId ≠ p.effectIdForUpdateValue) :
    _GetRecalculatedEffectValues p T
      = if T < p.lastUpdateTimeInMillis then [] else [(T, [])] := by
  have hg : _GatherEffectValues [] p = [] := by
    unfold _GatherEffectValues
    split_ifs
    · rfl
    · exact foldl_gatherBuff_inert p p.buffInfos h []
  unfold _GetRecalculatedEffectValues
  simp only [hg, mapInsert, _AccumulateEffectValues, accumulateFrom, accumulateEntries,
    List.isEmpty_cons, Bool.false_eq_true, if_false, List.dropWhile_cons, List.dropWhile_nil]
  by_cases hT : T < p.lastUpdateTimeInMillis <;> simp [hT]

theorem Update_no_buff (clock : Int) (p : Parameter)
    (hb : ∀ b ∈ p.buffInfos, b.effectId ≠ p.effectIdForCurValue ∧
      b.effectId ≠ p.effectIdForMaxValue ∧ b.effectId ≠ p.effectIdForDuration ∧
      b.effectId ≠ p.effectIdForUpdateValue)
    (hD : 1 ≤ p.updateDuration) (hV : 1 ≤ p.updateValue)
    (hr : p.remainingSeconds ≠ -1) (hnow : 0 < p.curTimeInMillis)
    (hn : p.curTimeInMillis / 1000 < 2147483648)
    (hL : p.lastUpdateTimeInMillis < 0 ∨
      p.lastUpdateTimeInMillis ≤ p.curTimeInMillis / 1000 * 1000)
    (d : Int)
    (hd : d = (if p.lastUpdateTimeInMillis < 0 then p.curTimeInMillis / 1000
               else p.curTimeInMillis / 1000 - p.lastUpdateTimeInMillis / 1000)
              + max 0 (p.updateDuration - p.remainingSeconds))
    (hD2 : p.updateDuration < 2147483648)
    (hr2 : -2147483648 ≤ p.updateDuration - p.remainingSeconds)
    (hd2 : d < 2147483648)
    (hA : p.updateValue * (d / p.updateDuration) < 2147483648)
    (hc1 : -2147483648 ≤ p.curValue + p.updateValue * (d / p.updateDuration))
    (hc2 : p.curValue + p.updateValue * (d / p.updateDuration) < 2147483648)
    (c : Int)
    (hc : c = max (if p.downwardCorrection = false ∧ p.maxValue ≤ p.curValue then p.curValue
                   else max (min (p.curValue + p.updateValue * (d / p.updateDuration))
                              p.maxValue) p.minValue) p.minValue) :
    Update clock p = (true, { p with
      curValue := c
      remainingSeconds :=
        if p.maxValue ≤ c then p.updateDuration - 1
        else p.updateDuration - d % p.updateDuration
      lastUpdateTimeInMillis := p.curTimeInMillis / 1000 * 1000 }) := by
  have hT := getCurTime_frozen clock p hnow
  rw [Update_eq, hT, correct_of_corrected p hD hV hr, recalculated_inert p _ hb]
  have hnotlt : ¬ (p.curTimeInMillis / 1000 * 1000 < p.lastUpdateTimeInMillis) := by omega
  rw [if_neg hnotlt]
  have hn0 : 0 ≤ p.curTimeInMillis / 1000 := by omega
  have hu : toUInt64 (p.curTimeInMillis / 1000 * 1000) = p.curTimeInMillis / 1000 * 1000 :=
    toUInt64_eq_self (by omega) (by omega)
  have hdiv : p.curTimeInMillis / 1000 * 1000 / 1000 = p.curTimeInMillis / 1000 := by omega
  have hd0 : (if p.lastUpdateTimeInMillis < 0 then toInt32 (p.curTimeInMillis / 1000)
      else toInt32 (toUInt64 (p.curTimeInMillis / 1000
        - toUInt64 (Int.tdiv p.lastUpdateTimeInMillis 1000))))
      = (if p.lastUpdateTimeInMillis < 0 then p.curTimeInMillis / 1000
               else p.curTimeInMillis / 1000 - p.lastUpdateTimeInMillis / 1000) := by
    split_ifs with hneg
    · exact toInt32_eq_self (by omega) (by omega)
    · have h1 : Int.tdiv p.lastUpdateTimeInMillis 1000 = p.lastUpdateTimeInMillis / 1000 :=
        Int.tdiv_eq_ediv (by omega) (by omega)
      rw [h1, toUInt64_eq_self (x := p.lastUpdateTimeInMillis / 1000) (by omega) (by omega),
        toUInt64_eq_self (by omega) (by omega), toInt32_eq_self (by omega) (by omega)]
  have ha0 : 0 ≤ (if p.lastUpdateTimeInMillis < 0 then p.curTimeInMillis / 1000
      else p.curTimeInMillis / 1000 - p.lastUpdateTimeInMillis / 1000) := by
    split_ifs <;> omega
  have hd_nonneg : 0 ≤ d := by
    rw [hd]; clear * - ha0; omega
  have hDr : p.updateDuration - p.remainingSeconds < 2147483648 := by
    clear * - hd hd2 ha0; omega
  have he : (if toInt32 (p.updateDuration - p.remainingSeconds) < 0 then 0
      else toInt32 (p.updateDuration - p.remainingSeconds))
      = max 0 (p.updateDuration - p.remainingSeconds) := by
    rw [toInt32_eq_self hr2 hDr]
    split_ifs <;> omega
  have hdw : toInt32 d = d := toInt32_eq_self (by omega) hd2
  have htd : Int.tdiv d p.updateDuration = d / p.updateDuration :=
    Int.tdiv_eq_ediv hd_nonneg (by omega)
  have hk0 : 0 ≤ d / p.updateDuration := Int.ediv_nonneg hd_nonneg (by omega)
  have hA0 : 0 ≤ p.updateValue * (d / p.updateDuration) := Int.mul_nonneg (by omega) hk0
  have hAw : toInt32 (p.updateValue * (d / p.updateDuration))
      = p.updateValue * (d / p.updateDuration) := toInt32_eq_self (by omega) hA
  have hcw : toInt32 (p.curValue + p.updateValue * (d / p.updateDuration))
      = p.curValue + p.updateValue * (d / p.updateDuration) := toInt32_eq_self hc1 hc2
  have hmod : d - p.updateDuration * (d / p.updateDuration) = d % p.updateDuration := by
    rw [Int.emod_def]
  have hm0 : 0 ≤ d % p.updateDuration := Int.emod_nonneg _ (by omega)
  have hm1 : d % p.updateDuration < p.updateDuration := Int.emod_lt_of_pos _ (by omega)
  have hDk : toInt32 (p.updateDuration * (d / p.updateDuration))
      = p.updateDuration * (d / p.updateDuration) := by
    have hDk0 : 0 ≤ p.updateDuration * (d / p.updateDuration) :=
      Int.mul_nonneg (by omega) hk0
    apply toInt32_eq_self <;> (clear * - hmod hm0 hm1 hd_nonneg hd2 hDk0; omega)
  have hmw : toInt32 (d % p.updateDuration) = d % p.updateDuration :=
    toInt32_eq_self (by omega) (by omega)
  have hrw : toInt32 (p.updateDuration - d % p.updateDuration)
      = p.updateDuration - d % p.updateDuration := toInt32_eq_self (by omega) (by omega)
  simp only [List.foldl_cons, List.foldl_nil, updateStep, updateInit, updateFinish,
    _GetEffectAddedValue, mapFind, min_self, hu, hdiv, hd0, he, ← hd, hdw, htd, hAw, hDk, hmod,
    hmw, hrw]
  have h64 : toInt64 (p.curTimeInMillis / 1000 * 1000) = p.curTimeInMillis / 1000 * 1000 :=
    toInt64_eq_self (by omega) (by omega)
  have hne : ¬ (p.updateDuration - d % p.updateDuration = 0) := by omega
  simp only [increaseCurValue_eq, hcw, h64, hne, if_false, ← hc, ge_iff_le]
  split_ifs <;> rfl

theorem toInt32_range (x : Int) : -2147483648 ≤ toInt32 x ∧ toInt32 x < 2147483648 := by
  unfold toInt32; omega

theorem countdown_arith (c d : Int) (hc : 1 ≤ c) (hc2 : c < 2147483648) (hd : 0 ≤ d)
    (hd2 : d < 2147483648) :
    1 ≤ (if toInt32 (c - toInt32 (d - toInt32 (c * Int.tdiv d c))) = 0 then c
      else toInt32 (c - toInt32 (d - toInt32 (c * Int.tdiv d c)))) ∧
    (if toInt32 (c - toInt32 (d - toInt32 (c * Int.tdiv d c))) = 0 then c
      else toInt32 (c - toInt32 (d - toInt32 (c * Int.tdiv d c)))) ≤ c := by
  rw [Int.tdiv_eq_ediv hd (by omega)]
  have h1 : d - c * (d / c) = d % c := by rw [Int.emod_def]
  have h2 : 0 ≤ d % c := Int.emod_nonneg _ (by omega)
  have h3 : d % c < c := Int.emod_lt_of_pos _ (by omega)
  have h4 : 0 ≤ c * (d / c) := Int.mul_nonneg (by omega) (Int.ediv_nonneg hd (by omega))
  rw [toInt32_eq_self (x := c * (d / c)) (by omega) (by omega), h1,
    toInt32_eq_self (x := d % c) (by omega) (by omega),
    toInt32_eq_self (x := c - d % c) (by omega) (by omega)]
  split_ifs <;> omega

theorem updateStep_countdown (T lo : Int) (s : LoopState) (x : Int × EffectValueList)
    (hD : 1 ≤ s.parameter.updateDuration) (hT0 : 0 ≤ T)
    (hx0 : 0 ≤ x.1) (hlo : lo ≤ x.1)
    (hinv : 0 ≤ s.parameter.lastUpdateTimeInMillis →
      0 ≤ s.lastUpdateTime ∧ s.lastUpdateTime ≤ (min T lo) / 1000)
    (hr : -2147483648 ≤ _GetEffectAddedValue s.parameter.updateDuration x.2
      s.parameter.effectIdForDuration - s.parameter.remainingSeconds)
    (hsum : T / 1000 + _GetEffectAddedValue s.parameter.updateDuration x.2
      s.parameter.effectIdForDuration + max 0 (-s.parameter.remainingSeconds) < 2147483648) :
    1 ≤ (updateStep T s x).parameter.remainingSeconds ∧
    (updateStep T s x).parameter.remainingSeconds ≤ (updateStep T s x).curUpdateDuration ∧
    (updateStep T s x).lastUpdateTime = (min T x.1) / 1000 := by
  have hc := getEffectAddedValue_pos s.parameter.updateDuration x.2
    s.parameter.effectIdForDuration hD
  have hu : toUInt64 (min T x.1) = min T x.1 := toUInt64_eq_self (by omega) (by omega)
  have hd0 : 0 ≤ (if s.parameter.lastUpdateTimeInMillis < 0 then
        toInt32 (toUInt64 (min T x.1) / 1000)
      else toInt32 (toUInt64 (toUInt64 (min T x.1) / 1000 - s.lastUpdateTime))) ∧
      (if s.parameter.lastUpdateTimeInMillis < 0 then
        toInt32 (toUInt64 (min T x.1) / 1000)
      else toInt32 (toUInt64 (toUInt64 (min T x.1) / 1000 - s.lastUpdateTime))) ≤ T / 1000 := by
    rw [hu]
    split_ifs with hneg
    · rw [toInt32_eq_self (by omega) (by omega)]; omega
    · obtain ⟨h1, h2⟩ := hinv (by omega)
      rw [toUInt64_eq_self (by omega) (by omega), toInt32_eq_self (by omega) (by omega)]
      omega
  have he : toInt32 (_GetEffectAddedValue s.parameter.updateDuration x.2
        s.parameter.effectIdForDuration - s.parameter.remainingSeconds)
      = _GetEffectAddedValue s.parameter.updateDuration x.2
        s.parameter.effectIdForDuration - s.parameter.remainingSeconds :=
    toInt32_eq_self hr (by omega)
  have hd : 0 ≤ toInt32 ((if s.parameter.lastUpdateTimeInMillis < 0 then
        toInt32 (toUInt64 (min T x.1) / 1000)
      else toInt32 (toUInt64 (toUInt64 (min T x.1) / 1000 - s.lastUpdateTime)))
      + (if toInt32 (_GetEffectAddedValue s.parameter.updateDuration x.2
            s.parameter.effectIdForDuration - s.parameter.remainingSeconds) < 0 then 0
          else toInt32 (_GetEffectAddedValue s.parameter.updateDuration x.2
            s.parameter.effectIdForDuration - s.parameter.remainingSeconds))) := by
    rw [he]
    obtain ⟨h1, h2⟩ := hd0
    rw [toInt32_eq_self (by split_ifs <;> omega) (by split_ifs <;> omega)]
    split_ifs <;> omega
  have hr := countdown_arith _ _ hc (by omega) hd (toInt32_range _).2
  refine ⟨?_, ?_, ?_⟩
  · simp only [updateStep, increaseCurValue_eq]
    split <;> exact hr.1
  · simp only [updateStep, increaseCurValue_eq]
    split <;> exact hr.2
  · show toUInt64 (min T x.1) / 1000 = _
    rw [hu]

theorem foldl_updateStep_countdown (T : Int) (hT0 : 0 ≤ T) (D0 id0 : Int) (hD : 1 ≤ D0)
    (bps : TimeEffectValueList) (hs : bps.Pairwise (fun a b => a.1 < b.1))
    (h0 : ∀ e ∈ bps, 0 ≤ e.1) (lo : Int) (hlo : ∀ e ∈ bps, lo ≤ e.1)
    (H : ∀ e ∈ bps, T / 1000 + _GetEffectAddedValue D0 e.2 id0 < 2147483648)
    (s : LoopState)
    (hs0 : s.parameter.updateDuration = D0 ∧ s.parameter.effectIdForDuration = id0)
    (hinv : 0 ≤ s.parameter.lastUpdateTimeInMillis →
      0 ≤ s.lastUpdateTime ∧ s.lastUpdateTime ≤ (min T lo) / 1000)
    (hgood : 1 ≤ s.parameter.remainingSeconds ∧
      s.parameter.remainingSeconds ≤ s.curUpdateDuration ∧
      s.parameter.remainingSeconds < 2147483648) :
    1 ≤ (bps.foldl (updateStep T) s).parameter.remainingSeconds ∧
    (bps.foldl (updateStep T) s).parameter.remainingSeconds
      ≤ (bps.foldl (updateStep T) s).curUpdateDuration := by
  induction bps generalizing s lo with
  | nil => exact ⟨hgood.1, hgood.2.1⟩
  | cons x rest ih =>
    rw [List.pairwise_cons] at hs
    obtain ⟨hhead, hrest⟩ := hs
    rw [List.foldl_cons]
    have hx0 := h0 x (List.mem_cons_self _ _)
    have hH := H x (List.mem_cons_self _ _)
    obtain ⟨hsD, hsid⟩ := hs0
    rw [← hsD, ← hsid] at hH
    have hc := getEffectAddedValue_pos s.parameter.updateDuration x.2
      s.parameter.effectIdForDuration (by rw [hsD]; exact hD)
    obtain ⟨g1, g2, g3⟩ := updateStep_countdown T lo s x (by rw [hsD]; exact hD) hT0 hx0
      (hlo x (List.mem_cons_self _ _)) hinv (by omega) (by omega)
    obtain ⟨-, -, -, -, -, gD, -, -, -, gid, -, -⟩ := updateStep_frame T s x
    have hcd : (updateStep T s x).curUpdateDuration < 2147483648 := by
      rw [updateStep_curUpdateDuration]
      have : 0 ≤ T / 1000 := by omega
      omega
    apply ih hrest (fun e he => h0 e (List.mem_cons_of_mem _ he)) x.1
      (fun e he => le_of_lt (hhead e he)) (fun e he => H e (List.mem_cons_of_mem _ he))
      (updateStep T s x) ⟨gD.trans hsD, gid.trans hsid⟩
    · intro _
      rw [g3]
      exact ⟨by omega, le_refl _⟩
    · exact ⟨g1, g2, by omega⟩

/-- After a loop of `Update` over breakpoints with timestamps `≥ 0` that does not overflow the
elapsed seconds, the countdown lies between 1 and the effective interval of the last
breakpoint. -/
theorem foldl_updateStep_countdown_init (q : Parameter) (T : Int) (hT0 : 0 ≤ T)
    (hD : 1 ≤ q.updateDuration) (bps : TimeEffectValueList) (hne : bps ≠ [])
    (hs : bps.Pairwise (fun a b => a.1 < b.1))
    (h0 : ∀ e ∈ bps, 0 ≤ e.1) (hlo : ∀ e ∈ bps, q.lastUpdateTimeInMillis ≤ e.1)
    (hLT : q.lastUpdateTimeInMillis ≤ T) (hr : q.remainingSeconds < 2147483648)
    (H : ∀ e ∈ bps, T / 1000 + _GetEffectAddedValue q.updateDuration e.2 q.effectIdForDuration
      + max 0 (-q.remainingSeconds) < 2147483648) :
    1 ≤ (bps.foldl (updateStep T) (updateInit q)).parameter.remainingSeconds ∧
    (bps.foldl (updateStep T) (updateInit q)).parameter.remainingSeconds
      ≤ (bps.foldl (updateStep T) (updateInit q)).curUpdateDuration := by
  cases bps with
  | nil => exact absurd rfl hne
  | cons x rest =>
    rw [List.pairwise_cons] at hs
    obtain ⟨hhead, hrest⟩ := hs
    rw [List.foldl_cons]
    have hHx := H x (List.mem_cons_self _ _)
    have hc := getEffectAddedValue_pos q.updateDuration x.2 q.effectIdForDuration hD
    have hinit : 0 ≤ (updateInit q).parameter.lastUpdateTimeInMillis →
        0 ≤ (updateInit q).lastUpdateTime ∧
        (updateInit q).lastUpdateTime ≤ (min T q.lastUpdateTimeInMillis) / 1000 := by
      intro hL
      have hL' : 0 ≤ q.lastUpdateTimeInMillis := hL
      show 0 ≤ toUInt64 (Int.tdiv q.lastUpdateTimeInMillis 1000) ∧
        toUInt64 (Int.tdiv q.lastUpdateTimeInMillis 1000) ≤ _
      rw [Int.tdiv_eq_ediv hL' (by omega), toUInt64_eq_self (by omega) (by omega)]
      omega
    obtain ⟨g1, g2, g3⟩ := updateStep_countdown T q.lastUpdateTimeInMillis (updateInit q) x
      hD hT0 (h0 x (List.mem_cons_self _ _)) (hlo x (List.mem_cons_self _ _)) hinit
      (by
        show -2147483648 ≤ _GetEffectAddedValue q.updateDuration x.2 q.effectIdForDuration
          - q.remainingSeconds
        omega)
      hHx
    obtain ⟨-, -, -, -, -, gD, -, -, -, gid, -, -⟩ := updateStep_frame T (updateInit q) x
    have hx0 := h0 x (List.mem_cons_self _ _)
    have hcd : (updateStep T (updateInit q) x).curUpdateDuration < 2147483648 := by
      rw [updateStep_curUpdateDuration]
      have h1 : 0 ≤ T / 1000 := by omega
      have h2 : _GetEffectAddedValue (updateInit q).parameter.updateDuration x.2
          (updateInit q).parameter.effectIdForDuration
          = _GetEffectAddedValue q.updateDuration x.2 q.effectIdForDuration := rfl
      omega
    exact foldl_updateStep_countdown T hT0 q.updateDuration q.effectIdForDuration hD rest hrest
      (fun e he => h0 e (List.mem_cons_of_mem _ he)) x.1
      (fun e he => le_of_lt (hhead e he))
      (fun e he => by
        have := H e (List.mem_cons_of_mem _ he)
        omega)
      (updateStep T (updateInit q) x) ⟨gD, gid⟩
      (fun _ => by rw [g3]; exact ⟨by omega, le_refl _⟩) ⟨g1, g2, by omega⟩
/-! ## The buffs behind the entries of a breakpoint -/

theorem mapUpsert_entries {β : Type} (Q : Int → β → Prop) (dflt : β) (f : β → β) (k : Int)
    (m : List (Int × β)) (hd : Q k (f dflt)) (hf : ∀ v, Q k v → Q k (f v))
    (hm : ∀ e ∈ m, Q e.1 e.2) : ∀ e ∈ mapUpsert dflt f k m, Q e.1 e.2 := by
  induction m with
  | nil =>
    intro e he
    simp only [mapUpsert, List.mem_singleton] at he
    rw [he]; exact hd
  | cons kv' rest ih =>
    rcases kv' with ⟨k', v'⟩
    have hv' : Q k' v' := hm (k', v') (List.mem_cons_self _ _)
    have hrest : ∀ e ∈ rest, Q e.1 e.2 := fun e he => hm e (List.mem_cons_of_mem _ he)
    intro e he
    simp only [mapUpsert] at he
    split_ifs at he with h1 h2
    · rcases List.mem_cons.mp he with h | h
      · rw [h]; exact hd
      · exact hm e h
    · rcases List.mem_cons.mp he with h | h
      · rw [h]; subst h2; exact hf v' hv'
      · exact hrest e h
    · rcases List.mem_cons.mp he with h | h
      · rw [h]; exact hv'
      · exact ih hrest e h

theorem mapInsert_entries {β : Type} (Q : Int → β → Prop) (k : Int) (v : β)
    (m : List (Int × β)) (hv : Q k v) (hm : ∀ e ∈ m, Q e.1 e.2) :
    ∀ e ∈ mapInsert k v m, Q e.1 e.2 := by
  induction m with
  | nil =>
    intro e he
    simp only [mapInsert, List.mem_singleton] at he
    rw [he]; exact hv
  | cons kv' rest ih =>
    rcases kv' with ⟨k', v'⟩
    have hv' : Q k' v' := hm (k', v') (List.mem_cons_self _ _)
    have hrest : ∀ e ∈ rest, Q e.1 e.2 := fun e he => hm e (List.mem_cons_of_mem _ he)
    intro e he
    simp only [mapInsert] at he
    split_ifs at he with h1 h2
    · rcases List.mem_cons.mp he with h | h
      · rw [h]; exact hv
      · exact hm e h
    · exact hm e he
    · rcases List.mem_cons.mp he with h | h
      · rw [h]; exact hv'
      · exact ih hrest e h

theorem gatherEffectValue_entries (R : Int → Int → Prop) (dst : TimeEffectValueList)
    (b : BuffInfo) (effectId : Int) (hb : R b.endTimeInMillis b.effectId)
    (hdst : ∀ e ∈ dst, ∀ kv ∈ e.2, R e.1 kv.1) :
    ∀ e ∈ _GatherEffectValue dst b effectId, ∀ kv ∈ e.2, R e.1 kv.1 := by
  unfold _GatherEffectValue
  split_ifs with h
  · exact hdst
  · have hid : R b.endTimeInMillis effectId := by
      have : b.effectId = effectId := not_not.mp h
      rw [← this]; exact hb
    apply mapUpsert_entries (fun (t : Int) (ev : EffectValueList) => ∀ kv ∈ ev, R t kv.1)
    · exact mapUpsert_keys (R b.endTimeInMillis) _ _ _ _ hid (fun kv hkv => by cases hkv)
    · intro v hv
      exact mapUpsert_keys (R b.endTimeInMillis) _ _ _ _ hid hv
    · exact hdst

theorem foldl_gatherBuff_entries (R : Int → Int → Prop) (p : Parameter) (bs : List BuffInfo)
    (hbs : ∀ b ∈ bs, R b.endTimeInMillis b.effectId) (dst : TimeEffectValueList)
    (hdst : ∀ e ∈ dst, ∀ kv ∈ e.2, R e.1 kv.1) :
    ∀ e ∈ bs.foldl (gatherBuff p) dst, ∀ kv ∈ e.2, R e.1 kv.1 := by
  induction bs generalizing dst with
  | nil => exact hdst
  | cons b bs ih =>
    rw [List.foldl_cons]
    apply ih (fun b' hb' => hbs b' (List.mem_cons_of_mem _ hb'))
    have hb := hbs b (List.mem_cons_self _ _)
    unfold gatherBuff
    exact gatherEffectValue_entries R _ b _ hb (gatherEffectValue_entries R _ b _ hb
      (gatherEffectValue_entries R _ b _ hb (gatherEffectValue_entries R _ b _ hb hdst)))

theorem accumulateEntries_ids (Q : Int → Prop) (curId : Int) (each run : EffectValueList)
    (hrun : ∀ kv ∈ run, Q kv.1) (heach : ∀ kv ∈ each, Q kv.1) :
    ∀ kv ∈ accumulateEntries curId run each, Q kv.1 := by
  induction each generalizing run with
  | nil => exact hrun
  | cons kv' rest ih =>
    rcases kv' with ⟨id, v⟩
    have hrest : ∀ kv ∈ rest, Q kv.1 := fun kv hkv => heach kv (List.mem_cons_of_mem _ hkv)
    simp only [accumulateEntries]
    split_ifs with h
    · exact ih run hrun hrest
    · apply ih _ _ hrest
      exact mapUpsert_keys Q _ _ _ _ (heach (id, v) (List.mem_cons_self _ _)) hrun

theorem accumulateFrom_entries (R : Int → Int → Prop)
    (hmono : ∀ t t' id, t' ≤ t → R t id → R t' id) (curId : Int) (tm : TimeEffectValueList)
    (hs : tm.Pairwise (fun a b => a.1 < b.1)) (htm : ∀ e ∈ tm, ∀ kv ∈ e.2, R e.1 kv.1) :
    (∀ t0, (∀ e ∈ tm, t0 ≤ e.1) → ∀ kv ∈ (accumulateFrom curId tm).1, R t0 kv.1) ∧
    (∀ e ∈ (accumulateFrom curId tm).2, ∀ kv ∈ e.2, R e.1 kv.1) := by
  induction tm with
  | nil =>
    exact ⟨fun _ _ kv hkv => (by cases hkv), fun e he => (by cases he)⟩
  | cons e' rest ih =>
    rcases e' with ⟨t, each⟩
    rw [List.pairwise_cons] at hs
    obtain ⟨hhead, hrest⟩ := hs
    obtain ⟨ih1, ih2⟩ := ih hrest (fun e he => htm e (List.mem_cons_of_mem _ he))
    have hnew : ∀ kv ∈ accumulateEntries curId (accumulateFrom curId rest).1 each,
        R t kv.1 :=
      accumulateEntries_ids (R t) curId each _
        (ih1 t (fun e he => le_of_lt (hhead e he)))
        (htm (t, each) (List.mem_cons_self _ _))
    simp only [accumulateFrom]
    refine ⟨?_, ?_⟩
    · intro t0 ht0 kv hkv
      exact hmono t t0 kv.1 (ht0 (t, each) (List.mem_cons_self _ _)) (hnew kv hkv)
    · intro e he
      rcases List.mem_cons.mp he with h | h
      · rw [h]; exact hnew
      · exact ih2 e h

/-- Every entry of a breakpoint of `_GetRecalculatedEffectValues` carries the effect id of a
buff that expires at or after the breakpoint. -/
theorem recalculated_entries (p : Parameter) (T : Int) :
    ∀ e ∈ _GetRecalculatedEffectValues p T, ∀ kv ∈ e.2,
      ∃ b ∈ p.buffInfos, b.effectId = kv.1 ∧ e.1 ≤ b.endTimeInMillis := by
  intro e he
  unfold _GetRecalculatedEffectValues at he
  have he' := List.dropWhile_subset _ he
  rw [accumulate_eq] at he'
  refine (accumulateFrom_entries
    (fun t id => ∃ b ∈ p.buffInfos, b.effectId = id ∧ t ≤ b.endTimeInMillis) ?_
    p.effectIdForCurValue _ (withNow_sorted p T) ?_).2 e he'
  · rintro t t' id htt ⟨b, hb, hid, hbt⟩
    exact ⟨b, hb, hid, le_trans htt hbt⟩
  · apply mapInsert_entries
      (fun (t : Int) (ev : EffectValueList) =>
        ∀ kv ∈ ev, ∃ b ∈ p.buffInfos, b.effectId = kv.1 ∧ t ≤ b.endTimeInMillis)
    · intro kv hkv; cases hkv
    · rw [gatherEffectValues_eq]
      exact foldl_gatherBuff_entries
        (fun t id => ∃ b ∈ p.buffInfos, b.effectId = id ∧ t ≤ b.endTimeInMillis) p
        p.buffInfos (fun b hb => ⟨b, hb, rfl, le_refl _⟩) [] (fun e he => by cases he)

/-- A channel whose buffs all expire before `T0` has no entry at a breakpoint at or after
`T0`. -/
theorem recalculated_no_entry (p : Parameter) (T T0 id : Int)
    (hb : ∀ b ∈ p.buffInfos, b.effectId = id → b.endTimeInMillis < T0) :
    ∀ e ∈ _GetRecalculatedEffectValues p T, T0 ≤ e.1 → mapFind id e.2 = none := by
  intro e he hT0
  apply mapFind_none_of_keys
  intro kv hkv hid
  obtain ⟨b, hbm, hbid, hbt⟩ := recalculated_entries p T e he kv hkv
  have := hb b hbm (hbid.trans hid)
  omega

theorem gatherBuff_congr (p p' : Parameter)
    (h1 : p'.effectIdForCurValue = p.effectIdForCurValue)
    (h2 : p'.effectIdForMaxValue = p.effectIdForMaxValue)
    (h3 : p'.effectIdForDuration = p.effectIdForDuration)
    (h4 : p'.effectIdForUpdateValue = p.effectIdForUpdateValue) :
    gatherBuff p' = gatherBuff p := by
  funext dst b
  unfold gatherBuff
  rw [h1, h2, h3, h4]

/-- A state that differs from `p` in a later last update time only keeps a part of the
breakpoints of `p`. -/
theorem recalculated_subset (p p' : Parameter) (T : Int)
    (hb : p'.buffInfos = p.buffInfos)
    (h1 : p'.effectIdForCurValue = p.effectIdForCurValue)
    (h2 : p'.effectIdForMaxValue = p.effectIdForMaxValue)
    (h3 : p'.effectIdForDuration = p.effectIdForDuration)
    (h4 : p'.effectIdForUpdateValue = p.effectIdForUpdateValue)
    (hL : p.lastUpdateTimeInMillis ≤ p'.lastUpdateTimeInMillis) :
    ∀ e ∈ _GetRecalculatedEffectValues p' T, e ∈ _GetRecalculatedEffectValues p T := by
  have hg : _GatherEffectValues [] p' = _GatherEffectValues [] p := by
    rw [gatherEffectValues_eq, gatherEffectValues_eq, hb, gatherBuff_congr p p' h1 h2 h3 h4]
  have heq : _GetRecalculatedEffectValues p' T
      = (_GetRecalculatedEffectValues p T).dropWhile
          (fun entry => decide (entry.1 < p'.lastUpdateTimeInMillis)) := by
    unfold _GetRecalculatedEffectValues
    dsimp only
    rw [hg, h1, dropWhile_dropWhile_of_imp]
    intro a ha
    have : a.1 < p.lastUpdateTimeInMillis := of_decide_eq_true ha
    exact decide_eq_true (by omega)
  intro e he
  rw [heq] at he
  exact List.dropWhile_subset _ he
/-! ## A repeated call at the same now -/

theorem updateStep_idle (n : Int) (hn0 : 0 ≤ n) (hn1 : n < 2147483648)
    (p : Parameter) (u : Bool) (cd cv cm : Int) (x : Int × EffectValueList)
    (hx : n * 1000 ≤ x.1)
    (hL : p.lastUpdateTimeInMillis = n * 1000)
    (hf1 : mapFind p.effectIdForCurValue x.2 = none)
    (hf2 : mapFind p.effectIdForMaxValue x.2 = none)
    (hf3 : mapFind p.effectIdForDuration x.2 = none)
    (hD : 1 ≤ p.updateDuration) (hD2 : p.updateDuration < 2147483648)
    (hr0 : 0 ≤ p.remainingSeconds) (hr1 : p.remainingSeconds ≤ p.updateDuration)
    (hstab : (if p.downwardCorrection = false ∧ p.maxValue ≤ p.curValue then p.curValue
        else max (min (toInt32 (p.curValue
          + toInt32 (_GetEffectAddedValue p.updateValue x.2 p.effectIdForUpdateValue
            * (if p.remainingSeconds = 0 then 1 else 0)))) p.maxValue) p.minValue)
      = p.curValue) :
    updateStep (n * 1000) ⟨p, u, n, cd, cv, cm⟩ x
      = ⟨{ p with remainingSeconds :=
            if p.remainingSeconds = 0 then p.updateDuration else p.remainingSeconds },
          true, n, p.updateDuration,
          _GetEffectAddedValue p.updateValue x.2 p.effectIdForUpdateValue, p.maxValue⟩ := by
  rcases p with ⟨b, c, mn, mx, l, t, D, V, i1, i2, i3, i4, r, dc⟩
  dsimp only at hL hf1 hf2 hf3 hD hD2 hr0 hr1 hstab
  subst hL
  have hu : toUInt64 (min (n * 1000) x.1) = n * 1000 := by
    rw [min_eq_left hx]; exact toUInt64_eq_self (by omega) (by omega)
  have hdiv : n * 1000 / 1000 = n := by omega
  have hLn : ¬ (n * 1000 < 0) := by omega
  have hdur : toInt32 (toUInt64 (n - n)) = 0 := by rw [sub_self]; rfl
  have he : toInt32 (D - r) = D - r := toInt32_eq_self (by omega) (by omega)
  have hen : ¬ (D - r < 0) := by omega
  have hd : toInt32 (0 + (D - r)) = D - r := by rw [zero_add]; exact he
  have hcount : Int.tdiv (D - r) D = if r = 0 then 1 else 0 := by
    rw [Int.tdiv_eq_ediv (by omega) (by omega)]
    split_ifs with h0
    · rw [h0, sub_zero]; exact Int.ediv_self (by omega)
    · exact Int.ediv_eq_zero_of_lt (by omega) (by omega)
  have hrem : (if toInt32 (D - toInt32 (D - r - toInt32 (D * (if r = 0 then 1 else 0)))) = 0
      then D else toInt32 (D - toInt32 (D - r - toInt32 (D * (if r = 0 then 1 else 0)))))
      = if r = 0 then D else r := by
    by_cases h0 : r = 0
    · have h1 : toInt32 (D * 1) = D := by rw [mul_one]; exact toInt32_eq_self (by omega) hD2
      have h2 : toInt32 (D - 0 - D) = 0 := by rw [sub_zero, sub_self]; rfl
      have h3 : toInt32 (D - 0) = D := by rw [sub_zero]; exact toInt32_eq_self (by omega) hD2
      have h4 : ¬ (D = 0) := by omega
      simp only [h0, if_true, h1, h2, h3, h4, if_false]
    · have h1 : toInt32 (D * 0) = 0 := by rw [mul_zero]; rfl
      have h2 : toInt32 (D - r - 0) = D - r := by rw [sub_zero]; exact he
      have h3 : toInt32 (D - (D - r)) = r := by
        rw [sub_sub_cancel]; exact toInt32_eq_self (by omega) (by omega)
      simp only [h0, if_false, h1, h2, h3]
  simp only [updateStep, _GetEffectAddedValue, increaseCurValue_eq, hf1, hf2, hf3, hu, hdiv,
    hLn, if_false, hdur, he, hen, hd, hcount, hrem]
  simp only [_GetEffectAddedValue] at hstab
  rw [hstab]

theorem foldl_updateStep_idle (n : Int) (hn0 : 0 ≤ n) (hn1 : n < 2147483648)
    (p1 : Parameter) (bps : TimeEffectValueList)
    (hbps : ∀ e ∈ bps, n * 1000 ≤ e.1 ∧ mapFind p1.effectIdForCurValue e.2 = none ∧
      mapFind p1.effectIdForMaxValue e.2 = none ∧ mapFind p1.effectIdForDuration e.2 = none)
    (hL : p1.lastUpdateTimeInMillis = n * 1000)
    (hD : 1 ≤ p1.updateDuration) (hD2 : p1.updateDuration < 2147483648)
    (huncap : p1.curValue < p1.maxValue → 1 ≤ p1.remainingSeconds)
    (hstab : ∀ e ∈ bps, ∀ k, (k = 0 ∨ (k = 1 ∧ p1.maxValue ≤ p1.curValue)) →
      (if p1.downwardCorrection = false ∧ p1.maxValue ≤ p1.curValue then p1.curValue
        else max (min (toInt32 (p1.curValue
          + toInt32 (_GetEffectAddedValue p1.updateValue e.2 p1.effectIdForUpdateValue * k)))
            p1.maxValue) p1.minValue) = p1.curValue)
    (ρ : Int) (u : Bool) (cv : Int)
    (hρ : 0 ≤ ρ ∧ ρ ≤ p1.updateDuration ∧
      (p1.curValue < p1.maxValue → ρ = p1.remainingSeconds)) :
    ∃ ρ' u' cv', (0 ≤ ρ' ∧ ρ' ≤ p1.updateDuration ∧
        (p1.curValue < p1.maxValue → ρ' = p1.remainingSeconds)) ∧
      bps.foldl (updateStep (n * 1000))
          ⟨{ p1 with remainingSeconds := ρ }, u, n, p1.updateDuration, cv, p1.maxValue⟩
        = ⟨{ p1 with remainingSeconds := ρ' }, u', n, p1.updateDuration, cv', p1.maxValue⟩ := by
  induction bps generalizing ρ u cv with
  | nil => exact ⟨ρ, u, cv, hρ, rfl⟩
  | cons x rest ih =>
    rw [List.foldl_cons]
    obtain ⟨hx, hf1, hf2, hf3⟩ := hbps x (List.mem_cons_self _ _)
    obtain ⟨hρ0, hρ1, hρ2⟩ := hρ
    have hk : (if ρ = 0 then (1 : Int) else 0) = 0 ∨
        ((if ρ = 0 then (1 : Int) else 0) = 1 ∧ p1.maxValue ≤ p1.curValue) := by
      by_cases h0 : ρ = 0
      · right
        refine ⟨by simp only [h0, if_true], ?_⟩
        by_contra hc
        have h1 := hρ2 (by omega)
        have h2 := huncap (by omega)
        omega
      · left; simp only [h0, if_false]
    have hst := hstab x (List.mem_cons_self _ _) _ hk
    have hstep := updateStep_idle n hn0 hn1 { p1 with remainingSeconds := ρ } u
      p1.updateDuration cv p1.maxValue x hx hL hf1 hf2 hf3 hD hD2 hρ0 hρ1 hst
    rw [hstep]
    exact ih (fun e he => hbps e (List.mem_cons_of_mem _ he))
      (fun e he => hstab e (List.mem_cons_of_mem _ he))
      (if ρ = 0 then p1.updateDuration else ρ) true
      (_GetEffectAddedValue p1.updateValue x.2 p1.effectIdForUpdateValue)
      ⟨by split_ifs <;> omega, by split_ifs <;> omega, fun hu => by
        have h1 := hρ2 hu
        have h2 := huncap hu
        have h3 : ¬ (ρ = 0) := by omega
        rw [if_neg h3]; exact h1⟩

/-- A state as a call at the whole second `n` leaves it, with no buff on the max-value or
duration channel that is still active, is left unchanged by `Update` at the same now, provided
its current value is stable under the tick the repeated call may add. -/
theorem Update_stable (clock : Int) (p1 : Parameter) (n : Int)
    (hn0 : 0 ≤ n) (hn1 : n < 2147483648)
    (hnow : 0 < p1.curTimeInMillis) (hn : p1.curTimeInMillis / 1000 = n)
    (hL : p1.lastUpdateTimeInMillis = n * 1000)
    (hD : 1 ≤ p1.updateDuration) (hD2 : p1.updateDuration < 2147483648)
    (hV : 1 ≤ p1.updateValue) (hmn : p1.minValue ≤ p1.curValue)
    (hcap : p1.maxValue ≤ p1.curValue → p1.remainingSeconds = p1.updateDuration - 1)
    (huncap : p1.curValue < p1.maxValue →
      1 ≤ p1.remainingSeconds ∧ p1.remainingSeconds ≤ p1.updateDuration)
    (hb : ∀ b ∈ p1.buffInfos,
      (b.effectId = p1.effectIdForMaxValue ∨ b.effectId = p1.effectIdForDuration) →
      b.endTimeInMillis < n * 1000)
    (hstab : ∀ e ∈ _GetRecalculatedEffectValues p1 (n * 1000), ∀ k,
      (k = 0 ∨ (k = 1 ∧ p1.maxValue ≤ p1.curValue)) →
      (if p1.downwardCorrection = false ∧ p1.maxValue ≤ p1.curValue then p1.curValue
        else max (min (toInt32 (p1.curValue
          + toInt32 (_GetEffectAddedValue p1.updateValue e.2 p1.effectIdForUpdateValue * k)))
            p1.maxValue) p1.minValue) = p1.curValue) :
    (Update clock p1).2 = p1 := by
  have hr : p1.remainingSeconds ≠ -1 := by
    by_cases hc : p1.maxValue ≤ p1.curValue
    · have := hcap hc; omega
    · have := huncap (by omega); omega
  have hr01 : 0 ≤ p1.remainingSeconds ∧ p1.remainingSeconds ≤ p1.updateDuration := by
    by_cases hc : p1.maxValue ≤ p1.curValue
    · have := hcap hc; omega
    · have := huncap (by omega); omega
  rw [Update_eq, getCurTime_frozen clock p1 hnow, correct_of_corrected p1 hD hV hr, hn]
  have hbps : ∀ e ∈ _GetRecalculatedEffectValues p1 (n * 1000),
      n * 1000 ≤ e.1 ∧ mapFind p1.effectIdForCurValue e.2 = none ∧
      mapFind p1.effectIdForMaxValue e.2 = none ∧
      mapFind p1.effectIdForDuration e.2 = none := by
    intro e he
    have h1 : n * 1000 ≤ e.1 := by
      have := recalculated_lower_bound p1 (n * 1000) e he
      omega
    refine ⟨h1, ?_, ?_, ?_⟩
    · exact mapFind_none_of_keys _ _ (fun kv hkv =>
        (recalculated_keys (fun _ => True) p1 (n * 1000) (fun _ _ => trivial) e he kv hkv).2)
    · exact recalculated_no_entry p1 (n * 1000) (n * 1000) _
        (fun b hb' hid => hb b hb' (Or.inl hid)) e he h1
    · exact recalculated_no_entry p1 (n * 1000) (n * 1000) _
        (fun b hb' hid => hb b hb' (Or.inr hid)) e he h1
  have hinit : updateInit p1
      = ⟨{ p1 with remainingSeconds := p1.remainingSeconds }, false, n, p1.updateDuration,
          p1.updateValue, p1.maxValue⟩ := by
    have hlu : toUInt64 (Int.tdiv p1.lastUpdateTimeInMillis 1000) = n := by
      rw [hL, Int.tdiv_eq_ediv (by omega) (by omega),
        toUInt64_eq_self (x := n * 1000 / 1000) (by omega) (by omega)]
      omega
    unfold updateInit
    rw [hlu]
  obtain ⟨ρ', u', cv', ⟨hρ0, hρ1, hρ2⟩, hfold⟩ := foldl_updateStep_idle n hn0 hn1 p1
    (_GetRecalculatedEffectValues p1 (n * 1000)) hbps hL hD hD2
    (fun h => (huncap h).1) hstab p1.remainingSeconds false p1.updateValue
    ⟨hr01.1, hr01.2, fun _ => rfl⟩
  rw [hinit, hfold]
  have h64 : toInt64 (toUInt64 (n * 1000)) = n * 1000 := by
    rw [toUInt64_eq_self (by omega) (by omega)]
    exact toInt64_eq_self (by omega) (by omega)
  rcases p1 with ⟨b, c, mn, mx, l, t, D, V, i1, i2, i3, i4, r, dc⟩
  dsimp only at hL hmn hcap hρ2 ⊢
  have hmax : max c mn = c := max_eq_left hmn
  unfold updateFinish
  simp only [hmax, h64, ge_iff_le]
  split_ifs with hc
  · dsimp only
    rw [← hcap hc, hL]
  · dsimp only
    rw [hρ2 (by omega), hL]
/-! ## The state a call leaves when no max-value or duration buff is active -/

theorem stab_arith (dc : Bool) (M mn c0 y cV k c1 : Int)
    (hc1 : c1 = max (if dc = false ∧ M ≤ c0 then c0 else max (min (toInt32 y) M) mn) mn)
    (hk : k = 0 ∨ (k = 1 ∧ M ≤ c1))
    (hV : dc = true → max mn M + cV < 2147483648) (hcV : 1 ≤ cV) :
    (if dc = false ∧ M ≤ c1 then c1
      else max (min (toInt32 (c1 + toInt32 (cV * k))) M) mn) = c1 := by
  have hy := toInt32_range y
  generalize toInt32 y = z at hc1 hy
  cases dc
  · simp only [true_and] at hc1 ⊢
    clear hV
    rcases hk with hk | ⟨hk, hcap⟩
    · subst hk
      rw [mul_zero]
      unfold toInt32
      split_ifs at hc1 ⊢ <;> omega
    · rw [if_pos hcap]
  · simp only [Bool.true_eq_false, false_and, if_false] at hc1 ⊢
    have hV' := hV rfl
    clear hV
    rcases hk with hk | ⟨hk, hcap⟩
    · subst hk
      rw [mul_zero]
      unfold toInt32
      omega
    · subst hk
      rw [mul_one]
      unfold toInt32
      omega

theorem updateStep_curValue_form (T : Int) (s : LoopState) (x : Int × EffectValueList)
    (hcur : mapFind s.parameter.effectIdForCurValue x.2 = none) :
    ∃ y, (updateStep T s x).parameter.curValue
      = if s.parameter.downwardCorrection = false ∧
          (updateStep T s x).curMaxValue ≤ s.parameter.curValue then s.parameter.curValue
        else max (min (toInt32 y) (updateStep T s x).curMaxValue) s.parameter.minValue := by
  rcases s with ⟨p, u, l, cd, cv, cm⟩
  rcases p with ⟨b, c, mn, mx, l', t, D, V, j1, j2, j3, j4, r, dc⟩
  dsimp only at hcur
  simp only [updateStep, increaseCurValue_eq, hcur]
  exact ⟨_, rfl⟩

theorem updateStep_lastUpdateTime (T : Int) (s : LoopState) (x : Int × EffectValueList) :
    (updateStep T s x).lastUpdateTime = toUInt64 (min T x.1) / 1000 := rfl

theorem updateFinish_of_frame (n : Int) (hn0 : 0 ≤ n) (hn1 : n < 2147483648)
    (q : Parameter) (s : LoopState)
    (hframe : s.parameter.buffInfos = q.buffInfos ∧
      s.parameter.minValue = q.minValue ∧
      s.parameter.maxValue = q.maxValue ∧
      s.parameter.lastUpdateTimeInMillis = q.lastUpdateTimeInMillis ∧
      s.parameter.curTimeInMillis = q.curTimeInMillis ∧
      s.parameter.updateDuration = q.updateDuration ∧
      s.parameter.updateValue = q.updateValue ∧
      s.parameter.effectIdForCurValue = q.effectIdForCurValue ∧
      s.parameter.effectIdForMaxValue = q.effectIdForMaxValue ∧
      s.parameter.effectIdForDuration = q.effectIdForDuration ∧
      s.parameter.effectIdForUpdateValue = q.effectIdForUpdateValue ∧
      s.parameter.downwardCorrection = q.downwardCorrection)
    (hcD : s.curUpdateDuration = q.updateDuration) (hcM : s.curMaxValue = q.maxValue)
    (hlu : s.lastUpdateTime = n) :
    (updateFinish (n * 1000) s).2 = { q with
      curValue := max s.parameter.curValue q.minValue
      remainingSeconds :=
        if q.maxValue ≤ max s.parameter.curValue q.minValue then q.updateDuration - 1
        else s.parameter.remainingSeconds
      lastUpdateTimeInMillis := n * 1000 } := by
  rcases s with ⟨p, u, l, cd, cv, cm⟩
  rcases p with ⟨b, c, mn, mx, l', t, D, V, j1, j2, j3, j4, r, dc⟩
  rcases q with ⟨b', c', mn', mx', l'', t', D', V', k1, k2, k3, k4, r', dc'⟩
  dsimp only at hframe hcD hcM hlu
  obtain ⟨rfl, rfl, rfl, rfl, rfl, rfl, rfl, rfl, rfl, rfl, rfl, rfl⟩ := hframe
  subst hcD hcM hlu
  have h64 : toInt64 (toUInt64 (l * 1000)) = l * 1000 := by
    rw [toUInt64_eq_self (by omega) (by omega)]
    exact toInt64_eq_self (by omega) (by omega)
  unfold updateFinish
  simp only [h64, ge_iff_le]
  split_ifs <;> rfl

/-- The state a call leaves at the whole second `n` when every buff on the max-value or
duration channel has expired before and the elapsed seconds do not overflow: the corrected
state with a new current value, countdown and last update time. -/
theorem Update_first_call (q : Parameter) (n : Int) (hn0 : 0 ≤ n)
    (hD : 1 ≤ q.updateDuration)
    (hb : ∀ b ∈ q.buffInfos,
      (b.effectId = q.effectIdForMaxValue ∨ b.effectId = q.effectIdForDuration) →
      b.endTimeInMillis < n * 1000)
    (hexp : ∀ b ∈ q.buffInfos, 0 ≤ b.endTimeInMillis)
    (hL : q.lastUpdateTimeInMillis ≤ n * 1000)
    (hr : q.remainingSeconds < 2147483648)
    (H : ∀ e ∈ _GetRecalculatedEffectValues q (n * 1000),
      n + _GetEffectAddedValue q.updateDuration e.2 q.effectIdForDuration
        + max 0 (-q.remainingSeconds) < 2147483648) :
    ∃ c0 y c1 r1,
      c1 = max (if q.downwardCorrection = false ∧ q.maxValue ≤ c0 then c0
                else max (min (toInt32 y) q.maxValue) q.minValue) q.minValue ∧
      (updateFinish (n * 1000) ((_GetRecalculatedEffectValues q (n * 1000)).foldl
          (updateStep (n * 1000)) (updateInit q))).2
        = { q with curValue := c1, remainingSeconds := r1,
                   lastUpdateTimeInMillis := n * 1000 } ∧
      (q.maxValue ≤ c1 → r1 = q.updateDuration - 1) ∧
      (c1 < q.maxValue → 1 ≤ r1 ∧ r1 ≤ q.updateDuration) ∧
      q.updateDuration < 2147483648 ∧ n < 2147483648 := by
  have hT0 : 0 ≤ n * 1000 := by omega
  have hTd : n * 1000 / 1000 = n := by omega
  obtain ⟨e0, he0, he0T⟩ := recalculated_mem_now q (n * 1000) hL
  have hsorted := recalculated_sorted q (n * 1000)
  have hne : _GetRecalculatedEffectValues q (n * 1000) ≠ [] := by
    intro h; rw [h] at he0; cases he0
  have hgood := foldl_updateStep_countdown_init q (n * 1000) hT0 hD
    (_GetRecalculatedEffectValues q (n * 1000)) hne hsorted
    (recalculated_times (fun t => 0 ≤ t) q (n * 1000) hT0 hexp)
    (recalculated_lower_bound q (n * 1000)) hL hr
    (fun e he => by have := H e he; rw [hTd]; exact this)
  have hkeys := recalculated_keys (fun _ => True) q (n * 1000) (fun _ _ => trivial)
  have hnomax := recalculated_no_entry q (n * 1000) (n * 1000) q.effectIdForMaxValue
    (fun b hb' hid => hb b hb' (Or.inl hid))
  have hnodur := recalculated_no_entry q (n * 1000) (n * 1000) q.effectIdForDuration
    (fun b hb' hid => hb b hb' (Or.inr hid))
  rcases List.eq_nil_or_concat (_GetRecalculatedEffectValues q (n * 1000))
    with h | ⟨pre, x, h⟩
  · exact absurd h hne
  · rw [List.concat_eq_append] at h
    rw [h] at hgood hsorted he0 hkeys hnomax hnodur H ⊢
    have hxmem : x ∈ pre ++ [x] := List.mem_append_right _ (List.mem_singleton.mpr rfl)
    have hxT : n * 1000 ≤ x.1 := by
      rcases List.mem_append.mp he0 with h1 | h1
      · have hlt : e0.1 < x.1 :=
          (List.pairwise_append.mp hsorted).2.2 e0 h1 x (List.mem_singleton.mpr rfl)
        omega
      · rw [List.mem_singleton.mp h1] at he0T; omega
    have hHx := H x hxmem
    rw [List.foldl_append, List.foldl_cons, List.foldl_nil] at hgood ⊢
    obtain ⟨f1, f2, f3, f4, f5, f6, f7, f8, f9, f10, f11, f12⟩ :=
      foldl_updateStep_frame (n * 1000) pre (updateInit q)
    obtain ⟨g1, g2, g3, g4, g5, g6, g7, g8, g9, g10, g11, g12⟩ :=
      updateStep_frame (n * 1000) (pre.foldl (updateStep (n * 1000)) (updateInit q)) x
    have hi : (updateInit q).parameter = q := rfl
    rw [hi] at f1 f2 f3 f4 f5 f6 f7 f8 f9 f10 f11 f12
    have hcD : (updateStep (n * 1000) (pre.foldl (updateStep (n * 1000)) (updateInit q))
        x).curUpdateDuration = q.updateDuration := by
      rw [updateStep_curUpdateDuration, f6, f10]
      exact getEffectAddedValue_none _ _ _ (hnodur x hxmem hxT)
    have hcM : (updateStep (n * 1000) (pre.foldl (updateStep (n * 1000)) (updateInit q))
        x).curMaxValue = q.maxValue := by
      rw [updateStep_curMaxValue, f3, f9]
      exact getEffectAddedValue_none _ _ _ (hnomax x hxmem hxT)
    have hDq : q.updateDuration < 2147483648 := by
      have h1 := getEffectAddedValue_none q.updateDuration x.2 q.effectIdForDuration
        (hnodur x hxmem hxT)
      rw [h1] at hHx
      omega
    have hn1 : n < 2147483648 := by
      have := getEffectAddedValue_pos q.updateDuration x.2 q.effectIdForDuration hD
      omega
    have hlu : (updateStep (n * 1000) (pre.foldl (updateStep (n * 1000)) (updateInit q))
        x).lastUpdateTime = n := by
      rw [updateStep_lastUpdateTime, min_eq_left hxT,
        toUInt64_eq_self (by omega) (by omega)]
      exact hTd
    obtain ⟨y, hy⟩ := updateStep_curValue_form (n * 1000)
      (pre.foldl (updateStep (n * 1000)) (updateInit q)) x
      (by
        rw [f8]
        exact mapFind_none_of_keys _ _ (fun kv hkv => (hkeys x hxmem kv hkv).2))
    rw [hcM, f12, f2] at hy
    have hfin := updateFinish_of_frame n hn0 hn1 q
      (updateStep (n * 1000) (pre.foldl (updateStep (n * 1000)) (updateInit q)) x)
      ⟨g1.trans f1, g2.trans f2, g3.trans f3, g4.trans f4, g5.trans f5, g6.trans f6,
        g7.trans f7, g8.trans f8, g9.trans f9, g10.trans f10, g11.trans f11, g12.trans f12⟩
      hcD hcM hlu
    rw [hcD] at hgood
    generalize updateStep (n * 1000) (pre.foldl (updateStep (n * 1000)) (updateInit q)) x
      = s1 at *
    refine ⟨(pre.foldl (updateStep (n * 1000)) (updateInit q)).parameter.curValue, y,
      max s1.parameter.curValue q.minValue,
      if q.maxValue ≤ max s1.parameter.curValue q.minValue then q.updateDuration - 1
        else s1.parameter.remainingSeconds, ?_, hfin, ?_, ?_, hDq, hn1⟩
    · rw [hy]
    · intro hc; rw [if_pos hc]
    · intro hc
      have : ¬ (q.maxValue ≤ max s1.parameter.curValue q.minValue) := by omega
      rw [if_neg this]; exact hgood
/-! ## C1: splitting a reconciliation -/

/-- C2 (amended). Pure time-based regeneration from the never-updated state: for every state
with an empty buff list, a negative `lastUpdateTimeInMillis`, `remainingSeconds = -1`,
`updateDuration = D` with `1 ≤ D < 2^31`, `updateValue = V ≥ 1`,
`-2^31 ≤ minValue ≤ curValue < maxValue` and a frozen now `> 0` whose whole seconds
`n = now / 1000` fit an `int` (`n < 2^31`), if the regenerated amount `V * (n / D)` and the sum
`curValue + V * (n / D)` fit an `int` (both `< 2^31`), then `Update` sets the current value to
`min maxValue (curValue + V * (n / D))`; and when that result is below the max it sets
`remainingSeconds = D - n % D` and `lastUpdateTimeInMillis = n * 1000`. -/
theorem Update_regeneration (clock : Int) (p : Parameter)
    (hb : p.buffInfos = []) (hL : p.lastUpdateTimeInMillis < 0)
    (hr : p.remainingSeconds = -1) (hD : 1 ≤ p.updateDuration) (hV : 1 ≤ p.updateValue)
    (hmin : p.minValue ≤ p.curValue) (hmax : p.curValue < p.maxValue)
    (hnow : 0 < p.curTimeInMillis) (hn : p.curTimeInMillis / 1000 < 2147483648)
    (hDi : p.updateDuration < 2147483648) (hlo : -2147483648 ≤ p.minValue)
    (hticks : p.updateValue * (p.curTimeInMillis / 1000 / p.updateDuration) < 2147483648)
    (hsum : p.curValue + p.updateValue * (p.curTimeInMillis / 1000 / p.updateDuration)
      < 2147483648) :
    (Update clock p).2.curValue
      = min p.maxValue
          (p.curValue + p.updateValue * (p.curTimeInMillis / 1000 / p.updateDuration)) ∧
    (min p.maxValue
        (p.curValue + p.updateValue * (p.curTimeInMillis / 1000 / p.updateDuration))
        < p.maxValue →
      (Update clock p).2.remainingSeconds
        = p.updateDuration - p.curTimeInMillis / 1000 % p.updateDuration ∧
      (Update clock p).2.lastUpdateTimeInMillis = p.curTimeInMillis / 1000 * 1000) := by
  have hq : _CorrectParameter p = { p with remainingSeconds := p.updateDuration } := by
    unfold _CorrectParameter
    have h1 : ¬ p.updateDuration ≤ 0 := by omega
    have h2 : ¬ p.updateValue ≤ 0 := by omega
    simp only [h1, h2, hr, if_false, if_true]
  have hU : Update clock p = Update clock { p with remainingSeconds := p.updateDuration } := by
    apply Update_congr_correct
    rw [hq]
    exact (correct_of_corrected { p with remainingSeconds := p.updateDuration } hD hV
      (by show p.updateDuration ≠ -1; omega)).symm
  have hA : 0 ≤ p.updateValue * (p.curTimeInMillis / 1000 / p.updateDuration) :=
    Int.mul_nonneg (by omega) (Int.ediv_nonneg (by omega) (by omega))
  rw [hU, Update_no_buff clock { p with remainingSeconds := p.updateDuration }
    (by intro b hb'; simp [hb] at hb') hD hV (by show p.updateDuration ≠ -1; omega) hnow hn
    (Or.inl hL) (p.curTimeInMillis / 1000) (by simp [hL]) hDi
    (by show -2147483648 ≤ p.updateDuration - p.updateDuration; omega) hn hticks
    (by
      show -2147483648
        ≤ p.curValue + p.updateValue * (p.curTimeInMillis / 1000 / p.updateDuration)
      omega) hsum _ rfl]
  have hnc : ¬ (p.downwardCorrection = false ∧ p.maxValue ≤ p.curValue) := by
    intro h; omega
  simp only [hnc, if_false]
  constructor
  · omega
  · intro hlt
    have : ¬ (p.maxValue ≤ max (max (min (p.curValue
        + p.updateValue * (p.curTimeInMillis / 1000 / p.updateDuration)) p.maxValue)
        p.minValue) p.minValue) := by omega
    simp only [this, if_false, and_self]

/-- Counterexample of C2 as stated.  First input: with the clock frozen at `2^31` seconds the
elapsed seconds do not fit the `int` they are converted to (line 91); `Update` leaves the
current value 0 where the claimed formula gives 100.  Second input: interval 1, tick value 2 and
the clock frozen at 1793400000000 ms; the 1793400000 elapsed seconds fit an `int` but the `int`
product `curUpdateValue * updateCount` of line 103 does not, it wraps to a negative value and
`Update` leaves the current value 0 (countdown 1) where the claimed formula gives 100. -/
theorem Update_regeneration_counterexample :
    (lateState.buffInfos = [] ∧ lateState.lastUpdateTimeInMillis < 0 ∧
      lateState.remainingSeconds = -1 ∧ 1 ≤ lateState.updateDuration ∧
      1 ≤ lateState.updateValue ∧ lateState.minValue ≤ lateState.curValue ∧
      lateState.curValue < lateState.maxValue ∧ 0 < lateState.curTimeInMillis ∧
      (Update 0 lateState).2.curValue = 0 ∧
      min lateState.maxValue (lateState.curValue + lateState.updateValue
        * (lateState.curTimeInMillis / 1000 / lateState.updateDuration)) = 100) ∧
    (fastRegenState.buffInfos = [] ∧ fastRegenState.lastUpdateTimeInMillis < 0 ∧
      fastRegenState.remainingSeconds = -1 ∧ 1 ≤ fastRegenState.updateDuration ∧
      1 ≤ fastRegenState.updateValue ∧ fastRegenState.minValue ≤ fastRegenState.curValue ∧
      fastRegenState.curValue < fastRegenState.maxValue ∧
      0 < fastRegenState.curTimeInMillis ∧
      fastRegenState.curTimeInMillis / 1000 < 2147483648 ∧
      (Update 0 fastRegenState).2.curValue = 0 ∧
      (Update 0 fastRegenState).2.remainingSeconds = 1 ∧
      min fastRegenState.maxValue (fastRegenState.curValue + fastRegenState.updateValue
        * (fastRegenState.curTimeInMillis / 1000 / fastRegenState.updateDuration)) = 100) := by
  decide

/-- Witness of C2: the regeneration example, where 3 ticks complete, the current value
becomes 15 and the countdown 5. -/
theorem Update_regeneration_witness :
    regenState.buffInfos = [] ∧ regenState.lastUpdateTimeInMillis < 0 ∧
    regenState.remainingSeconds = -1 ∧ 1 ≤ regenState.updateDuration ∧
    1 ≤ regenState.updateValue ∧ regenState.minValue ≤ regenState.curValue ∧
    regenState.curValue < regenState.maxValue ∧ 0 < regenState.curTimeInMillis ∧
    regenState.curTimeInMillis / 1000 < 2147483648 ∧
    regenState.updateDuration < 2147483648 ∧ -2147483648 ≤ regenState.minValue ∧
    regenState.updateValue * (regenState.curTimeInMillis / 1000 / regenState.updateDuration)
      < 2147483648 ∧
    regenState.curValue
      + regenState.updateValue * (regenState.curTimeInMillis / 1000 / regenState.updateDuration)
      < 2147483648 ∧
    ((Update 0 regenState).2.curValue
        = min regenState.maxValue (regenState.curValue + regenState.updateValue
            * (regenState.curTimeInMillis / 1000 / regenState.updateDuration)) ∧
      (min regenState.maxValue (regenState.curValue + regenState.updateValue
            * (regenState.curTimeInMillis / 1000 / regenState.updateDuration))
          < regenState.maxValue →
        (Update 0 regenState).2.remainingSeconds
          = regenState.updateDuration
            - regenState.curTimeInMillis / 1000 % regenState.updateDuration ∧
        (Update 0 regenState).2.lastUpdateTimeInMillis
          = regenState.curTimeInMillis / 1000 * 1000)) ∧
    (Update 0 regenState).2.curValue = 15 ∧ (Update 0 regenState).2.remainingSeconds = 5 :=
  ⟨rfl, by decide, rfl, by decide, by decide, by decide, by decide, by decide, by decide,
    by decide, by decide, by decide, by decide,
    Update_regeneration 0 regenState rfl (by decide) rfl (by decide) (by decide) (by decide)
      (by decide) (by decide) (by decide) (by decide) (by decide) (by decide) (by decide),
    by decide, by decide⟩
/-! ## C3: idempotence of the state -/

/-- C3 (amended). Idempotence of the state: for every state with `updateDuration < 2^31` and
`remainingSeconds < 2^31`, every frozen now `> 0` whose effective now (now truncated down to a
whole second) is at least `lastUpdateTimeInMillis`, and every buff list with expiry times
`≥ 0` in which each buff on the max-value or duration channel expires before the effective now
(buffs on the tick-value channel, on the current-value channel or on no channel of the state
are not restricted), if the `int` arithmetic of the call does not overflow, then a second
`Update` with the same frozen now and the same buff list leaves every field as the first call
left it.  The conditions on the arithmetic are: at every breakpoint
`now / 1000 + D + max 0 (-remainingSeconds) < 2^31` for the effective interval `D` (the `int`
sum of the elapsed seconds), and, when the state has downward correction,
`max minValue maxValue + V < 2^31` for the effective tick value `V` (the tick a repeated call
adds at the cap). -/
theorem Update_idempotent (clock : Int) (p : Parameter)
    (hb : ∀ b ∈ p.buffInfos,
      (b.effectId = p.effectIdForMaxValue ∨ b.effectId = p.effectIdForDuration) →
      b.endTimeInMillis < p.curTimeInMillis / 1000 * 1000)
    (hexp : ∀ b ∈ p.buffInfos, 0 ≤ b.endTimeInMillis)
    (hnow : 0 < p.curTimeInMillis)
    (hL : p.lastUpdateTimeInMillis ≤ p.curTimeInMillis / 1000 * 1000)
    (hDi : p.updateDuration < 2147483648) (hri : p.remainingSeconds < 2147483648)
    (H : ∀ e ∈ _GetRecalculatedEffectValues (_CorrectParameter p)
        (p.curTimeInMillis / 1000 * 1000),
      p.curTimeInMillis / 1000
        + _GetEffectAddedValue (_CorrectParameter p).updateDuration e.2 p.effectIdForDuration
        + max 0 (-p.remainingSeconds) < 2147483648)
    (HV : p.downwardCorrection = true →
      ∀ e ∈ _GetRecalculatedEffectValues (_CorrectParameter p)
        (p.curTimeInMillis / 1000 * 1000),
      max p.minValue p.maxValue
        + _GetEffectAddedValue (_CorrectParameter p).updateValue e.2 p.effectIdForUpdateValue
        < 2147483648) :
    (Update clock (Update clock p).2).2 = (Update clock p).2 := by
  obtain ⟨hD, hV, -⟩ := correct_corrected p
  obtain ⟨fb, -, fmn, fmx, fl, f1, f2, f3, f4, fdc⟩ := correct_frame p
  have fct := correct_curTimeInMillis p
  have hqD := correct_updateDuration p
  have hqr : (_CorrectParameter p).remainingSeconds < 2147483648 ∧
      max 0 (-(_CorrectParameter p).remainingSeconds) ≤ max 0 (-p.remainingSeconds) := by
    rcases correct_remaining p with ⟨h1, h2⟩ | h
    · rw [h2]; omega
    · rw [h]; omega
  have hU : Update clock p = updateFinish (p.curTimeInMillis / 1000 * 1000)
      ((_GetRecalculatedEffectValues (_CorrectParameter p)
          (p.curTimeInMillis / 1000 * 1000)).foldl
        (updateStep (p.curTimeInMillis / 1000 * 1000)) (updateInit (_CorrectParameter p))) := by
    rw [Update_eq, getCurTime_frozen clock p hnow]
  obtain ⟨n, hndef⟩ : ∃ n, n = p.curTimeInMillis / 1000 := ⟨_, rfl⟩
  rw [← hndef] at hb hL H HV hU
  have hn0 : 0 ≤ n := by omega
  rw [← fb, ← f2, ← f3] at hb
  rw [← fb] at hexp
  rw [← fl] at hL
  rw [← f3] at H
  rw [← fdc, ← fmn, ← fmx, ← f4] at HV
  obtain ⟨X, hX⟩ : ∃ X, X = max 0 (-p.remainingSeconds) := ⟨_, rfl⟩
  rw [← hX] at H hqr
  clear hX hqD hri hDi fb fmn fmx fl f1 f2 f3 f4 fdc
  generalize _CorrectParameter p = q at *
  obtain ⟨c0, y, c1, r1, hc1, hfin, hcapr, huncapr, hDq, hn1⟩ :=
    Update_first_call q n hn0 hD hb hexp hL hqr.1 (fun e he => by have := H e he; omega)
  have hU2 : (Update clock p).2
      = { q with curValue := c1, remainingSeconds := r1,
                 lastUpdateTimeInMillis := n * 1000 } := by
    rw [hU]; exact hfin
  rw [hU2]
  apply Update_stable clock _ n hn0 hn1
  · show 0 < q.curTimeInMillis
    rw [fct]; exact hnow
  · show q.curTimeInMillis / 1000 = n
    rw [fct]; exact hndef.symm
  · rfl
  · exact hD
  · exact hDq
  · exact hV
  · show q.minValue ≤ c1
    rw [hc1]; exact le_max_right _ _
  · exact hcapr
  · exact huncapr
  · exact hb
  · intro e he k hk
    have hsub := recalculated_subset q
      { q with curValue := c1, remainingSeconds := r1, lastUpdateTimeInMillis := n * 1000 }
      (n * 1000) rfl rfl rfl rfl rfl hL e he
    exact stab_arith q.downwardCorrection q.maxValue q.minValue c0 y
      (_GetEffectAddedValue q.updateValue e.2 q.effectIdForUpdateValue) k c1 hc1 hk
      (fun hdc => HV hdc e hsub) (getEffectAddedValue_pos _ _ _ hV)

/-- Counterexample of C3 as stated.  First input: an active buff of +10 on the max-value
channel is added to the stored max by every call (100, 110, 120).  Second input: an active buff
of -5 on the duration channel is added to the stored interval by every call (10, 5, then the
floor 1).  Third input: a last update inside the current second; the first call processes no
breakpoint, the second one completes a tick.  Fourth input: at `2^31` seconds the first call
leaves the countdown 18, above the interval, and the second call resets it to 10.  Fifth input:
`remainingSeconds = -400000000` at 1793400000000 ms; the `int` sum of the elapsed seconds wraps,
the first call leaves the countdown 16 and the second call 10.  Sixth input: a state at the cap
`2^31 - 1` with downward correction and an interval of 1 second; the first call leaves it at the
cap with countdown 0, the second call adds a tick, the `int` sum wraps and the current value
drops to the min 0.  Seventh input: a buff on the duration channel with a negative expiry time,
whose whole seconds are converted to the `int` 2147483634; the `int` sums of the first call
wrap, it leaves the countdown 17 with the interval 10 and the second call resets it to 10. -/
theorem Update_idempotent_counterexample :
    (0 < maxBuffState.curTimeInMillis ∧
      (Update 0 maxBuffState).2.maxValue = 110 ∧
      (Update 0 (Update 0 maxBuffState).2).2.maxValue = 120) ∧
    (0 < intervalBuffState.curTimeInMillis ∧
      (Update 0 intervalBuffState).2.updateDuration = 5 ∧
      (Update 0 (Update 0 intervalBuffState).2).2.updateDuration = 1) ∧
    (0 < (freezeNow subSecondState 1800).curTimeInMillis ∧
      (Update 0 (freezeNow subSecondState 1800)).2.curValue = 0 ∧
      (Update 0 (Update 0 (freezeNow subSecondState 1800)).2).2.curValue = 5) ∧
    (0 < lateState.curTimeInMillis ∧
      (Update 0 lateState).2.remainingSeconds = 18 ∧
      (Update 0 (Update 0 lateState).2).2.remainingSeconds = 10) ∧
    (0 < debtState.curTimeInMillis ∧ debtState.curTimeInMillis / 1000 < 2147483648 ∧
      (Update 0 debtState).2.remainingSeconds = 16 ∧
      (Update 0 (Update 0 debtState).2).2.remainingSeconds = 10) ∧
    (0 < intMaxState.curTimeInMillis ∧ intMaxState.buffInfos = [] ∧
      (Update 0 intMaxState).2.curValue = 2147483647 ∧
      (Update 0 intMaxState).2.remainingSeconds = 0 ∧
      (Update 0 (Update 0 intMaxState).2).2.curValue = 0) ∧
    (0 < negativeExpiryState.curTimeInMillis ∧
      negativeExpiryState.lastUpdateTimeInMillis
        ≤ negativeExpiryState.curTimeInMillis / 1000 * 1000 ∧
      (∀ b ∈ negativeExpiryState.buffInfos,
        b.endTimeInMillis < negativeExpiryState.curTimeInMillis / 1000 * 1000) ∧
      (∀ e ∈ _GetRecalculatedEffectValues (_CorrectParameter negativeExpiryState)
          (negativeExpiryState.curTimeInMillis / 1000 * 1000),
        negativeExpiryState.curTimeInMillis / 1000
          + _GetEffectAddedValue (_CorrectParameter negativeExpiryState).updateDuration e.2
            negativeExpiryState.effectIdForDuration
          + max 0 (-negativeExpiryState.remainingSeconds) < 2147483648) ∧
      (Update 0 negativeExpiryState).2.remainingSeconds = 17 ∧
      (Update 0 negativeExpiryState).2.updateDuration = 10 ∧
      (Update 0 (Update 0 negativeExpiryState).2).2.remainingSeconds = 10) := by
  decide

set_option maxRecDepth 4096 in
/-- Witness of C3: a state with downward correction and buffs on all four channels, of which
the buff on the tick-value channel is still active at now; the first call leaves the current
value 70 and the second call changes nothing. -/
theorem Update_idempotent_witness :
    (∀ b ∈ mixedBuffState.buffInfos,
      (b.effectId = mixedBuffState.effectIdForMaxValue ∨
        b.effectId = mixedBuffState.effectIdForDuration) →
      b.endTimeInMillis < mixedBuffState.curTimeInMillis / 1000 * 1000) ∧
    (∀ b ∈ mixedBuffState.buffInfos, 0 ≤ b.endTimeInMillis) ∧
    0 < mixedBuffState.curTimeInMillis ∧
    mixedBuffState.lastUpdateTimeInMillis ≤ mixedBuffState.curTimeInMillis / 1000 * 1000 ∧
    mixedBuffState.updateDuration < 2147483648 ∧
    mixedBuffState.remainingSeconds < 2147483648 ∧
    (∀ e ∈ _GetRecalculatedEffectValues (_CorrectParameter mixedBuffState)
        (mixedBuffState.curTimeInMillis / 1000 * 1000),
      mixedBuffState.curTimeInMillis / 1000
        + _GetEffectAddedValue (_CorrectParameter mixedBuffState).updateDuration e.2
          mixedBuffState.effectIdForDuration
        + max 0 (-mixedBuffState.remainingSeconds) < 2147483648) ∧
    (mixedBuffState.downwardCorrection = true →
      ∀ e ∈ _GetRecalculatedEffectValues (_CorrectParameter mixedBuffState)
        (mixedBuffState.curTimeInMillis / 1000 * 1000),
      max mixedBuffState.minValue mixedBuffState.maxValue
        + _GetEffectAddedValue (_CorrectParameter mixedBuffState).updateValue e.2
          mixedBuffState.effectIdForUpdateValue < 2147483648) ∧
    (Update 0 (Update 0 mixedBuffState).2).2 = (Update 0 mixedBuffState).2 ∧
    (Update 0 mixedBuffState).2.curValue = 70 :=
  ⟨by decide, by decide, by decide, by decide, by decide, by decide, by decide, by decide,
    Update_idempotent 0 mixedBuffState (by decide) (by decide) (by decide) (by decide)
      (by decide) (by decide) (by decide) (by decide),
    by decide⟩
/-! ## C4: the flag of a repeated call -/

/-- C4. On the regeneration example a second `Update` with the same frozen now and the same
(empty) buff list changes no field of the state and still returns true: the flag is set by
every processed breakpoint, and the breakpoint of the effective now is always processed. -/
theorem Update_second_call_returns_true :
    Update 0 (Update 0 regenState).2 = (true, (Update 0 regenState).2) := by
  decide

/-! ## C5: bounds of the current value -/

theorem ite_clamp_bounds (c cm mn y : Int) (hlo : mn ≤ c) (hhi : c ≤ cm) :
    mn ≤ (if cm ≤ c then c else max (min y cm) mn) ∧
    (if cm ≤ c then c else max (min y cm) mn) ≤ cm := by
  split_ifs <;> omega

theorem updateStep_bounds (T i1 i2 mn M : Int) (s : LoopState) (entry : Int × EffectValueList)
    (hentry : mapFind i2 entry.2 = none ∧ mapFind i1 entry.2 = none)
    (hs : s.parameter.effectIdForCurValue = i1 ∧ s.parameter.effectIdForMaxValue = i2 ∧
      s.parameter.minValue = mn ∧ s.parameter.maxValue = M ∧
      s.parameter.downwardCorrection = false ∧ mn ≤ s.parameter.curValue ∧
      s.parameter.curValue ≤ M ∧ s.curMaxValue = M) :
    (updateStep T s entry).parameter.effectIdForCurValue = i1 ∧
    (updateStep T s entry).parameter.effectIdForMaxValue = i2 ∧
    (updateStep T s entry).parameter.minValue = mn ∧
    (updateStep T s entry).parameter.maxValue = M ∧
    (updateStep T s entry).parameter.downwardCorrection = false ∧
    mn ≤ (updateStep T s entry).parameter.curValue ∧
    (updateStep T s entry).parameter.curValue ≤ M ∧
    (updateStep T s entry).curMaxValue = M := by
  rcases s with ⟨p, u, l, cd, cv, cm⟩
  rcases p with ⟨b, c, mn', mx, l', t, D, V, j1, j2, j3, j4, r, dc⟩
  dsimp only at hs
  obtain ⟨rfl, rfl, rfl, rfl, rfl, hlo, hhi, rfl⟩ := hs
  obtain ⟨h2, h1⟩ := hentry
  simp only [updateStep, _GetEffectAddedValue, h1, h2, increaseCurValue_eq, true_and]
  exact ⟨(ite_clamp_bounds _ _ _ _ hlo hhi).1, (ite_clamp_bounds _ _ _ _ hlo hhi).2, trivial⟩

theorem foldl_updateStep_bounds (T i1 i2 mn M : Int) (bps : TimeEffectValueList)
    (hbps : ∀ e ∈ bps, mapFind i2 e.2 = none ∧ mapFind i1 e.2 = none) (s : LoopState)
    (hs : s.parameter.effectIdForCurValue = i1 ∧ s.parameter.effectIdForMaxValue = i2 ∧
      s.parameter.minValue = mn ∧ s.parameter.maxValue = M ∧
      s.parameter.downwardCorrection = false ∧ mn ≤ s.parameter.curValue ∧
      s.parameter.curValue ≤ M ∧ s.curMaxValue = M) :
    (bps.foldl (updateStep T) s).parameter.minValue = mn ∧
    mn ≤ (bps.foldl (updateStep T) s).parameter.curValue ∧
    (bps.foldl (updateStep T) s).parameter.curValue ≤ M ∧
    (bps.foldl (updateStep T) s).curMaxValue = M := by
  induction bps generalizing s with
  | nil =>
    obtain ⟨-, -, h3, -, -, h6, h7, h8⟩ := hs
    exact ⟨h3, h6, h7, h8⟩
  | cons e rest ih =>
    rw [List.foldl_cons]
    exact ih (fun e' he' => hbps e' (List.mem_cons_of_mem _ he')) _
      (updateStep_bounds T i1 i2 mn M s e (hbps e (List.mem_cons_self _ _)) hs)

/-- C5 (amended). Bound invariant: for every state with `downwardCorrection = false` and
`minValue ≤ curValue ≤ maxValue` before the call, and for every buff list without a buff on the
max-value channel (any clock, frozen or not), after `Update` the stored fields satisfy
`minValue ≤ curValue ≤ maxValue`. -/
theorem Update_bounds (clock : Int) (p : Parameter)
    (hdc : p.downwardCorrection = false)
    (hmin : p.minValue ≤ p.curValue) (hmax : p.curValue ≤ p.maxValue)
    (hb : ∀ b ∈ p.buffInfos, b.effectId ≠ p.effectIdForMaxValue) :
    (Update clock p).2.minValue ≤ (Update clock p).2.curValue ∧
    (Update clock p).2.curValue ≤ (Update clock p).2.maxValue := by
  rw [Update_eq]
  obtain ⟨fb, fc, fmn, fmx, -, f1, f2, -, -, fdc⟩ := correct_frame p
  have hkeys := recalculated_keys (fun id => id ≠ p.effectIdForMaxValue) (_CorrectParameter p)
    (_GetCurTimeInMillis clock (_CorrectParameter p)) (by rw [fb]; exact hb)
  rw [f1] at hkeys
  obtain ⟨h1, h2, h3, h4⟩ := foldl_updateStep_bounds
    (_GetCurTimeInMillis clock (_CorrectParameter p)) p.effectIdForCurValue
    p.effectIdForMaxValue p.minValue p.maxValue
    (_GetRecalculatedEffectValues (_CorrectParameter p)
      (_GetCurTimeInMillis clock (_CorrectParameter p)))
    (fun e he => ⟨mapFind_none_of_keys _ _ (fun kv hkv => (hkeys e he kv hkv).1),
      mapFind_none_of_keys _ _ (fun kv hkv => (hkeys e he kv hkv).2)⟩)
    (updateInit (_CorrectParameter p))
    ⟨f1, f2, fmn, fmx, fdc.trans hdc, by show _ ≤ (_CorrectParameter p).curValue; rw [fc]; exact hmin,
      by show (_CorrectParameter p).curValue ≤ _; rw [fc]; exact hmax, fmx⟩
  generalize (_GetRecalculatedEffectValues (_CorrectParameter p)
      (_GetCurTimeInMillis clock (_CorrectParameter p))).foldl
      (updateStep (_GetCurTimeInMillis clock (_CorrectParameter p)))
      (updateInit (_CorrectParameter p)) = s at *
  unfold updateFinish
  dsimp only
  split_ifs <;> dsimp only <;> omega

/-- Counterexample of C5 as stated: an active buff of -50 on the max-value channel lowers the
stored max to 50 while the current value, 80, is left where it is because the state has no
downward correction. -/
theorem Update_bounds_counterexample :
    loweredMaxState.downwardCorrection = false ∧
    loweredMaxState.minValue ≤ loweredMaxState.curValue ∧
    loweredMaxState.curValue ≤ loweredMaxState.maxValue ∧
    0 < loweredMaxState.curTimeInMillis ∧
    (Update 0 loweredMaxState).2.curValue = 80 ∧
    (Update 0 loweredMaxState).2.maxValue = 50 := by
  decide

/-- Witness of C5: the regeneration example with a buff on the tick-value channel. -/
theorem Update_bounds_witness :
    tickValueBuffState.downwardCorrection = false ∧
    tickValueBuffState.minValue ≤ tickValueBuffState.curValue ∧
    tickValueBuffState.curValue ≤ tickValueBuffState.maxValue ∧
    (∀ b ∈ tickValueBuffState.buffInfos,
      b.effectId ≠ tickValueBuffState.effectIdForMaxValue) ∧
    ((Update 0 tickValueBuffState).2.minValue ≤ (Update 0 tickValueBuffState).2.curValue ∧
      (Update 0 tickValueBuffState).2.curValue ≤ (Update 0 tickValueBuffState).2.maxValue) :=
  ⟨rfl, by decide, by decide, by decide,
    Update_bounds 0 tickValueBuffState rfl (by decide) (by decide) (by decide)⟩

/-! ## C6: buffs on the current-value channel -/

/-- C6. On the suppression example the buff of 20 on the current-value channel is never
subtracted: `Update` leaves the current value at 65, the value it leaves without the buff,
because no breakpoint keeps an entry of the current-value channel. -/
theorem Update_suppression_not_undone :
    (Update 0 suppressionState).2.curValue = 65 ∧
    (Update 0 { suppressionState with buffInfos := [] }).2.curValue = 65 ∧
    _GetRecalculatedEffectValues (_CorrectParameter suppressionState) 35000
      = [(20000, []), (35000, [])] := by
  decide

/-! ## C7: a buff on the duration channel -/

/-- C7. On the interval example the never-updated state is credited the 35 seconds since the
epoch at both breakpoints (the effective now and the expiry of the buff), so 14 ticks of
interval 5 complete and `Update` leaves the current value at 70; the same state with
`lastUpdateTimeInMillis = 0` is left at 35. -/
theorem Update_interval_buff_never_updated :
    (Update 0 intervalBuffState).2.curValue = 70 ∧
    (Update 0 intervalBuffState).2.updateDuration = 5 ∧
    (Update 0 { intervalBuffState with lastUpdateTimeInMillis := 0 }).2.curValue = 35 := by
  decide

/-! ## C8: cap snap -/

/-- C8. Cap snap: whenever the current value stored by `Update` is at least the stored max,
the call has set `lastUpdateTimeInMillis` to the effective now (the frozen now truncated down
to a whole second), `remainingSeconds` to the stored `updateDuration` minus 1, and it has
returned true. -/
theorem Update_cap_snap (clock : Int) (p : Parameter) (hnow : 0 < p.curTimeInMillis)
    (hcap : (Update clock p).2.maxValue ≤ (Update clock p).2.curValue) :
    (Update clock p).2.lastUpdateTimeInMillis = p.curTimeInMillis / 1000 * 1000 ∧
    (Update clock p).2.remainingSeconds = (Update clock p).2.updateDuration - 1 ∧
    (Update clock p).1 = true := by
  rw [Update_eq] at hcap ⊢
  have h := updateFinish_cap _ _ hcap
  rw [getCurTime_frozen clock p hnow] at h ⊢
  exact h

/-- Witness of C8: from 95 the three ticks of the regeneration example reach the cap 100. -/
theorem Update_cap_snap_witness :
    0 < nearCapState.curTimeInMillis ∧
    (Update 0 nearCapState).2.maxValue ≤ (Update 0 nearCapState).2.curValue ∧
    ((Update 0 nearCapState).2.lastUpdateTimeInMillis
        = nearCapState.curTimeInMillis / 1000 * 1000 ∧
      (Update 0 nearCapState).2.remainingSeconds
        = (Update 0 nearCapState).2.updateDuration - 1 ∧
      (Update 0 nearCapState).1 = true) :=
  ⟨by decide, by decide, Update_cap_snap 0 nearCapState (by decide) (by decide)⟩

/-! ## C9: the call that follows a cap snap -/

theorem recalculated_single_max_buff (p : Parameter) (b : BuffInfo) (T : Int)
    (hbuffs : p.buffInfos = [b]) (hbid : b.effectId = p.effectIdForMaxValue)
    (hexp : T < b.endTimeInMillis)
    (hv0 : -2147483648 ≤ b.effectValue) (hv1 : b.effectValue < 2147483648)
    (hd1 : p.effectIdForMaxValue ≠ p.effectIdForCurValue)
    (hd2 : p.effectIdForMaxValue ≠ p.effectIdForDuration)
    (hd3 : p.effectIdForMaxValue ≠ p.effectIdForUpdateValue)
    (hL : p.lastUpdateTimeInMillis ≤ T) :
    _GetRecalculatedEffectValues p T
      = [(T, [(p.effectIdForMaxValue, b.effectValue)]),
         (b.endTimeInMillis, [(p.effectIdForMaxValue, b.effectValue)])] := by
  have hne : ¬ (b.endTimeInMillis < T) := by omega
  have hne2 : ¬ (b.endTimeInMillis = T) := by omega
  have hL1 : ¬ (T < p.lastUpdateTimeInMillis) := by omega
  have hL2 : ¬ (b.endTimeInMillis < p.lastUpdateTimeInMillis) := by omega
  have hw : toInt32 b.effectValue = b.effectValue := toInt32_eq_self hv0 hv1
  simp [_GetRecalculatedEffectValues, _GatherEffectValues, hbuffs, gatherBuff,
    _GatherEffectValue, hbid, hd1, hd2, hd3, mapUpsert, mapInsert, hexp,
    _AccumulateEffectValues, accumulateFrom, accumulateEntries, hL1, hw]

/-- C9 (amended). The call that follows a cap snap: for every state left by a cap snap at time
`t ≥ 0` (`curValue = maxValue ≥ minValue`, `remainingSeconds = updateDuration - 1`,
`lastUpdateTimeInMillis = t`, `updateDuration = D` with `1 ≤ D < 2^31`, `updateValue = V ≥ 1`,
`downwardCorrection = false`), an `Update` with frozen now `t + 1000` and one buff of positive
magnitude `m` on the max-value channel (a channel id distinct from the other three) that expires
after now counts 2 elapsed seconds, provided the `int` sums and products of the call do not
overflow (`m < 2^31`, `-2^31 ≤ maxValue`, `maxValue + m < 2^31`, `V * 2 < 2^31` and
`maxValue + V * 2 < 2^31`): when `D ≤ 2` a tick completes and the resulting current value is
strictly greater than the old max; when `D ≥ 3` no tick completes and the current value stays
equal to the old max. -/
theorem Update_after_cap_snap (clock : Int) (p : Parameter) (b : BuffInfo)
    (hbuffs : p.buffInfos = [b]) (hbid : b.effectId = p.effectIdForMaxValue)
    (hpos : 0 < b.effectValue) (hexp : p.curTimeInMillis < b.endTimeInMillis)
    (hd1 : p.effectIdForMaxValue ≠ p.effectIdForCurValue)
    (hd2 : p.effectIdForMaxValue ≠ p.effectIdForDuration)
    (hd3 : p.effectIdForMaxValue ≠ p.effectIdForUpdateValue)
    (hcur : p.curValue = p.maxValue) (hmin : p.minValue ≤ p.maxValue)
    (hr : p.remainingSeconds = p.updateDuration - 1)
    (hD : 1 ≤ p.updateDuration) (hV : 1 ≤ p.updateValue)
    (hdc : p.downwardCorrection = false)
    (hL0 : 0 ≤ p.lastUpdateTimeInMillis)
    (hLmax : p.lastUpdateTimeInMillis + 1000 < 9223372036854775808)
    (hnow : p.curTimeInMillis = p.lastUpdateTimeInMillis + 1000)
    (hDi : p.updateDuration < 2147483648) (hmi : b.effectValue < 2147483648)
    (hMlo : -2147483648 ≤ p.maxValue) (hMm : p.maxValue + b.effectValue < 2147483648)
    (hV2 : p.updateValue * 2 < 2147483648)
    (hMV : p.maxValue + p.updateValue * 2 < 2147483648) :
    (p.updateDuration ≤ 2 → p.maxValue < (Update clock p).2.curValue) ∧
    (3 ≤ p.updateDuration → (Update clock p).2.curValue = p.maxValue) := by
  have hnowpos : 0 < p.curTimeInMillis := by omega
  have hT := getCurTime_frozen clock p hnowpos
  have hcp : _CorrectParameter p = p := correct_of_corrected p hD hV (by omega)
  have hTL : p.lastUpdateTimeInMillis ≤ p.curTimeInMillis / 1000 * 1000 := by omega
  have hTexp : p.curTimeInMillis / 1000 * 1000 < b.endTimeInMillis := by omega
  rw [Update_eq, hT, hcp,
    recalculated_single_max_buff p b _ hbuffs hbid hTexp (by omega) hmi hd1 hd2 hd3 hTL]
  have hu : toUInt64 (p.curTimeInMillis / 1000 * 1000) = p.curTimeInMillis / 1000 * 1000 :=
    toUInt64_eq_self (by omega) (by omega)
  have hmin1 : min (p.curTimeInMillis / 1000 * 1000) b.endTimeInMillis
      = p.curTimeInMillis / 1000 * 1000 := by omega
  have hdiv : p.curTimeInMillis / 1000 * 1000 / 1000 = p.curTimeInMillis / 1000 := by omega
  have hl : toUInt64 (Int.tdiv p.lastUpdateTimeInMillis 1000)
      = p.lastUpdateTimeInMillis / 1000 := by
    rw [Int.tdiv_eq_ediv hL0 (by omega)]
    exact toUInt64_eq_self (by omega) (by omega)
  have hdur1 : toInt32 (toUInt64 (p.curTimeInMillis / 1000 - p.lastUpdateTimeInMillis / 1000))
      = 1 := by
    have : p.curTimeInMillis / 1000 - p.lastUpdateTimeInMillis / 1000 = 1 := by omega
    rw [this]; rfl
  have hdur2 : toInt32 (toUInt64 (p.curTimeInMillis / 1000 - p.curTimeInMillis / 1000))
      = 0 := by
    rw [sub_self]; rfl
  have hLn : ¬ (p.lastUpdateTimeInMillis < 0) := by omega
  have hf2 : mapFind p.effectIdForDuration [(p.effectIdForMaxValue, b.effectValue)] = none := by
    simp [mapFind, hd2]
  have hf3 : mapFind p.effectIdForUpdateValue [(p.effectIdForMaxValue, b.effectValue)]
      = none := by
    simp [mapFind, hd3]
  have hf1 : mapFind p.effectIdForCurValue [(p.effectIdForMaxValue, b.effectValue)] = none := by
    simp [mapFind, hd1]
  have hf0 : mapFind p.effectIdForMaxValue [(p.effectIdForMaxValue, b.effectValue)]
      = some b.effectValue := by
    simp [mapFind]
  have h10 : ¬ ((1 : Int) < 0) := by decide
  have h11 : toInt32 ((1 : Int) + 1) = 2 := rfl
  have hw1 : toInt32 (1 : Int) = 1 := rfl
  have hw0 : toInt32 (0 : Int) = 0 := rfl
  have hw2 : toInt32 (2 : Int) = 2 := rfl
  have hMw : toInt32 (p.maxValue + b.effectValue) = p.maxValue + b.effectValue :=
    toInt32_eq_self (by omega) hMm
  have hcm : ¬ (max 1 (p.maxValue + b.effectValue) ≤ p.maxValue) := by omega
  simp only [List.foldl_cons, List.foldl_nil, updateStep, updateInit, updateFinish,
    _GetEffectAddedValue, increaseCurValue_eq, min_self, hu, hmin1, hdiv, hl, hdur1, hdur2,
    hLn, if_false, hf0, hf1, hf2, hf3, hr, hdc, hcur, true_and, sub_sub_cancel, h10, h11,
    hw1, hMw, hcm, zero_add]
  have h21 : Int.tdiv 2 1 = 2 := rfl
  have h22 : Int.tdiv 2 2 = 1 := rfl
  have h01 : Int.tdiv 0 1 = 0 := rfl
  have h02 : Int.tdiv 0 2 = 0 := rfl
  rcases (by omega : p.updateDuration = 1 ∨ p.updateDuration = 2 ∨ 3 ≤ p.updateDuration)
    with h | h | h
  · have hVw : toInt32 (p.updateValue * 2) = p.updateValue * 2 :=
      toInt32_eq_self (by omega) hV2
    have hMVw : toInt32 (p.maxValue + p.updateValue * 2) = p.maxValue + p.updateValue * 2 :=
      toInt32_eq_self (by omega) hMV
    simp only [h, h21, h01, hw0, hw1, hw2, hVw, hMVw, Int.reduceMul, Int.reduceSub,
      Int.reduceEq, Int.reduceLT, if_false, mul_zero, add_zero]
    refine ⟨fun _ => ?_, fun h3 => absurd h3 (by decide)⟩
    unfold toInt32
    split_ifs <;> dsimp only <;> omega
  · have hVw : toInt32 p.updateValue = p.updateValue :=
      toInt32_eq_self (by omega) (by omega)
    have hMVw : toInt32 (p.maxValue + p.updateValue) = p.maxValue + p.updateValue :=
      toInt32_eq_self (by omega) (by omega)
    simp only [h, h22, h02, hw0, hw1, hw2, hVw, hMVw, Int.reduceMul, Int.reduceSub,
      Int.reduceEq, Int.reduceLT, if_false, if_true, mul_zero, add_zero, mul_one]
    refine ⟨fun _ => ?_, fun h3 => absurd h3 (by decide)⟩
    unfold toInt32
    split_ifs <;> dsimp only <;> omega
  · have hc : Int.tdiv 2 p.updateDuration = 0 := by
      rw [Int.tdiv_eq_ediv (by omega) (by omega)]
      exact Int.ediv_eq_zero_of_lt (by omega) (by omega)
    have hne : ¬ (p.updateDuration - 2 = 0) := by omega
    have h20 : ¬ ((2 : Int) < 0) := by decide
    have hD2w : toInt32 (p.updateDuration - 2) = p.updateDuration - 2 :=
      toInt32_eq_self (by omega) (by omega)
    have hMw0 : toInt32 p.maxValue = p.maxValue := toInt32_eq_self hMlo (by omega)
    simp only [hc, hw0, hw2, hD2w, hMw0, mul_zero, add_zero, sub_zero, hne, if_false,
      sub_sub_cancel, h20]
    refine ⟨fun h2 => absurd h2 (by omega), fun _ => ?_⟩
    unfold toInt32
    split_ifs <;> dsimp only <;> omega

/-- Counterexample of C9 as stated.  First input: interval 10, tick value 5, max 100, cap snap
at 35000 ms, then a call at 36000 ms with a buff of +10 on the max-value channel.  The call
counts 2 elapsed seconds against an interval of 10, completes no tick and leaves the current
value 100, the old max, with a stored max of 110 and a countdown of 8.  Second input: the same
call with interval 1 and tick value `2^30`; two ticks complete, the `int` product
`curUpdateValue * updateCount` of line 103 wraps to `-2^31` and the call leaves the current
value 0, below the old max. -/
theorem Update_after_cap_snap_counterexample :
    (reopenedState.curValue = reopenedState.maxValue ∧
      reopenedState.remainingSeconds = reopenedState.updateDuration - 1 ∧
      1 ≤ reopenedState.updateDuration ∧ 1 ≤ reopenedState.updateValue ∧
      reopenedState.downwardCorrection = false ∧
      reopenedState.curTimeInMillis = reopenedState.lastUpdateTimeInMillis + 1000 ∧
      reopenedState.buffInfos = [⟨reopenedState.effectIdForMaxValue, 10, 100000⟩] ∧
      (Update 0 reopenedState).2.curValue = 100 ∧
      (Update 0 reopenedState).2.maxValue = 110 ∧
      (Update 0 reopenedState).2.remainingSeconds = 8) ∧
    (reopenedHugeTickState.curValue = reopenedHugeTickState.maxValue ∧
      reopenedHugeTickState.remainingSeconds = reopenedHugeTickState.updateDuration - 1 ∧
      reopenedHugeTickState.updateDuration = 1 ∧
      reopenedHugeTickState.updateValue = 1073741824 ∧
      reopenedHugeTickState.downwardCorrection = false ∧
      reopenedHugeTickState.curTimeInMillis
        = reopenedHugeTickState.lastUpdateTimeInMillis + 1000 ∧
      reopenedHugeTickState.buffInfos
        = [⟨reopenedHugeTickState.effectIdForMaxValue, 10, 100000⟩] ∧
      reopenedHugeTickState.maxValue = 100 ∧
      (Update 0 reopenedHugeTickState).2.curValue = 0 ∧
      (Update 0 reopenedHugeTickState).2.maxValue = 110) := by
  decide

/-- Witness of C9: the same call with an interval of 2 seconds completes a tick and leaves the
current value above the old max. -/
theorem Update_after_cap_snap_witness :
    reopenedFastState.buffInfos = [⟨2, 10, 100000⟩] ∧
    (⟨2, 10, 100000⟩ : BuffInfo).effectId = reopenedFastState.effectIdForMaxValue ∧
    0 < (⟨2, 10, 100000⟩ : BuffInfo).effectValue ∧
    reopenedFastState.curTimeInMillis < (⟨2, 10, 100000⟩ : BuffInfo).endTimeInMillis ∧
    reopenedFastState.effectIdForMaxValue ≠ reopenedFastState.effectIdForCurValue ∧
    reopenedFastState.effectIdForMaxValue ≠ reopenedFastState.effectIdForDuration ∧
    reopenedFastState.effectIdForMaxValue ≠ reopenedFastState.effectIdForUpdateValue ∧
    reopenedFastState.curValue = reopenedFastState.maxValue ∧
    reopenedFastState.minValue ≤ reopenedFastState.maxValue ∧
    reopenedFastState.remainingSeconds = reopenedFastState.updateDuration - 1 ∧
    1 ≤ reopenedFastState.updateDuration ∧ 1 ≤ reopenedFastState.updateValue ∧
    reopenedFastState.downwardCorrection = false ∧
    0 ≤ reopenedFastState.lastUpdateTimeInMillis ∧
    reopenedFastState.lastUpdateTimeInMillis + 1000 < 9223372036854775808 ∧
    reopenedFastState.curTimeInMillis = reopenedFastState.lastUpdateTimeInMillis + 1000 ∧
    reopenedFastState.updateDuration < 2147483648 ∧
    (⟨2, 10, 100000⟩ : BuffInfo).effectValue < 2147483648 ∧
    -2147483648 ≤ reopenedFastState.maxValue ∧
    reopenedFastState.maxValue + (⟨2, 10, 100000⟩ : BuffInfo).effectValue < 2147483648 ∧
    reopenedFastState.updateValue * 2 < 2147483648 ∧
    reopenedFastState.maxValue + reopenedFastState.updateValue * 2 < 2147483648 ∧
    ((reopenedFastState.updateDuration ≤ 2 →
        reopenedFastState.maxValue < (Update 0 reopenedFastState).2.curValue) ∧
      (3 ≤ reopenedFastState.updateDuration →
        (Update 0 reopenedFastState).2.curValue = reopenedFastState.maxValue)) ∧
    (Update 0 reopenedFastState).2.curValue = 105 :=
  ⟨rfl, rfl, by decide, by decide, by decide, by decide, by decide, rfl, by decide, rfl,
    by decide, by decide, rfl, by decide, by decide, rfl, by decide, by decide, by decide,
    by decide, by decide, by decide,
    Update_after_cap_snap 0 reopenedFastState ⟨2, 10, 100000⟩ rfl rfl (by decide) (by decide)
      (by decide) (by decide) (by decide) rfl (by decide) rfl (by decide) (by decide) rfl
      (by decide) (by decide) rfl (by decide) (by decide) (by decide) (by decide) (by decide)
      (by decide),
    by decide⟩
/-! ## C10: the never-updated sentinel -/

/-- C10. With a buff that expires inside the window (two breakpoints), `Update` on the state
with `lastUpdateTimeInMillis = -1` and on the same state with `lastUpdateTimeInMillis = 0`
leave different current values, 35 and 25. -/
theorem Update_sentinel_differs_from_epoch :
    (∀ b ∈ tickValueBuffState.buffInfos, 0 ≤ b.endTimeInMillis) ∧
    0 < tickValueBuffState.curTimeInMillis ∧
    tickValueBuffState.lastUpdateTimeInMillis = -1 ∧
    (Update 0 tickValueBuffState).2.curValue = 35 ∧
    (Update 0 { tickValueBuffState with lastUpdateTimeInMillis := 0 }).2.curValue = 25 := by
  decide

/-! ## C11: buffs that expired before the last update -/

/-- C11. An already-expired buff contributes nothing: for every state, every clock and every
buff `b` with `b.endTimeInMillis < lastUpdateTimeInMillis`, `Update` on the state with `b`
added anywhere in its buff list returns the same flag and leaves the same current value, max,
interval, tick value, countdown and last update time as `Update` on the state without `b`. -/
theorem Update_expired_buff (clock : Int) (p : Parameter) (l1 l2 : List BuffInfo)
    (b : BuffInfo) (hexp : b.endTimeInMillis < p.lastUpdateTimeInMillis) :
    (Update clock (setBuffs p (l1 ++ b :: l2))).1 = (Update clock (setBuffs p (l1 ++ l2))).1 ∧
    (Update clock (setBuffs p (l1 ++ b :: l2))).2.curValue
      = (Update clock (setBuffs p (l1 ++ l2))).2.curValue ∧
    (Update clock (setBuffs p (l1 ++ b :: l2))).2.maxValue
      = (Update clock (setBuffs p (l1 ++ l2))).2.maxValue ∧
    (Update clock (setBuffs p (l1 ++ b :: l2))).2.updateDuration
      = (Update clock (setBuffs p (l1 ++ l2))).2.updateDuration ∧
    (Update clock (setBuffs p (l1 ++ b :: l2))).2.updateValue
      = (Update clock (setBuffs p (l1 ++ l2))).2.updateValue ∧
    (Update clock (setBuffs p (l1 ++ b :: l2))).2.remainingSeconds
      = (Update clock (setBuffs p (l1 ++ l2))).2.remainingSeconds ∧
    (Update clock (setBuffs p (l1 ++ b :: l2))).2.lastUpdateTimeInMillis
      = (Update clock (setBuffs p (l1 ++ l2))).2.lastUpdateTimeInMillis := by
  have hL : (_CorrectParameter p).lastUpdateTimeInMillis = p.lastUpdateTimeInMillis :=
    (correct_frame p).2.2.2.2.1
  have h := Update_setBuffs clock (setBuffs p (l1 ++ l2)) (l1 ++ b :: l2) (fun T => by
    rw [correct_setBuffs]
    exact recalculated_expired (_CorrectParameter p) l1 l2 b T (by rw [hL]; exact hexp))
  have h' : Update clock (setBuffs p (l1 ++ b :: l2))
      = ((Update clock (setBuffs p (l1 ++ l2))).1,
          setBuffs (Update clock (setBuffs p (l1 ++ l2))).2 (l1 ++ b :: l2)) := h
  rw [h']
  exact ⟨rfl, rfl, rfl, rfl, rfl, rfl, rfl⟩

/-- Witness of C11: a state last updated at 30000 ms with a buff on the tick-value channel
that is still active; adding a buff of -5 on the duration channel that expired at 20000 ms
changes nothing (the interval stays 10). -/
theorem Update_expired_buff_witness :
    (⟨3, -5, 20000⟩ : BuffInfo).endTimeInMillis < recentState.lastUpdateTimeInMillis ∧
    ((Update 0 (setBuffs recentState ([⟨4, 5, 50000⟩] ++ ⟨3, -5, 20000⟩ :: []))).1
        = (Update 0 (setBuffs recentState ([⟨4, 5, 50000⟩] ++ []))).1 ∧
      (Update 0 (setBuffs recentState ([⟨4, 5, 50000⟩] ++ ⟨3, -5, 20000⟩ :: []))).2.curValue
        = (Update 0 (setBuffs recentState ([⟨4, 5, 50000⟩] ++ []))).2.curValue ∧
      (Update 0 (setBuffs recentState ([⟨4, 5, 50000⟩] ++ ⟨3, -5, 20000⟩ :: []))).2.maxValue
        = (Update 0 (setBuffs recentState ([⟨4, 5, 50000⟩] ++ []))).2.maxValue ∧
      (Update 0 (setBuffs recentState
          ([⟨4, 5, 50000⟩] ++ ⟨3, -5, 20000⟩ :: []))).2.updateDuration
        = (Update 0 (setBuffs recentState ([⟨4, 5, 50000⟩] ++ []))).2.updateDuration ∧
      (Update 0 (setBuffs recentState ([⟨4, 5, 50000⟩] ++ ⟨3, -5, 20000⟩ :: []))).2.updateValue
        = (Update 0 (setBuffs recentState ([⟨4, 5, 50000⟩] ++ []))).2.updateValue ∧
      (Update 0 (setBuffs recentState
          ([⟨4, 5, 50000⟩] ++ ⟨3, -5, 20000⟩ :: []))).2.remainingSeconds
        = (Update 0 (setBuffs recentState ([⟨4, 5, 50000⟩] ++ []))).2.remainingSeconds ∧
      (Update 0 (setBuffs recentState
          ([⟨4, 5, 50000⟩] ++ ⟨3, -5, 20000⟩ :: []))).2.lastUpdateTimeInMillis
        = (Update 0 (setBuffs recentState
            ([⟨4, 5, 50000⟩] ++ []))).2.lastUpdateTimeInMillis) ∧
    (Update 0 (setBuffs recentState [⟨4, 5, 50000⟩, ⟨3, -5, 20000⟩])).2.updateDuration = 10 ∧
    (Update 0 (setBuffs recentState [⟨4, 5, 50000⟩, ⟨3, -5, 20000⟩])).2.curValue = 0 :=
  ⟨by decide, Update_expired_buff 0 recentState [⟨4, 5, 50000⟩] [] ⟨3, -5, 20000⟩ (by decide),
    by decide, by decide⟩

/-! ## C12: the floor of `_GetEffectAddedValue` -/

theorem mapFind_of_mem {β : Type} (k : Int) (v : β) (m : List (Int × β))
    (hm : m.Pairwise (fun a b => a.1 < b.1)) (hmem : (k, v) ∈ m) : mapFind k m = some v := by
  induction m with
  | nil => cases hmem
  | cons kv rest ih =>
    rcases kv with ⟨k', v'⟩
    rw [List.pairwise_cons] at hm
    obtain ⟨hhead, hrest⟩ := hm
    rcases List.mem_cons.mp hmem with h | h
    · injection h with h1 h2
      subst h1; subst h2
      simp only [mapFind, if_true]
    · have hlt : k' < k := hhead (k, v) h
      have hne : ¬ (k' = k) := by omega
      simp only [mapFind, hne, if_false]
      exact ih hrest h

/-- C12 (amended). Floor of 1 when a channel delta is applied: for every base value, every delta
map (an ascending map) and every channel id, `_GetEffectAddedValue` returns the base value
unchanged when the map has no entry for the channel; when the map holds the delta `v` for the
channel the result is at least 1 (also when the `int` sum of line 196 overflows), and when the
sum `base + v` fits an `int` (`-2^31 ≤ base + v < 2^31`) the result is `max 1 (base + v)`, which
is exactly 1 whenever `base + v < 1`. -/
theorem getEffectAddedValue_floor (originalValue : Int) (effectValues : EffectValueList)
    (effectId : Int) (hm : effectValues.Pairwise (fun a b => a.1 < b.1)) :
    ((∀ kv ∈ effectValues, kv.1 ≠ effectId) →
      _GetEffectAddedValue originalValue effectValues effectId = originalValue) ∧
    (∀ v, (effectId, v) ∈ effectValues →
      1 ≤ _GetEffectAddedValue originalValue effectValues effectId ∧
      (-2147483648 ≤ originalValue + v → originalValue + v < 2147483648 →
        _GetEffectAddedValue originalValue effectValues effectId = max 1 (originalValue + v) ∧
        (originalValue + v < 1 →
          _GetEffectAddedValue originalValue effectValues effectId = 1))) := by
  constructor
  · intro h
    unfold _GetEffectAddedValue
    rw [mapFind_none_of_keys effectId effectValues h]
  · intro v hv
    have hfind := mapFind_of_mem effectId v effectValues hm hv
    have heq : _GetEffectAddedValue originalValue effectValues effectId
        = max 1 (toInt32 (originalValue + v)) := by
      unfold _GetEffectAddedValue
      rw [hfind]
    rw [heq]
    refine ⟨le_max_left _ _, fun h0 h1 => ?_⟩
    rw [toInt32_eq_self h0 h1]
    refine ⟨rfl, fun hlt => ?_⟩
    omega

/-- Counterexample of C12 as stated.  First input: base `2^31 - 1` and delta 10; the `int` sum
of line 196 wraps to a negative value and the function returns 1 where `max 1 (base + delta)` is
`2^31 + 9`.  Second input: base -1 and delta `-2^31`; the sum is below 1, the `int` sum wraps to
`2^31 - 1` and the function returns `2^31 - 1`, not 1. -/
theorem getEffectAddedValue_floor_counterexample :
    (List.Pairwise (fun a b : Int × Int => a.1 < b.1) [(3, 10)] ∧
      ((3, 10) : Int × Int) ∈ ([(3, 10)] : EffectValueList) ∧
      _GetEffectAddedValue 2147483647 [(3, 10)] 3 = 1 ∧
      max 1 ((2147483647 : Int) + 10) = 2147483657) ∧
    (List.Pairwise (fun a b : Int × Int => a.1 < b.1) [(3, -2147483648)] ∧
      ((3, -2147483648) : Int × Int) ∈ ([(3, -2147483648)] : EffectValueList) ∧
      (-1 : Int) + -2147483648 < 1 ∧
      _GetEffectAddedValue (-1) [(3, -2147483648)] 3 = 2147483647) := by
  decide

/-- Witness of C12: a delta of -20 on a base of 10 gives 1, a delta of -3 gives 7, and a
channel without an entry gives the base. -/
theorem getEffectAddedValue_floor_witness :
    List.Pairwise (fun a b : Int × Int => a.1 < b.1) [(3, -20), (4, -3)] ∧
    (((∀ kv ∈ ([(3, -20), (4, -3)] : EffectValueList), kv.1 ≠ 3) →
        _GetEffectAddedValue 10 [(3, -20), (4, -3)] 3 = 10) ∧
      (∀ v, (3, v) ∈ ([(3, -20), (4, -3)] : EffectValueList) →
        1 ≤ _GetEffectAddedValue 10 [(3, -20), (4, -3)] 3 ∧
        (-2147483648 ≤ 10 + v → 10 + v < 2147483648 →
          _GetEffectAddedValue 10 [(3, -20), (4, -3)] 3 = max 1 (10 + v) ∧
          (10 + v < 1 → _GetEffectAddedValue 10 [(3, -20), (4, -3)] 3 = 1)))) ∧
    _GetEffectAddedValue 10 [(3, -20), (4, -3)] 3 = 1 ∧
    _GetEffectAddedValue 10 [(3, -20), (4, -3)] 4 = 7 ∧
    _GetEffectAddedValue 10 [(3, -20), (4, -3)] 5 = 10 :=
  ⟨by decide, getEffectAddedValue_floor 10 [(3, -20), (4, -3)] 3 (by decide),
    by decide, by decide, by decide⟩
/-! ## C13: channels that no buff carries -/

theorem foldl_updateStep_duration_unbuffed (T : Int) (bps : TimeEffectValueList)
    (s : LoopState)
    (hbps : ∀ e ∈ bps, mapFind s.parameter.effectIdForDuration e.2 = none)
    (hs : s.curUpdateDuration = s.parameter.updateDuration) :
    (bps.foldl (updateStep T) s).curUpdateDuration = s.parameter.updateDuration := by
  induction bps generalizing s with
  | nil => exact hs
  | cons e rest ih =>
    rw [List.foldl_cons]
    obtain ⟨-, -, -, -, -, gD, -, -, -, g3, -, -⟩ := updateStep_frame T s e
    have h1 : (updateStep T s e).curUpdateDuration = s.parameter.updateDuration := by
      rw [updateStep_curUpdateDuration]
      exact getEffectAddedValue_none _ _ _ (hbps e (List.mem_cons_self _ _))
    rw [← gD]
    apply ih
    · intro e' he'
      rw [g3]
      exact hbps e' (List.mem_cons_of_mem _ he')
    · rw [h1, gD]

theorem foldl_updateStep_max_unbuffed (T : Int) (bps : TimeEffectValueList)
    (s : LoopState)
    (hbps : ∀ e ∈ bps, mapFind s.parameter.effectIdForMaxValue e.2 = none)
    (hs : s.curMaxValue = s.parameter.maxValue) :
    (bps.foldl (updateStep T) s).curMaxValue = s.parameter.maxValue := by
  induction bps generalizing s with
  | nil => exact hs
  | cons e rest ih =>
    rw [List.foldl_cons]
    obtain ⟨-, -, gM, -, -, -, -, -, g2, -, -, -⟩ := updateStep_frame T s e
    have h1 : (updateStep T s e).curMaxValue = s.parameter.maxValue := by
      rw [updateStep_curMaxValue]
      exact getEffectAddedValue_none _ _ _ (hbps e (List.mem_cons_self _ _))
    rw [← gM]
    apply ih
    · intro e' he'
      rw [g2]
      exact hbps e' (List.mem_cons_of_mem _ he')
    · rw [h1, gM]

/-- C13 (amended). A channel that no buff carries is not affected: for every state, buff list
and clock, if no buff has the effect id of the state's duration channel (respectively max-value
channel, tick-value channel), in particular if that channel id is -1 and no buff has the effect
id -1, then the effective interval (respectively max, tick value) computed at every breakpoint
equals the corrected base value, and so does the value `Update` stores. -/
theorem Update_channel_without_buff (clock : Int) (p : Parameter) :
    ((∀ b ∈ p.buffInfos, b.effectId ≠ p.effectIdForDuration) →
      (∀ e ∈ _GetRecalculatedEffectValues (_CorrectParameter p)
          (_GetCurTimeInMillis clock (_CorrectParameter p)),
        _GetEffectAddedValue (_CorrectParameter p).updateDuration e.2
          (_CorrectParameter p).effectIdForDuration = (_CorrectParameter p).updateDuration) ∧
      (Update clock p).2.updateDuration = (_CorrectParameter p).updateDuration) ∧
    ((∀ b ∈ p.buffInfos, b.effectId ≠ p.effectIdForMaxValue) →
      (∀ e ∈ _GetRecalculatedEffectValues (_CorrectParameter p)
          (_GetCurTimeInMillis clock (_CorrectParameter p)),
        _GetEffectAddedValue (_CorrectParameter p).maxValue e.2
          (_CorrectParameter p).effectIdForMaxValue = p.maxValue) ∧
      (Update clock p).2.maxValue = p.maxValue) ∧
    ((∀ b ∈ p.buffInfos, b.effectId ≠ p.effectIdForUpdateValue) →
      (∀ e ∈ _GetRecalculatedEffectValues (_CorrectParameter p)
          (_GetCurTimeInMillis clock (_CorrectParameter p)),
        _GetEffectAddedValue (_CorrectParameter p).updateValue e.2
          (_CorrectParameter p).effectIdForUpdateValue = (_CorrectParameter p).updateValue) ∧
      (Update clock p).2.updateValue = (_CorrectParameter p).updateValue) := by
  obtain ⟨fb, -, -, fmx, -, -, f2, f3, f4, -⟩ := correct_frame p
  have hfind : ∀ id : Int, (∀ b ∈ p.buffInfos, b.effectId ≠ id) →
      ∀ e ∈ _GetRecalculatedEffectValues (_CorrectParameter p)
          (_GetCurTimeInMillis clock (_CorrectParameter p)), mapFind id e.2 = none := by
    intro id hid e he
    have hkeys := recalculated_keys (fun k => k ≠ id) (_CorrectParameter p)
      (_GetCurTimeInMillis clock (_CorrectParameter p)) (by rw [fb]; exact hid)
    exact mapFind_none_of_keys _ _ (fun kv hkv => (hkeys e he kv hkv).1)
  refine ⟨fun hb => ?_, fun hb => ?_, fun hb => ?_⟩
  · have hf := hfind _ hb
    rw [← f3] at hf
    refine ⟨fun e he => getEffectAddedValue_none _ _ _ (hf e he), ?_⟩
    rw [Update_eq, (updateFinish_fields _ _).1]
    exact foldl_updateStep_duration_unbuffed _ _ (updateInit (_CorrectParameter p)) hf rfl
  · have hf := hfind _ hb
    rw [← f2] at hf
    rw [← fmx]
    refine ⟨fun e he => getEffectAddedValue_none _ _ _ (hf e he), ?_⟩
    rw [Update_eq, (updateFinish_fields _ _).2.1]
    exact foldl_updateStep_max_unbuffed _ _ (updateInit (_CorrectParameter p)) hf rfl
  · have hf := hfind _ hb
    rw [← f4] at hf
    refine ⟨fun e he => getEffectAddedValue_none _ _ _ (hf e he), ?_⟩
    rw [Update_eq, (updateFinish_fields _ _).2.2]
    exact (foldl_updateStep_frame _ _ (updateInit (_CorrectParameter p))).2.2.2.2.2.2.1

/-- Counterexample of C13 as stated: with the max-value, duration and tick-value channel ids
at -1 and one buff with effect id -1 and value +5, the buff is gathered once for each of the
three channels, every breakpoint holds the delta 15, and `Update` stores the interval 25 and
the max 115 where the base values are 10 and 100. -/
theorem Update_channel_without_buff_counterexample :
    unassignedChannelsState.effectIdForCurValue = 1 ∧
    unassignedChannelsState.effectIdForMaxValue = -1 ∧
    unassignedChannelsState.effectIdForDuration = -1 ∧
    unassignedChannelsState.effectIdForUpdateValue = -1 ∧
    unassignedChannelsState.buffInfos = [⟨-1, 5, 100000⟩] ∧
    0 < unassignedChannelsState.curTimeInMillis ∧
    _GetRecalculatedEffectValues (_CorrectParameter unassignedChannelsState) 35000
      = [(35000, [(-1, 15)]), (100000, [(-1, 15)])] ∧
    (_CorrectParameter unassignedChannelsState).updateDuration = 10 ∧
    (Update 0 unassignedChannelsState).2.updateDuration = 25 ∧
    (Update 0 unassignedChannelsState).2.maxValue = 115 := by
  decide

/-- Witness of C13: the duration channel id is -1 and the only buff is on the max-value
channel 2; the interval stays 10 while the max becomes 110. -/
theorem Update_channel_without_buff_witness :
    (∀ b ∈ unassignedDurationState.buffInfos,
      b.effectId ≠ unassignedDurationState.effectIdForDuration) ∧
    ((∀ e ∈ _GetRecalculatedEffectValues (_CorrectParameter unassignedDurationState)
          (_GetCurTimeInMillis 0 (_CorrectParameter unassignedDurationState)),
        _GetEffectAddedValue (_CorrectParameter unassignedDurationState).updateDuration e.2
          (_CorrectParameter unassignedDurationState).effectIdForDuration
          = (_CorrectParameter unassignedDurationState).updateDuration) ∧
      (Update 0 unassignedDurationState).2.updateDuration
        = (_CorrectParameter unassignedDurationState).updateDuration) ∧
    (Update 0 unassignedDurationState).2.updateDuration = 10 ∧
    (Update 0 unassignedDurationState).2.maxValue = 110 :=
  ⟨by decide, (Update_channel_without_buff 0 unassignedDurationState).1 (by decide),
    by decide, by decide⟩

/-! ## C14: the method `Reset` -/

/-- C14. The method `Reset` leaves `curValue`, `maxValue`, `lastUpdateTimeInMillis`,
`updateValue` and the buff list as they are: on the state `nearCapState` they keep the values
95, 100, -1 and 5, and the results of `Reset` on two states differ. -/
theorem Reset_keeps_fields :
    (Parameter.Reset nearCapState).curValue = 95 ∧
    (Parameter.Reset nearCapState).maxValue = 100 ∧
    (Parameter.Reset nearCapState).lastUpdateTimeInMillis = -1 ∧
    (Parameter.Reset nearCapState).updateValue = 5 ∧
    (Parameter.Reset maxBuffState).buffInfos = [⟨2, 10, 100000⟩] ∧
    Parameter.Reset nearCapState ≠ Parameter.Reset regenState := by
  decide

/-! ## C15: accumulated deltas -/

/-- C15. With a buff of +10 that expires at 40000 ms and a buff of +20 that expires at
50000 ms on the max-value channel, gathering and `_AccumulateEffectValues` leave 50 at the
breakpoint 40000 (and 20 at 50000), where the sum of the buffs that expire at or after 40000
is 30. -/
theorem Accumulate_doubles_running_sum :
    _GatherEffectValues [] twoBuffState = [(40000, [(2, 10)]), (50000, [(2, 20)])] ∧
    _AccumulateEffectValues (_GatherEffectValues [] twoBuffState)
        twoBuffState.effectIdForCurValue
      = [(40000, [(2, 50)]), (50000, [(2, 20)])] ∧
    _GetRecalculatedEffectValues twoBuffState 35000
      = [(35000, [(2, 50)]), (40000, [(2, 50)]), (50000, [(2, 20)])] := by
  decide

/-! ## C16: the breakpoints and the reconciliation window -/

/-- C16 (amended). Breakpoints of the reconciliation window: for every state, buff list and
effective now `T ≥ lastUpdateTimeInMillis`, the sequence built by
`_GetRecalculatedEffectValues` is strictly ascending in time, every timestamp in it is at least
`lastUpdateTimeInMillis` and is `T` or the expiry time of a buff, and the breakpoint at `T` is
in it; when no buff expires after `T`, every timestamp is at most `T` and the last element is
the breakpoint at `T`. -/
theorem recalculated_window (p : Parameter) (T : Int) (hT : p.lastUpdateTimeInMillis ≤ T) :
    (_GetRecalculatedEffectValues p T).Pairwise (fun a b => a.1 < b.1) ∧
    (∀ e ∈ _GetRecalculatedEffectValues p T,
      p.lastUpdateTimeInMillis ≤ e.1 ∧
      (e.1 = T ∨ ∃ b ∈ p.buffInfos, b.endTimeInMillis = e.1)) ∧
    (∃ e ∈ _GetRecalculatedEffectValues p T, e.1 = T) ∧
    ((∀ b ∈ p.buffInfos, b.endTimeInMillis ≤ T) →
      (∀ e ∈ _GetRecalculatedEffectValues p T, e.1 ≤ T) ∧
      ∃ pre m, _GetRecalculatedEffectValues p T = pre ++ [(T, m)]) := by
  have hle : (∀ b ∈ p.buffInfos, b.endTimeInMillis ≤ T) →
      ∀ e ∈ _GetRecalculatedEffectValues p T, e.1 ≤ T :=
    fun hb => recalculated_times (fun t => t ≤ T) p T (le_refl T) hb
  refine ⟨recalculated_sorted p T, ?_, recalculated_mem_now p T hT, ?_⟩
  · intro e he
    refine ⟨recalculated_lower_bound p T e he, ?_⟩
    exact recalculated_times (fun t => t = T ∨ ∃ b ∈ p.buffInfos, b.endTimeInMillis = t) p T
      (Or.inl rfl) (fun b hb => Or.inr ⟨b, hb, rfl⟩) e he
  · intro hb
    exact ⟨hle hb, last_of_sorted_bounded _ T (recalculated_sorted p T)
      (recalculated_mem_now p T hT) (hle hb)⟩

/-- Counterexample of C16 as stated: on the interval example (effective now 35000, never
updated) the buff expires at 100000 ms; its breakpoint is kept after the breakpoint of now, so
a timestamp exceeds the effective now and the last element is not the breakpoint at now. -/
theorem recalculated_window_counterexample :
    intervalBuffState.lastUpdateTimeInMillis ≤ 35000 ∧
    _GetRecalculatedEffectValues intervalBuffState 35000
      = [(35000, [(3, -5)]), (100000, [(3, -5)])] ∧
    (∃ e ∈ _GetRecalculatedEffectValues intervalBuffState 35000, (35000 : Int) < e.1) ∧
    (_GetRecalculatedEffectValues intervalBuffState 35000).getLast? = some (100000, [(3, -5)]) := by
  decide

/-- Witness of C16: the regeneration example with a buff on the tick-value channel that
expires at 20000 ms, before the effective now 35000. -/
theorem recalculated_window_witness :
    tickValueBuffState.lastUpdateTimeInMillis ≤ 35000 ∧
    ((_GetRecalculatedEffectValues tickValueBuffState 35000).Pairwise
        (fun a b => a.1 < b.1) ∧
      (∀ e ∈ _GetRecalculatedEffectValues tickValueBuffState 35000,
        tickValueBuffState.lastUpdateTimeInMillis ≤ e.1 ∧
        (e.1 = 35000 ∨ ∃ b ∈ tickValueBuffState.buffInfos, b.endTimeInMillis = e.1)) ∧
      (∃ e ∈ _GetRecalculatedEffectValues tickValueBuffState 35000, e.1 = 35000) ∧
      ((∀ b ∈ tickValueBuffState.buffInfos, b.endTimeInMillis ≤ 35000) →
        (∀ e ∈ _GetRecalculatedEffectValues tickValueBuffState 35000, e.1 ≤ 35000) ∧
        ∃ pre m, _GetRecalculatedEffectValues tickValueBuffState 35000
          = pre ++ [(35000, m)])) ∧
    _GetRecalculatedEffectValues tickValueBuffState 35000 = [(20000, [(4, 5)]), (35000, [])] :=
  ⟨by decide, recalculated_window tickValueBuffState 35000 (by decide), by decide⟩

/-! ## C17: the divisor of the tick count -/

theorem foldl_updateStep_duration_pos (T : Int) (bps : TimeEffectValueList) (s : LoopState)
    (hs : 1 ≤ s.parameter.updateDuration ∧ 1 ≤ s.curUpdateDuration) :
    1 ≤ (bps.foldl (updateStep T) s).curUpdateDuration := by
  induction bps generalizing s with
  | nil => exact hs.2
  | cons e rest ih =>
    rw [List.foldl_cons]
    apply ih
    refine ⟨?_, ?_⟩
    · rw [(updateStep_frame T s e).2.2.2.2.2.1]; exact hs.1
    · rw [updateStep_curUpdateDuration]
      exact getEffectAddedValue_pos _ _ _ hs.1

/-- C17. No division by zero: for every state (including `updateDuration ≤ 0` and
`updateValue ≤ 0`), every buff list and every clock, at every breakpoint of `Update` (the
breakpoints before it being processed) the effective interval `curUpdateDuration`, by which
the loop body divides, is at least 1; and after `Update` the stored `updateDuration` and
`updateValue` are both at least 1. -/
theorem Update_divisor_positive (clock : Int) (p : Parameter) :
    (∀ pre e post,
      _GetRecalculatedEffectValues (_CorrectParameter p)
          (_GetCurTimeInMillis clock (_CorrectParameter p)) = pre ++ e :: post →
      1 ≤ (updateStep (_GetCurTimeInMillis clock (_CorrectParameter p))
            (pre.foldl (updateStep (_GetCurTimeInMillis clock (_CorrectParameter p)))
              (updateInit (_CorrectParameter p))) e).curUpdateDuration) ∧
    1 ≤ (Update clock p).2.updateDuration ∧
    1 ≤ (Update clock p).2.updateValue := by
  obtain ⟨hD, hV, -⟩ := correct_corrected p
  refine ⟨?_, ?_, ?_⟩
  · intro pre e post _
    rw [updateStep_curUpdateDuration]
    apply getEffectAddedValue_pos
    rw [(foldl_updateStep_frame _ pre _).2.2.2.2.2.1]
    exact hD
  · rw [Update_eq]
    have h := foldl_updateStep_duration_pos (_GetCurTimeInMillis clock (_CorrectParameter p))
      (_GetRecalculatedEffectValues (_CorrectParameter p)
        (_GetCurTimeInMillis clock (_CorrectParameter p)))
      (updateInit (_CorrectParameter p)) ⟨hD, hD⟩
    generalize (_GetRecalculatedEffectValues (_CorrectParameter p)
      (_GetCurTimeInMillis clock (_CorrectParameter p))).foldl
      (updateStep (_GetCurTimeInMillis clock (_CorrectParameter p)))
      (updateInit (_CorrectParameter p)) = s at *
    unfold updateFinish
    dsimp only
    split_ifs <;> exact h
  · rw [Update_eq]
    have h := (foldl_updateStep_frame (_GetCurTimeInMillis clock (_CorrectParameter p))
      (_GetRecalculatedEffectValues (_CorrectParameter p)
        (_GetCurTimeInMillis clock (_CorrectParameter p)))
      (updateInit (_CorrectParameter p))).2.2.2.2.2.2.1
    have hV' : 1 ≤ (updateInit (_CorrectParameter p)).parameter.updateValue := hV
    rw [← h] at hV'
    generalize (_GetRecalculatedEffectValues (_CorrectParameter p)
      (_GetCurTimeInMillis clock (_CorrectParameter p))).foldl
      (updateStep (_GetCurTimeInMillis clock (_CorrectParameter p)))
      (updateInit (_CorrectParameter p)) = s at *
    unfold updateFinish
    dsimp only
    split_ifs <;> exact hV'

/-! ## C18: downward correction -/

theorem updateStep_downward (T : Int) (s : LoopState) (e : Int × EffectValueList)
    (hdc : s.parameter.downwardCorrection = true)
    (hcur : mapFind s.parameter.effectIdForCurValue e.2 = none) :
    (updateStep T s e).parameter.curValue ≤ (updateStep T s e).curMaxValue ∨
    (updateStep T s e).parameter.curValue ≤ (updateStep T s e).parameter.minValue := by
  rcases s with ⟨p, u, l, cd, cv, cm⟩
  rcases p with ⟨b, c, mn, mx, l', t, D, V, j1, j2, j3, j4, r, dc⟩
  dsimp only at hdc hcur
  subst hdc
  simp only [updateStep, increaseCurValue_eq, hcur, Bool.true_eq_false, false_and, if_false]
  omega

/-- C18. Downward correction pulls the current value down to a reduced max: for every state
with `downwardCorrection = true`, every buff list and every frozen now `> 0` whose effective
now is at least `lastUpdateTimeInMillis`, if `minValue` is at most the max stored by `Update`
then after `Update` the current value is at most the stored max. -/
theorem Update_downward_correction (clock : Int) (p : Parameter)
    (hdc : p.downwardCorrection = true) (hnow : 0 < p.curTimeInMillis)
    (hT : p.lastUpdateTimeInMillis ≤ p.curTimeInMillis / 1000 * 1000)
    (hmin : (Update clock p).2.minValue ≤ (Update clock p).2.maxValue) :
    (Update clock p).2.curValue ≤ (Update clock p).2.maxValue := by
  rw [Update_eq, getCurTime_frozen clock p hnow] at hmin ⊢
  obtain ⟨-, -, -, -, fl, f1, -, -, -, fdc⟩ := correct_frame p
  rw [← fl] at hT
  obtain ⟨e0, he0, -⟩ := recalculated_mem_now (_CorrectParameter p) _ hT
  have hkeys := recalculated_keys (fun _ => True) (_CorrectParameter p)
    (p.curTimeInMillis / 1000 * 1000) (fun _ _ => trivial)
  rcases List.eq_nil_or_concat
    (_GetRecalculatedEffectValues (_CorrectParameter p) (p.curTimeInMillis / 1000 * 1000))
    with h | ⟨pre, x, h⟩
  · rw [h] at he0; cases he0
  · rw [List.concat_eq_append] at h
    rw [h] at hkeys hmin ⊢
    rw [List.foldl_append, List.foldl_cons, List.foldl_nil] at hmin ⊢
    obtain ⟨-, -, -, -, -, -, -, g1, -, -, -, gdc⟩ :=
      foldl_updateStep_frame (p.curTimeInMillis / 1000 * 1000) pre
        (updateInit (_CorrectParameter p))
    have hstep := updateStep_downward (p.curTimeInMillis / 1000 * 1000)
      (pre.foldl (updateStep (p.curTimeInMillis / 1000 * 1000))
        (updateInit (_CorrectParameter p))) x
      (by rw [gdc]; exact fdc.trans hdc)
      (by
        rw [g1]
        exact mapFind_none_of_keys _ _ (fun kv hkv =>
          (hkeys x (List.mem_append_right _ (List.mem_singleton.mpr rfl)) kv hkv).2))
    generalize updateStep (p.curTimeInMillis / 1000 * 1000)
      (pre.foldl (updateStep (p.curTimeInMillis / 1000 * 1000))
        (updateInit (_CorrectParameter p))) x = s at *
    unfold updateFinish at hmin ⊢
    dsimp only at hmin ⊢
    split_ifs at hmin ⊢ <;> dsimp only at hmin ⊢ <;> omega

/-- Witness of C18: current 80 of 100 with an active buff of -50 on the max-value channel and
downward correction; `Update` stores the max 50 and pulls the current value down to 50. -/
theorem Update_downward_correction_witness :
    loweredMaxDownwardState.downwardCorrection = true ∧
    0 < loweredMaxDownwardState.curTimeInMillis ∧
    loweredMaxDownwardState.lastUpdateTimeInMillis
      ≤ loweredMaxDownwardState.curTimeInMillis / 1000 * 1000 ∧
    (Update 0 loweredMaxDownwardState).2.minValue
      ≤ (Update 0 loweredMaxDownwardState).2.maxValue ∧
    (Update 0 loweredMaxDownwardState).2.curValue
      ≤ (Update 0 loweredMaxDownwardState).2.maxValue ∧
    (Update 0 loweredMaxDownwardState).2.curValue = 50 ∧
    (Update 0 loweredMaxDownwardState).2.maxValue = 50 :=
  ⟨rfl, by decide, by decide, by decide,
    Update_downward_correction 0 loweredMaxDownwardState rfl (by decide) (by decide)
      (by decide),
    by decide, by decide⟩

/-! ## C19: lower bound of the current value -/

/-- C19. Lower bound: for every state (whatever its current value, min, max and
`downwardCorrection`), every buff list and every clock, `Update` leaves `minValue` as it was
and leaves a current value that is at least `minValue`. -/
theorem Update_lower_bound (clock : Int) (p : Parameter) :
    (Update clock p).2.minValue = p.minValue ∧
    (Update clock p).2.minValue ≤ (Update clock p).2.curValue := by
  rw [Update_eq]
  obtain ⟨-, hmin, -⟩ := foldl_updateStep_frame (_GetCurTimeInMillis clock (_CorrectParameter p))
    (_GetRecalculatedEffectValues (_CorrectParameter p)
      (_GetCurTimeInMillis clock (_CorrectParameter p)))
    (updateInit (_CorrectParameter p))
  have hmin' : (updateInit (_CorrectParameter p)).parameter.minValue = p.minValue :=
    (correct_frame p).2.2.1
  rw [hmin'] at hmin
  generalize (_GetRecalculatedEffectValues (_CorrectParameter p)
      (_GetCurTimeInMillis clock (_CorrectParameter p))).foldl
      (updateStep (_GetCurTimeInMillis clock (_CorrectParameter p)))
      (updateInit (_CorrectParameter p)) = s at *
  unfold updateFinish
  dsimp only
  split_ifs <;> exact ⟨hmin, le_max_right _ _⟩

/-! ## C20: range of the countdown -/

/-- C20 (amended). The countdown stays in range: for every state with `updateDuration < 2^31`
and `remainingSeconds < 2^31`, every buff list with expiry times `≥ 0` and every frozen now
`> 0` whose effective now is at least `lastUpdateTimeInMillis` (which includes every negative
`lastUpdateTimeInMillis`), if at no breakpoint the `int` sum of the elapsed seconds overflows
(`now / 1000 + D + max 0 (-remainingSeconds) < 2^31` for the effective interval `D` of every
breakpoint, so in particular `now / 1000 < 2^31`), then after `Update` the countdown is
`updateDuration - 1` when the call ended at the cap (`curValue ≥ maxValue`) and lies between 1
and `updateDuration` otherwise, for the stored `updateDuration`; in both cases
`0 ≤ remainingSeconds ≤ updateDuration`. -/
theorem Update_countdown_range (clock : Int) (p : Parameter)
    (hexp : ∀ b ∈ p.buffInfos, 0 ≤ b.endTimeInMillis)
    (hnow : 0 < p.curTimeInMillis)
    (hT : p.lastUpdateTimeInMillis ≤ p.curTimeInMillis / 1000 * 1000)
    (hDi : p.updateDuration < 2147483648) (hri : p.remainingSeconds < 2147483648)
    (H : ∀ e ∈ _GetRecalculatedEffectValues (_CorrectParameter p)
        (p.curTimeInMillis / 1000 * 1000),
      p.curTimeInMillis / 1000
        + _GetEffectAddedValue (_CorrectParameter p).updateDuration e.2 p.effectIdForDuration
        + max 0 (-p.remainingSeconds) < 2147483648) :
    ((Update clock p).2.maxValue ≤ (Update clock p).2.curValue →
      (Update clock p).2.remainingSeconds = (Update clock p).2.updateDuration - 1) ∧
    ((Update clock p).2.curValue < (Update clock p).2.maxValue →
      1 ≤ (Update clock p).2.remainingSeconds ∧
      (Update clock p).2.remainingSeconds ≤ (Update clock p).2.updateDuration) ∧
    0 ≤ (Update clock p).2.remainingSeconds ∧
    (Update clock p).2.remainingSeconds ≤ (Update clock p).2.updateDuration := by
  rw [Update_eq, getCurTime_frozen clock p hnow]
  obtain ⟨fb, -, -, -, fl, -, -, f3, -, -⟩ := correct_frame p
  obtain ⟨hD, -, -⟩ := correct_corrected p
  have hqD := correct_updateDuration p
  have hqr : (_CorrectParameter p).remainingSeconds < 2147483648 ∧
      max 0 (-(_CorrectParameter p).remainingSeconds) ≤ max 0 (-p.remainingSeconds) := by
    rcases correct_remaining p with ⟨h1, h2⟩ | h
    · rw [h2]; omega
    · rw [h]; omega
  rw [← fl] at hT
  rw [← fb] at hexp
  rw [← f3] at H
  obtain ⟨X, hX⟩ : ∃ X, X = max 0 (-p.remainingSeconds) := ⟨_, rfl⟩
  rw [← hX] at H hqr
  clear hX hqD hri hDi
  generalize _CorrectParameter p = q at *
  have hT0 : 0 ≤ p.curTimeInMillis / 1000 * 1000 := by omega
  have hTd : p.curTimeInMillis / 1000 * 1000 / 1000 = p.curTimeInMillis / 1000 := by omega
  obtain ⟨n, hndef⟩ : ∃ n, n = p.curTimeInMillis / 1000 := ⟨_, rfl⟩
  rw [← hndef] at H hT hT0 hTd ⊢
  obtain ⟨T, hTdef⟩ : ∃ T, T = n * 1000 := ⟨_, rfl⟩
  rw [← hTdef] at H hT hT0 hTd ⊢
  obtain ⟨e0, he0, -⟩ := recalculated_mem_now q T hT
  have hgood := foldl_updateStep_countdown_init q T hT0 hD (_GetRecalculatedEffectValues q T)
    (fun h => by rw [h] at he0; cases he0) (recalculated_sorted q T)
    (recalculated_times (fun t => 0 ≤ t) q T hT0 hexp) (recalculated_lower_bound q T) hT
    hqr.1 (fun e he => by have := H e he; rw [hTd]; omega)
  generalize (_GetRecalculatedEffectValues q T).foldl (updateStep T) (updateInit q) = s at *
  clear he0 H
  unfold updateFinish
  dsimp only
  split_ifs with hcap <;> dsimp only
  · refine ⟨fun _ => rfl, fun h => ?_, ?_, ?_⟩ <;> omega
  · refine ⟨fun h => ?_, fun _ => hgood, ?_, ?_⟩ <;> omega

/-- Counterexample of C20 as stated.  First input: with the clock frozen at `2^31` seconds and
the state never updated, the elapsed seconds become a negative `int` (line 91); the remainder
of the truncating division is negative and `Update` leaves the countdown 18 with the interval
10, below the cap (current 0 of 100).  Second input: the regeneration example with
`remainingSeconds = -400000000` and the clock frozen at 1793400000000 ms; the elapsed seconds
1793400000 fit an `int`, but the `int` sum `duration += elapsedSeconds` of line 99 adds
400000010 to them and wraps to a negative value, and `Update` leaves the countdown 16 with the
interval 10, below the cap. -/
theorem Update_countdown_range_counterexample :
    ((∀ b ∈ lateState.buffInfos, 0 ≤ b.endTimeInMillis) ∧
      0 < lateState.curTimeInMillis ∧
      lateState.lastUpdateTimeInMillis = -1 ∧
      lateState.lastUpdateTimeInMillis ≤ lateState.curTimeInMillis / 1000 * 1000 ∧
      (Update 0 lateState).2.curValue < (Update 0 lateState).2.maxValue ∧
      (Update 0 lateState).2.remainingSeconds = 18 ∧
      (Update 0 lateState).2.updateDuration = 10) ∧
    ((∀ b ∈ debtState.buffInfos, 0 ≤ b.endTimeInMillis) ∧
      0 < debtState.curTimeInMillis ∧ debtState.curTimeInMillis / 1000 < 2147483648 ∧
      debtState.lastUpdateTimeInMillis = -1 ∧
      debtState.lastUpdateTimeInMillis ≤ debtState.curTimeInMillis / 1000 * 1000 ∧
      debtState.remainingSeconds = -400000000 ∧
      (Update 0 debtState).2.curValue < (Update 0 debtState).2.maxValue ∧
      (Update 0 debtState).2.remainingSeconds = 16 ∧
      (Update 0 debtState).2.updateDuration = 10) := by
  decide

/-- Witness of C20: the interval example (buff of -5 on the duration channel) ends below the
cap with the countdown 5 and the interval 5. -/
theorem Update_countdown_range_witness :
    (∀ b ∈ intervalBuffState.buffInfos, 0 ≤ b.endTimeInMillis) ∧
    0 < intervalBuffState.curTimeInMillis ∧
    intervalBuffState.lastUpdateTimeInMillis
      ≤ intervalBuffState.curTimeInMillis / 1000 * 1000 ∧
    intervalBuffState.updateDuration < 2147483648 ∧
    intervalBuffState.remainingSeconds < 2147483648 ∧
    (∀ e ∈ _GetRecalculatedEffectValues (_CorrectParameter intervalBuffState)
        (intervalBuffState.curTimeInMillis / 1000 * 1000),
      intervalBuffState.curTimeInMillis / 1000
        + _GetEffectAddedValue (_CorrectParameter intervalBuffState).updateDuration e.2
          intervalBuffState.effectIdForDuration
        + max 0 (-intervalBuffState.remainingSeconds) < 2147483648) ∧
    (((Update 0 intervalBuffState).2.maxValue ≤ (Update 0 intervalBuffState).2.curValue →
        (Update 0 intervalBuffState).2.remainingSeconds
          = (Update 0 intervalBuffState).2.updateDuration - 1) ∧
      ((Update 0 intervalBuffState).2.curValue < (Update 0 intervalBuffState).2.maxValue →
        1 ≤ (Update 0 intervalBuffState).2.remainingSeconds ∧
        (Update 0 intervalBuffState).2.remainingSeconds
          ≤ (Update 0 intervalBuffState).2.updateDuration) ∧
      0 ≤ (Update 0 intervalBuffState).2.remainingSeconds ∧
      (Update 0 intervalBuffState).2.remainingSeconds
        ≤ (Update 0 intervalBuffState).2.updateDuration) ∧
    (Update 0 intervalBuffState).2.remainingSeconds = 5 ∧
    (Update 0 intervalBuffState).2.updateDuration = 5 :=
  ⟨by decide, by decide, by decide, by decide, by decide, by decide,
    Update_countdown_range 0 intervalBuffState (by decide) (by decide) (by decide) (by decide)
      (by decide) (by decide),
    by decide, by decide⟩

end TimeValueUpdater
